import Mathlib

/-!
# Verification of the swc variable-inlining pass

A shallow embedding of `src/ecmascript/transforms/src/optimization/simplify/inlining/mod.rs`
(the `Inlining` fold pass) over a representative fragment of the ECMAScript AST, together
with proofs checking the natural-language specification against the code.

The pass's `scope` submodule (`Scope`, `VarInfo`, `store_inline_barrier`, `declare`,
`with_child`, ...) is declared by `mod scope;` in `mod.rs` but its source is not part of
the provided sources; every definition that stands in for it is modelled from the
specification's description of the scope tree (spec section 4.1) and is marked
`Modelled from the spec:` in its doc comment.  Everything else is translated directly
from `mod.rs`.

The embedded AST fragment covers the node types the checked claims quantify over:
literals, identifiers, `this`, assignments (with identifier and member targets), calls,
`new`, binary expressions, member accesses, update expressions, unary expressions,
variable declarations (`var`/`let`/`const`), expression statements, blocks, and `for`
statements.  Function bodies, `try`, `switch`, and the `for-in`/`for-of` forms are
outside the fragment.

All fold functions are fuel-indexed (the constants map re-folds substituted expressions,
which is not structurally recursive; `const a = a; a;` makes the source recurse forever),
returning `none` when fuel runs out.  The state additionally carries a ghost counter
`rewrites` that is incremented exactly at the five places where the fold emits a node
different from the node it received (constant substitution, stored-value substitution
of a differing value, known-undefined substitution, assignment elision, and
declarator-initializer dropping); it instruments the definitions without influencing
any control flow.
-/

set_option maxHeartbeats 1000000

namespace SwcInlining

/-- Resolved identifier: (symbol, binding tag) as produced by the upstream resolver
(`swc_ecma_utils::Id`, a `(JsWord, SyntaxContext)` pair). -/
abbrev Id := String × Nat

/-- `VarDeclKind` of `swc_ecma_ast`. -/
inductive VarDeclKind where
  | varKind
  | letKind
  | constKind
deriving DecidableEq, Repr

/-- Assignment operators, split exactly as `mod.rs` splits them: `op!("=")` versus
every compound operator. -/
inductive AssignOp where
  | eq
  | compound
deriving DecidableEq, Repr

/-- Binary operators, split exactly as `mod.rs` splits them: `op!("&&")` and
`op!("||")` versus everything else. -/
inductive BinOp where
  | land
  | lor
  | other
deriving DecidableEq, Repr

/-- Unary operators, split exactly as `mod.rs` splits them: `op!("delete")` versus the
rest; `void` is kept separate because `swc_ecma_utils::undefined` builds `void 0`. -/
inductive UnaryOp where
  | udelete
  | uvoid
  | uother
deriving DecidableEq, Repr

mutual
/-- Expression fragment of `swc_ecma_ast::Expr`. -/
inductive Expr where
  | lit (n : Nat)
  | ident (i : Id)
  | thisE
  | assign (op : AssignOp) (left : AssignLeft) (right : Expr)
  | call (callee : Expr) (args : List Expr)
  | newE (callee : Expr) (args : List Expr)
  | bin (op : BinOp) (l : Expr) (r : Expr)
  | member (obj : Expr) (prop : Expr) (computed : Bool)
  | update (arg : Expr)
  | unary (op : UnaryOp) (arg : Expr)

/-- Assignment target (`PatOrExpr`): a simple identifier pattern
(`PatOrExpr::Pat(Pat::Ident)` / `PatOrExpr::Expr(Expr::Ident)`) or a member
expression (`PatOrExpr::Expr(Expr::Member)`). -/
inductive AssignLeft where
  | pid (i : Id)
  | mem (obj : Expr) (prop : Expr) (computed : Bool)
end

mutual
/-- Structural (syntactic) equality test on expressions; this is the `PartialEq`
comparison `node != *expr` that `mod.rs` performs before setting the change flag. -/
def exprEqb : Expr → Expr → Bool
  | .lit a, .lit b => a == b
  | .ident a, .ident b => a == b
  | .thisE, .thisE => true
  | .assign o1 l1 r1, .assign o2 l2 r2 =>
    o1 == o2 && leftEqb l1 l2 && exprEqb r1 r2
  | .call c1 a1, .call c2 a2 => exprEqb c1 c2 && exprListEqb a1 a2
  | .newE c1 a1, .newE c2 a2 => exprEqb c1 c2 && exprListEqb a1 a2
  | .bin o1 l1 r1, .bin o2 l2 r2 => o1 == o2 && exprEqb l1 l2 && exprEqb r1 r2
  | .member o1 p1 c1, .member o2 p2 c2 => exprEqb o1 o2 && exprEqb p1 p2 && c1 == c2
  | .update a, .update b => exprEqb a b
  | .unary o1 a1, .unary o2 a2 => o1 == o2 && exprEqb a1 a2
  | _, _ => false

/-- Syntactic equality on assignment targets. -/
def leftEqb : AssignLeft → AssignLeft → Bool
  | .pid a, .pid b => a == b
  | .mem o1 p1 c1, .mem o2 p2 c2 => exprEqb o1 o2 && exprEqb p1 p2 && c1 == c2
  | _, _ => false

/-- Syntactic equality on expression lists. -/
def exprListEqb : List Expr → List Expr → Bool
  | [], [] => true
  | a :: as1, b :: bs => exprEqb a b && exprListEqb as1 bs
  | _, _ => false
end

/-- Patterns as used by declarator names: an identifier or an opaque other pattern
(the `_ => {}` arms of `mod.rs`). -/
inductive Pat where
  | pid (i : Id)
  | pother
deriving DecidableEq, Repr

/-- A single `VarDeclarator`. -/
structure VarDeclarator where
  name : Pat
  init : Option Expr

/-- `VarDeclOrExpr`, the head position of a `for` statement. -/
inductive ForHead where
  | varHead (kind : VarDeclKind) (decls : List VarDeclarator)
  | exprHead (e : Expr)

/-- Statement fragment. -/
inductive Stmt where
  | varDecl (kind : VarDeclKind) (decls : List VarDeclarator)
  | exprStmt (e : Expr)
  | block (stmts : List Stmt)
  | forStmt (init : Option ForHead) (test : Option Expr) (update : Option Expr)
      (body : Stmt)

/-- `swc_ecma_utils::undefined(span)`: the undefined literal, built as `void 0`. -/
def undefinedExpr : Expr := .unary .uvoid (.lit 0)

/-- The two phases of the pass (`enum Phase` in `mod.rs`). -/
inductive Phase where
  | analysis
  | inlining
deriving DecidableEq, Repr

/-- `enum PatFoldingMode` of `mod.rs`. -/
inductive PatMode where
  | assignMode
  | paramMode
  | catchParamMode
  | varDeclMode
deriving DecidableEq, Repr

/-- Modelled from the spec: kind of a binding (spec section 3,
"function-scoped var, block-scoped let, block-scoped const, parameter"). -/
inductive VarType where
  | var (kind : VarDeclKind)
  | param
deriving DecidableEq, Repr

/-- Modelled from the spec: kind tag of a scope (spec section 3: module,
function(named?), block, conditional, loop). -/
inductive ScopeKind where
  | module
  | fn (named : Bool)
  | block
  | cond
  | loop
deriving DecidableEq, Repr

/-- Modelled from the spec: the per-binding record (spec section 3, "Binding
record"): stored value, read count, write count, undefined flag, inline-prevented
flag, this-sensitive flag, kind. -/
structure VarInfo where
  kind : VarType
  value : Option Expr
  readCnt : Nat
  writeCnt : Nat
  isUndefined : Bool
  inlinePrevented : Bool
  thisSensitive : Bool

/-- Modelled from the spec: one scope of the scope tree, holding the bindings it
declares (spec section 3, "Scope tree": bindings live in their declaring scope). -/
structure Frame where
  kind : ScopeKind
  vars : List (Id × VarInfo)

/-- The complete pass state: the fields of `struct Inlining` of `mod.rs` plus the
scope stack and constants map (spec sections 3 and 4.1; the scope stack's head is the
innermost, current scope), plus the ghost rewrite counter described in the file
header. -/
structure St where
  phase : Phase
  isFirstRun : Bool
  changed : Bool
  frames : List Frame
  constants : List (Id × Option Expr)
  varDeclKind : VarDeclKind
  patMode : PatMode
  rewrites : Nat

/-- Lookup of an id in one scope's binding list. -/
def varsLookup : List (Id × VarInfo) → Id → Option VarInfo
  | [], _ => none
  | (j, v) :: rest, i => if j = i then some v else varsLookup rest i

/-- Update the first occurrence of an id in one scope's binding list. -/
def varsUpdate (g : VarInfo → VarInfo) : List (Id × VarInfo) → Id → List (Id × VarInfo)
  | [], _ => []
  | (j, v) :: rest, i =>
    if j = i then (j, g v) :: rest else (j, v) :: varsUpdate g rest i

/-- Modelled from the spec: `find(id)` — innermost binding visible from the current
scope (spec section 4.1). -/
def findBinding (st : St) (i : Id) : Option VarInfo :=
  go st.frames
where
  go : List Frame → Option VarInfo
    | [] => none
    | fr :: rest =>
      match varsLookup fr.vars i with
      | some v => some v
      | none => go rest

/-- Modelled from the spec: `find_in_current(id)` — binding in the innermost scope
only (spec section 4.1); `find_binding_from_current` in `mod.rs`. -/
def findBindingFromCurrent (st : St) (i : Id) : Option VarInfo :=
  match st.frames with
  | [] => none
  | fr :: _ => varsLookup fr.vars i

/-- Apply `g` to the innermost binding of `i`, if any (the interior mutation through
a binding reference that `mod.rs` performs with `var.value.borrow_mut()` and the
`Cell` flags). -/
def updateInnermost (g : VarInfo → VarInfo) (st : St) (i : Id) : St :=
  { st with frames := go st.frames }
where
  go : List Frame → List Frame
    | [] => []
    | fr :: rest =>
      match varsLookup fr.vars i with
      | some _ => { fr with vars := varsUpdate g fr.vars i } :: rest
      | none => fr :: go rest

/-- Modelled from the spec: `declare(id, value?, is_undefined, kind)` — insert a
binding in the current scope; if one exists there, increment its write count and
overwrite its value (spec section 4.1). -/
def declare (st : St) (i : Id) (value : Option Expr) (isUndef : Bool)
    (kind : VarType) : St :=
  match st.frames with
  | [] => st
  | fr :: rest =>
    match varsLookup fr.vars i with
    | some _ =>
      { st with
        frames :=
          { fr with
            vars := varsUpdate
              (fun v => { v with writeCnt := v.writeCnt + 1, value := value })
              fr.vars i } :: rest }
    | none =>
      { st with
        frames :=
          { fr with
            vars := (i, { kind := kind, value := value, readCnt := 0, writeCnt := 0,
                          isUndefined := isUndef, inlinePrevented := false,
                          thisSensitive := false }) :: fr.vars } :: rest }

/-- Modelled from the spec: `add_read(id)` — locate the binding and increment its
read count; do nothing for free variables (spec section 4.1). -/
def addRead (st : St) (i : Id) : St :=
  updateInnermost (fun v => { v with readCnt := v.readCnt + 1 }) st i

/-- Modelled from the spec: `add_write(id, from_child)` — locate the binding and
increment its write count; a write originating from an untracked context
(`from_child = true`) marks the binding inline-prevented (spec section 4.1). -/
def addWrite (st : St) (i : Id) (fromChild : Bool) : St :=
  updateInnermost
    (fun v => { v with writeCnt := v.writeCnt + 1,
                       inlinePrevented := v.inlinePrevented || fromChild }) st i

/-- Modelled from the spec: `prevent_inline(id)` — mark the binding
inline-prevented; no-op when the id is unbound (spec section 4.1). -/
def preventInline (st : St) (i : Id) : St :=
  updateInnermost (fun v => { v with inlinePrevented := true }) st i

/-- Modelled from the spec: `mark_this_sensitive(callee)` — for identifier callees,
flag the binding as this-sensitive (spec section 4.1). -/
def markThisSensitive (st : St) (callee : Expr) : St :=
  match callee with
  | .ident i => updateInnermost (fun v => { v with thisSensitive := true }) st i
  | _ => st

/-- Mark one binding record inline-prevented. -/
def preventedVar (v : VarInfo) : VarInfo := { v with inlinePrevented := true }

/-- Barrier action on one scope: every binding becomes inline-prevented. -/
def barrierFrame (fr : Frame) : Frame :=
  { fr with vars := fr.vars.map fun p => (p.1, preventedVar p.2) }

/-- Modelled from the spec: `store_inline_barrier(phase)` — mark every binding
visible from the current scope as inline-prevented (spec section 4.1; the spec
assigns the phase argument no distinguishing role). -/
def storeInlineBarrier (st : St) (_phase : Phase) : St :=
  { st with frames := st.frames.map barrierFrame }

/-- Modelled from the spec: `find_constant(id)` — lookup in the separate first-run
constants map (spec section 4.1).  The map stores `Option Expr`: `none` records a
"known-but-non-inlineable" constant (spec section 4.2); `find_constant` yields the
inlineable stored expression, if any. -/
def findConstant (st : St) (i : Id) : Option Expr :=
  match go st.constants with
  | some (some e) => some e
  | _ => none
where
  go : List (Id × Option Expr) → Option (Option Expr)
    | [] => none
    | (j, e) :: rest => if j = i then some e else go rest

/-- Insert into the constants map (`self.scope.constants.insert`). -/
def insertConstant (st : St) (i : Id) (e : Option Expr) : St :=
  { st with constants := (i, e) :: st.constants }

/-- Read counter of a binding (`read_cnt` in `mod.rs`). -/
def readCnt (st : St) (i : Id) : Option Nat :=
  (findBinding st i).map (·.readCnt)

mutual
/-- `swc_ecma_utils::contains_this_expr`, over the fragment (the fragment has no
function expressions, into which the real visitor would not descend). -/
def containsThis : Expr → Bool
  | .lit _ => false
  | .ident _ => false
  | .thisE => true
  | .assign _ l r => containsThisLeft l || containsThis r
  | .call c args => containsThis c || containsThisList args
  | .newE c args => containsThis c || containsThisList args
  | .bin _ l r => containsThis l || containsThis r
  | .member o p _ => containsThis o || containsThis p
  | .update a => containsThis a
  | .unary _ a => containsThis a

/-- `contains_this_expr` over an assignment target. -/
def containsThisLeft : AssignLeft → Bool
  | .pid _ => false
  | .mem o p _ => containsThis o || containsThis p

/-- `contains_this_expr` over an expression list. -/
def containsThisList : List Expr → Bool
  | [] => false
  | e :: rest => containsThis e || containsThisList rest
end

/-- Modelled from the spec: `is_inline_prevented(expr)` — recursively true if the
expression is an identifier whose binding is prevented, contains a prevented
sub-expression, or is a disallowed form: calls, constructions, assignments, updates,
`delete`, member accesses on non-literal objects (spec section 4.1). -/
def isInlinePrevented (st : St) : Expr → Bool
  | .lit _ => false
  | .thisE => false
  | .ident i =>
    match findBinding st i with
    | some v => v.inlinePrevented
    | none => false
  | .assign _ _ _ => true
  | .call _ _ => true
  | .newE _ _ => true
  | .update _ => true
  | .unary op a =>
    match op with
    | .udelete => true
    | _ => isInlinePrevented st a
  | .bin _ l r => isInlinePrevented st l || isInlinePrevented st r
  | .member obj prop computed =>
    match obj with
    | .lit _ => computed && isInlinePrevented st prop
    | _ => true

/-- Modelled from the spec: `has_same_this(id, init?)` — true iff inlining `init` in
place of reads of `id` would not alter any `this` binding; false exactly when `init`
contains `this` and `id` is used inside a differently-bound function (spec
section 4.1).  The embedded fragment contains no function scopes, so no use site can
be differently bound and the predicate is identically true. -/
def hasSameThis (_st : St) (_i : Id) (_init : Option Expr) : Bool :=
  true

/-- Push a fresh scope of the given kind (spec section 4.1, `enter(kind)`). -/
def pushFrame (kind : ScopeKind) (st : St) : St :=
  { st with frames := { kind := kind, vars := [] } :: st.frames }

/-- Pop the innermost scope, discarding its bindings (spec section 4.1, `exit()`). -/
def popFrame (st : St) : St :=
  { st with frames := st.frames.tail }

/-- Modelled from the spec: `with_child` of the pass — enter a scope of the given
kind, run the folding continuation, exit (spec section 4.1). -/
def withChild (kind : ScopeKind) (st : St)
    (k : St → Option (St × α)) : Option (St × α) := do
  let (st2, a) ← k (pushFrame kind st)
  pure (popFrame st2, a)

/-- Ghost instrumentation: count one rewrite action. -/
def bumpRewrites (st : St) : St :=
  { st with rewrites := st.rewrites + 1 }

/-- `swc_ecma_utils::find_ids` applied to the assignment target (`find_ids(&e.left)`
in `mod.rs`): binding identifiers of the pattern side; a member-expression target
has none. -/
def findIdsLeft : AssignLeft → List Id
  | .pid i => [i]
  | .mem _ _ _ => []

mutual
/-- Identifiers visited by `IdentListVisitor` in an expression, in visit order;
the visitor descends into everything except the property of a non-computed member
access (`Visit<MemberExpr> for IdentListVisitor`). -/
def collectIds : Expr → List Id
  | .lit _ => []
  | .thisE => []
  | .ident i => [i]
  | .assign _ l r => collectIdsLeft l ++ collectIds r
  | .call c args => collectIds c ++ collectIdsList args
  | .newE c args => collectIds c ++ collectIdsList args
  | .bin _ l r => collectIds l ++ collectIds r
  | .member o p computed => collectIds o ++ (if computed then collectIds p else [])
  | .update a => collectIds a
  | .unary _ a => collectIds a

/-- `IdentListVisitor` over an assignment target. -/
def collectIdsLeft : AssignLeft → List Id
  | .pid i => [i]
  | .mem o p computed => collectIds o ++ (if computed then collectIds p else [])

/-- `IdentListVisitor` over an expression list. -/
def collectIdsList : List Expr → List Id
  | [] => []
  | e :: rest => collectIds e ++ collectIdsList rest
end

/-- `IdentListVisitor` over a pattern (identifiers in patterns are visited). -/
def collectIdsPat : Pat → List Id
  | .pid i => [i]
  | .pother => []

/-- `IdentListVisitor` over a declarator. -/
def collectIdsDeclarator : VarDeclarator → List Id
  | .mk name init =>
    collectIdsPat name ++ (match init with | some e => collectIds e | none => [])

/-- `IdentListVisitor` over a declarator list. -/
def collectIdsDeclarators : List VarDeclarator → List Id
  | [] => []
  | d :: rest => collectIdsDeclarator d ++ collectIdsDeclarators rest

/-- `IdentListVisitor` over a `for` head. -/
def collectIdsForHead : ForHead → List Id
  | .varHead _ ds => collectIdsDeclarators ds
  | .exprHead e => collectIds e

/-- `Visit<Ident> for IdentListVisitor`: every visited identifier is written from an
untracked context — `add_write(id, true)` (`mod.rs` lines 848-852). -/
def identListVisit (st : St) (ids : List Id) : St :=
  ids.foldl (fun s i => addWrite s i true) st

/-- Update the binding of `i` in the current (innermost) scope only — the interior
mutation performed through the reference that `find_binding_from_current` returns. -/
def updateCurrent (g : VarInfo → VarInfo) (st : St) (i : Id) : St :=
  match st.frames with
  | [] => st
  | fr :: rest => { st with frames := { fr with vars := varsUpdate g fr.vars i } :: rest }

/-- Store a value into the innermost visible binding of `i`
(`*var.value.borrow_mut() = ...` after `find_binding` in `Fold<AssignExpr>`). -/
def setValueInnermost (st : St) (i : Id) (e : Option Expr) : St :=
  updateInnermost (fun v => { v with value := e }) st i

/-- The assignment-elision state change of `Fold<Expr>` (`mod.rs` lines 553-556): the
current-scope binding's value becomes the right-hand side and its undefined flag is
cleared; ghost-counts one rewrite for the expression replacement. -/
def elideAssign (st : St) (i : Id) (rhs : Expr) : St :=
  bumpRewrites
    (updateCurrent (fun v => { v with value := some rhs, isUndefined := false }) st i)

/-- `Fold<Pat> for Inlining` (`mod.rs` lines 659-694): identifier patterns act
according to the current pattern-folding mode; on the fragment a pattern has no
foldable children, so `fold_children` is the identity. -/
def foldPat (st : St) (p : Pat) : St × Pat :=
  match p with
  | .pid i =>
    (match st.patMode with
     | .paramMode => declare st i (some (.ident i)) false .param
     | .catchParamMode => declare st i (some (.ident i)) false (.var .varKind)
     | .varDeclMode => st
     | .assignMode =>
       match findBindingFromCurrent st i with
       | some _ => st
       | none => addWrite st i false, p)
  | .pother => (st, p)

mutual

/-- `Fold<Expr> for Inlining` (`mod.rs` lines 529-627): fold the children, then in
the inlining phase try the assignment elision, then handle identifier reads
(first-run constants, analysis reads, inlining substitution). -/
def foldExpr : Nat → St → Expr → Option (St × Expr)
  | 0, _, _ => none
  | f + 1, st, node => do
    let (st1, node1) ← foldExprChildren f st node
    match st1.phase, node1 with
    | .inlining, .assign .eq left rhs =>
      match left with
      | .pid i =>
        (match findBindingFromCurrent st1 i with
         | some v =>
           if v.isUndefined && !v.inlinePrevented && !(isInlinePrevented st1 rhs) then
             pure (elideAssign st1 i rhs, rhs)
           else pure (st1, Expr.assign .eq left rhs)
         | none => pure (st1, Expr.assign .eq left rhs))
      | _ => pure (st1, Expr.assign .eq left rhs)
    | _, _ =>
      match node1 with
      | .ident i =>
        (match (if st1.isFirstRun then findConstant st1 i else none) with
         | some expr =>
           foldExpr f (bumpRewrites { st1 with changed := true }) expr
         | none =>
           match st1.phase with
           | .analysis => pure (addRead st1 i, node1)
           | .inlining =>
             match findBinding st1 i with
             | some v =>
               if !v.inlinePrevented then
                 match v.value with
                 | some expr =>
                   let st2 := if exprEqb node1 expr then st1
                              else { st1 with changed := true }
                   pure (bumpRewrites st2, expr)
                 | none =>
                   if v.isUndefined then pure (bumpRewrites st1, undefinedExpr)
                   else pure (st1, node1)
               else pure (st1, node1)
             | none => pure (st1, node1))
      | _ => pure (st1, node1)

/-- `fold_children` for an expression: dispatch each composite node to its own
`Fold` implementation; identifiers, literals and `this` have no children. -/
def foldExprChildren : Nat → St → Expr → Option (St × Expr)
  | 0, _, _ => none
  | f + 1, st, node =>
    match node with
    | .assign op left right => foldAssign f st op left right
    | .call c args => foldCall f st c args
    | .newE c args => foldNew f st c args
    | .bin op l r => foldBin f st op l r
    | .member o p c => foldMember f st o p c
    | .update a => foldUpdate f st a
    | .unary op a => foldUnary f st op a
    | other => pure (st, other)

/-- `Fold<AssignExpr> for Inlining` (`mod.rs` lines 441-516). -/
def foldAssign : Nat → St → AssignOp → AssignLeft → Expr → Option (St × Expr)
  | 0, _, _, _, _ => none
  | f + 1, st, op, left, right => do
    let st := { st with patMode := .assignMode }
    let st :=
      match left with
      | .mem o p c =>
        identListVisit (identListVisit st (collectIds (.member o p c))) (collectIds right)
      | .pid i => (foldPat st (.pid i)).1
    let (st, right') ← foldExpr f st right
    let st :=
      match op with
      | .eq => st
      | .compound =>
        identListVisit (identListVisit st (collectIdsLeft left)) (collectIds right')
    if isInlinePrevented st right' then
      pure ((findIdsLeft left).foldl (fun s j => preventInline s j) st,
            Expr.assign op left right')
    else
      match right' with
      | .lit _ | .ident _ =>
        (match left with
         | .pid i =>
           let st := addWrite st i false
           let st :=
             match findBinding st i with
             | some v =>
               if !v.inlinePrevented then setValueInnermost st i (some right') else st
             | none => st
           pure (st, Expr.assign op left right')
         | _ => pure (st, Expr.assign op left right'))
      | _ => pure (st, Expr.assign op left right')

/-- `Fold<CallExpr> for Inlining` (`mod.rs` lines 404-424): fold the callee, in the
analysis phase mark it this-sensitive, fold the arguments, then raise the inline
barrier. -/
def foldCall : Nat → St → Expr → List Expr → Option (St × Expr)
  | 0, _, _, _ => none
  | f + 1, st, callee, args => do
    let (st, callee') ← foldExpr f st callee
    let st := if st.phase = .analysis then markThisSensitive st callee' else st
    let (st, args') ← foldExprList f st args
    pure (storeInlineBarrier st st.phase, Expr.call callee' args')

/-- `Fold<NewExpr> for Inlining` (`mod.rs` lines 426-439). -/
def foldNew : Nat → St → Expr → List Expr → Option (St × Expr)
  | 0, _, _, _ => none
  | f + 1, st, callee, args => do
    let (st, callee') ← foldExpr f st callee
    let st := if st.phase = .analysis then markThisSensitive st callee' else st
    let (st, args') ← foldExprList f st args
    pure (storeInlineBarrier st st.phase, Expr.newE callee' args')

/-- `Fold<BinExpr> for Inlining` (`mod.rs` lines 806-816): for `&&` and `||` only
the left operand is folded — in whichever phase the fold runs; every other operator
folds both children. -/
def foldBin : Nat → St → BinOp → Expr → Expr → Option (St × Expr)
  | 0, _, _, _, _ => none
  | f + 1, st, op, l, r =>
    match op with
    | .land => do
      let (st, l') ← foldExpr f st l
      pure (st, Expr.bin .land l' r)
    | .lor => do
      let (st, l') ← foldExpr f st l
      pure (st, Expr.bin .lor l' r)
    | .other => do
      let (st, l') ← foldExpr f st l
      let (st, r') ← foldExpr f st r
      pure (st, Expr.bin .other l' r')

/-- `Fold<MemberExpr> for Inlining` (`mod.rs` lines 518-527): the object is folded;
the property only when the access is computed. -/
def foldMember : Nat → St → Expr → Expr → Bool → Option (St × Expr)
  | 0, _, _, _, _ => none
  | f + 1, st, obj, prop, computed => do
    let (st, obj') ← foldExpr f st obj
    if computed then do
      let (st, prop') ← foldExpr f st prop
      pure (st, Expr.member obj' prop' computed)
    else
      pure (st, Expr.member obj' prop computed)

/-- `Fold<UpdateExpr> for Inlining` (`mod.rs` lines 629-638): the operand is visited
by `IdentListVisitor` (written-from-child, hence prevented) and the node is returned
without folding its children. -/
def foldUpdate : Nat → St → Expr → Option (St × Expr)
  | 0, _, _ => none
  | _ + 1, st, arg => pure (identListVisit st (collectIds arg), Expr.update arg)

/-- `Fold<UnaryExpr> for Inlining` (`mod.rs` lines 640-657): `delete` visits its
operand with `IdentListVisitor` and returns the node unfolded; any other operator
folds its children. -/
def foldUnary : Nat → St → UnaryOp → Expr → Option (St × Expr)
  | 0, _, _, _ => none
  | f + 1, st, op, arg =>
    match op with
    | .udelete => pure (identListVisit st (collectIds arg), Expr.unary .udelete arg)
    | .uvoid => do
      let (st, arg') ← foldExpr f st arg
      pure (st, Expr.unary .uvoid arg')
    | .uother => do
      let (st, arg') ← foldExpr f st arg
      pure (st, Expr.unary .uother arg')

/-- Fold of an expression list (call/new arguments), in order. -/
def foldExprList : Nat → St → List Expr → Option (St × List Expr)
  | 0, _, _ => none
  | _ + 1, st, [] => pure (st, [])
  | f + 1, st, e :: rest => do
    let (st, e') ← foldExpr f st e
    let (st, rest') ← foldExprList f st rest
    pure (st, e' :: rest')

/-- Fold of an optional expression. -/
def foldOptExpr : Nat → St → Option Expr → Option (St × Option Expr)
  | 0, _, _ => none
  | _ + 1, st, none => pure (st, none)
  | f + 1, st, some e => do
    let (st, e') ← foldExpr f st e
    pure (st, some e')

/-- `Fold<VarDeclarator> for Inlining` (`mod.rs` lines 144-288).  The initializer is
folded first; the analysis phase records constants and declares bindings, the
inlining phase decides whether the declarator keeps its initializer (dropping it
moves the value into the binding record for substitution at the reads). -/
def foldVarDeclarator : Nat → St → VarDeclarator → Option (St × VarDeclarator)
  | 0, _, _ => none
  | f + 1, st, d => do
    let kind := VarType.var st.varDeclKind
    let (st, init1) ← foldOptExpr f st d.init
    let st := { st with patMode := .varDeclMode }
    match st.phase with
    | .analysis =>
      (match d.name, init1 with
       | .pid name, none =>
         let st := if st.varDeclKind ≠ .constKind then declare st name none true kind
                   else st
         let (st, name') := foldPat st d.name
         pure (st, ⟨name', none⟩)
       | .pid name, some e =>
         if st.varDeclKind = .constKind then
           let st :=
             match e with
             | .lit _ => if st.isFirstRun then insertConstant st name (some e) else st
             | .ident _ => if st.isFirstRun then insertConstant st name (some e) else st
             | _ => if st.isFirstRun then insertConstant st name none else st
           let (st, name') := foldPat st d.name
           pure (st, ⟨name', some e⟩)
         else
           match e with
           | .lit _ =>
             let st := declare st name (some e) false kind
             let st := if isInlinePrevented st e then preventInline st name else st
             let (st, name') := foldPat st d.name
             pure (st, ⟨name', some e⟩)
           | .ident _ =>
             let st := declare st name (some e) false kind
             let st := if isInlinePrevented st e then preventInline st name else st
             let (st, name') := foldPat st d.name
             pure (st, ⟨name', some e⟩)
           | _ =>
             let st := declare st name (some e) false kind
             if containsThis e then
               pure (preventInline st name, ⟨.pid name, some e⟩)
             else
               let (st, name') := foldPat st d.name
               pure (st, ⟨name', some e⟩)
       | _, _ =>
         let (st, name') := foldPat st d.name
         pure (st, ⟨name', init1⟩))
    | .inlining =>
      match d.name with
      | .pid name =>
        if st.varDeclKind ≠ .constKind then
          if isInlinePrevented st (.ident name) || !(hasSameThis st name init1) then
            pure (st, ⟨.pid name, init1⟩)
          else do
            let (st, init2) ← foldOptExpr f st init1
            let st :=
              match init2 with
              | some (.ident ri) => declare st name (some (.ident ri)) false kind
              | _ => st
            if (match init2 with
                | some e => isInlinePrevented st e
                | none => false) then
              pure (preventInline st name, ⟨.pid name, init2⟩)
            else
              match init2 with
              | none =>
                pure (declare st name none false kind, ⟨.pid name, none⟩)
              | some (.lit n) =>
                pure (bumpRewrites (declare st name (some (.lit n)) false kind),
                      ⟨.pid name, none⟩)
              | some (.ident ri) =>
                pure (bumpRewrites (declare st name (some (.ident ri)) false kind),
                      ⟨.pid name, none⟩)
              | some e =>
                if isInlinePrevented st (.ident name) then
                  pure (st, ⟨.pid name, some e⟩)
                else
                  match readCnt st name with
                  | some 1 =>
                    pure (bumpRewrites (declare st name (some e) false kind),
                          ⟨.pid name, none⟩)
                  | some _ => pure (st, ⟨.pid name, some e⟩)
                  | none => pure (st, ⟨.pid name, some e⟩)
        else
          let (st, name') := foldPat st d.name
          pure (st, ⟨name', init1⟩)
      | .pother =>
        let (st, name') := foldPat st d.name
        pure (st, ⟨name', init1⟩)

/-- Fold of a declarator list, in order. -/
def foldDeclarators : Nat → St → List VarDeclarator → Option (St × List VarDeclarator)
  | 0, _, _ => none
  | _ + 1, st, [] => pure (st, [])
  | f + 1, st, d :: rest => do
    let (st, d') ← foldVarDeclarator f st d
    let (st, rest') ← foldDeclarators f st rest
    pure (st, d' :: rest')

/-- `Fold<VarDecl> for Inlining` (`mod.rs` lines 136-142): record the declaration
kind, then fold the declarators. -/
def foldVarDecl : Nat → St → VarDeclKind → List VarDeclarator →
    Option (St × List VarDeclarator)
  | 0, _, _, _ => none
  | f + 1, st, kd, decls => do
    let st := { st with varDeclKind := kd }
    foldDeclarators f st decls

/-- Fold of one statement: `fold_children` on `Stmt`, dispatching each payload to
its own `Fold` implementation. -/
def foldStmt : Nat → St → Stmt → Option (St × Stmt)
  | 0, _, _ => none
  | f + 1, st, s =>
    match s with
    | .varDecl kd ds => do
      let (st, ds') ← foldVarDecl f st kd ds
      pure (st, Stmt.varDecl kd ds')
    | .exprStmt e => do
      let (st, e') ← foldExpr f st e
      pure (st, Stmt.exprStmt e')
    | .block ss => do
      let (st2, ss') ← foldStmts f (pushFrame .block st) ss
      pure (popFrame st2, Stmt.block ss')
    | .forStmt i t u b => foldFor f st i t u b

/-- `Fold<Vec<Stmt>> for Inlining` (`mod.rs` lines 112-134): in the analysis phase a
plain child fold; in the inlining phase the statement list is re-analysed locally
and then inlined. -/
def foldStmts : Nat → St → List Stmt → Option (St × List Stmt)
  | 0, _, _ => none
  | f + 1, st, ss =>
    match st.phase with
    | .analysis => foldStmtList f st ss
    | .inlining => do
      let (st, ss1) ← foldStmtList f { st with phase := .analysis } ss
      let (st, ss2) ← foldStmtList f { st with phase := .inlining } ss1
      pure ({ st with phase := .inlining }, ss2)

/-- Element-wise fold of a statement list (the `fold_children` of `Vec<Stmt>`). -/
def foldStmtList : Nat → St → List Stmt → Option (St × List Stmt)
  | 0, _, _ => none
  | _ + 1, st, [] => pure (st, [])
  | f + 1, st, s :: rest => do
    let (st, s') ← foldStmt f st s
    let (st, rest') ← foldStmtList f st rest
    pure (st, s' :: rest')

/-- Fold of a `for` head (`VarDeclOrExpr`). -/
def foldOptForHead : Nat → St → Option ForHead → Option (St × Option ForHead)
  | 0, _, _ => none
  | _ + 1, st, none => pure (st, none)
  | f + 1, st, some (.varHead kd ds) => do
    let (st, ds') ← foldVarDecl f st kd ds
    pure (st, some (ForHead.varHead kd ds'))
  | f + 1, st, some (.exprHead e) => do
    let (st, e') ← foldExpr f st e
    pure (st, some (ForHead.exprHead e'))

/-- `Fold<ForStmt> for Inlining` (`mod.rs` lines 744-774): fold the head, visit
head/test/update with `IdentListVisitor`, fold test and update, fold the body in a
child loop scope, and raise the inline barrier exactly when init, test and update
are all absent. -/
def foldFor : Nat → St → Option ForHead → Option Expr → Option Expr → Stmt →
    Option (St × Stmt)
  | 0, _, _, _, _, _ => none
  | f + 1, st, init, test, update, body => do
    let (st, init') ← foldOptForHead f st init
    let st := identListVisit st
      (match init' with | some h => collectIdsForHead h | none => [])
    let st := identListVisit st (match test with | some e => collectIds e | none => [])
    let st := identListVisit st
      (match update with | some e => collectIds e | none => [])
    let (st, test') ← foldOptExpr f st test
    let (st, update') ← foldOptExpr f st update
    let (st2, body') ← foldStmt f (pushFrame .loop st) body
    let st := popFrame st2
    let st := if init'.isNone && test'.isNone && update'.isNone then
                storeInlineBarrier st st.phase
              else st
    pure (st, Stmt.forStmt init' test' update' body')

end

/-- `Fold<Vec<ModuleItem>> for Inlining` (`mod.rs` lines 93-110): one full run of
the pass over a module body — the analysis pass followed by the inlining pass, with
the ambient phase restored afterwards. -/
def foldModule : Nat → St → List Stmt → Option (St × List Stmt)
  | 0, _, _ => none
  | f + 1, st, items => do
    let old := st.phase
    let (st, items1) ← foldStmtList f { st with phase := .analysis } items
    let (st, items2) ← foldStmtList f { st with phase := .inlining } items1
    pure ({ st with phase := old }, items2)

/-- The state of a freshly constructed pass (`pub fn inlining(_: Config)` in
`mod.rs`), with a root module scope. -/
def initState : St :=
  { phase := .analysis, isFirstRun := true, changed := false,
    frames := [{ kind := .module, vars := [] }], constants := [],
    varDeclKind := .varKind, patMode := .varDeclMode, rewrites := 0 }

/-- `Repeated::changed` (`mod.rs` lines 54-56). -/
def changedFlag (st : St) : Bool := st.changed

/-- `Repeated::reset` (`mod.rs` lines 58-61): clear the change flag and leave the
first run. -/
def resetPass (st : St) : St := { st with changed := false, isFirstRun := false }

/-- Default fuel used for concrete runs; ample for every program considered here. -/
def fuelDef : Nat := 40

/-- One full run of the pass from a given state. -/
def runModule (st : St) (p : List Stmt) : Option (St × List Stmt) :=
  foldModule fuelDef st p

/-- The program produced by a first run of the pass. -/
def runProg (p : List Stmt) : Option (List Stmt) :=
  (runModule initState p).map (·.2)

/-- The change flag after a first run of the pass. -/
def runChanged (p : List Stmt) : Option Bool :=
  (runModule initState p).map (fun r => r.1.changed)

/-- Bindings of `a` that are inline-prevented stay present and prevented in `b`
(the per-scope half of the monotonicity invariant). -/
def FrameMono (a b : Frame) : Prop :=
  ∀ i v, varsLookup a.vars i = some v → v.inlinePrevented = true →
    ∃ w, varsLookup b.vars i = some w ∧ w.inlinePrevented = true

/-- Scope-stack monotonicity: the stacks have the same shape and every prevented
binding stays prevented, scope by scope. -/
def FramesMono (a b : List Frame) : Prop := List.Forall₂ FrameMono a b

/-- The state invariant every folding step preserves: scope-stack monotonicity of
the `inline_prevented` flags, monotone growth of the ghost rewrite counter, and —
when no rewrite was counted — preservation of the change flag. -/
def StInv (s t : St) : Prop :=
  FramesMono s.frames t.frames ∧ s.rewrites ≤ t.rewrites ∧
    (t.rewrites = s.rewrites → t.changed = s.changed)

/-- Packaging of the per-function inductive statement: the step keeps `StInv` and,
when it counted no rewrite, returns its input node unchanged. -/
def InvOut {α : Type} (st : St) (a : α) (r : St × α) : Prop :=
  StInv st r.1 ∧ (r.1.rewrites = st.rewrites → r.2 = a)

/-- Every binding visible from the current scope is inline-prevented. -/
def allPrevented (st : St) : Bool :=
  st.frames.all fun fr => fr.vars.all fun p => p.2.inlinePrevented

/-- Identifiers used by the concrete example programs. -/
def xId : Id := ("x", 0)

/-- Identifier `y` of the example programs. -/
def yId : Id := ("y", 0)

/-- Identifier `a` of the example programs. -/
def aId : Id := ("a", 0)

/-- Identifier `n` of the example programs. -/
def nId : Id := ("n", 0)

/-- Identifier `call` of the example programs. -/
def callId : Id := ("call", 0)

/-- Identifier `use` of the example programs. -/
def useId : Id := ("use", 0)

/-- Identifier `z` of the example programs. -/
def zId : Id := ("z", 0)

/-- A one-scope test state with given phase and module-scope bindings, outside the
first run, as the driver produces it after a reset. -/
def mkSt (ph : Phase) (vars : List (Id × VarInfo)) : St :=
  { phase := ph, isFirstRun := false, changed := false,
    frames := [{ kind := .module, vars := vars }], constants := [],
    varDeclKind := .varKind, patMode := .varDeclMode, rewrites := 0 }

/-- Binding record of a bare `var` declaration after one analysis read: undefined,
unprevented. -/
def undefInfo : VarInfo :=
  { kind := .var .varKind, value := none, readCnt := 1, writeCnt := 0,
    isUndefined := true, inlinePrevented := false, thisSensitive := false }

/-- Binding record of `let v = n` after analysis: value stored, unprevented. -/
def litInfo (n : Nat) : VarInfo :=
  { kind := .var .letKind, value := some (.lit n), readCnt := 1, writeCnt := 0,
    isUndefined := false, inlinePrevented := false, thisSensitive := false }

/-- An inline-prevented binding record. -/
def prevInfo : VarInfo :=
  { kind := .var .letKind, value := some (.lit 2), readCnt := 1, writeCnt := 1,
    isUndefined := false, inlinePrevented := true, thisSensitive := false }

/-- A binding whose stored value is a self-reference, as `declare` produces for
parameters. -/
def selfRefInfo (i : Id) : VarInfo :=
  { kind := .param, value := some (.ident i), readCnt := 1, writeCnt := 0,
    isUndefined := false, inlinePrevented := false, thisSensitive := false }

/-- Inductive property of `foldExpr` at a given fuel. -/
def GE (f : Nat) : Prop := ∀ st e r, foldExpr f st e = some r → InvOut st e r

/-- Inductive property of `foldExprChildren`. -/
def GEC (f : Nat) : Prop := ∀ st e r, foldExprChildren f st e = some r → InvOut st e r

/-- Inductive property of `foldAssign`. -/
def GA (f : Nat) : Prop :=
  ∀ st op l rhs r, foldAssign f st op l rhs = some r → InvOut st (Expr.assign op l rhs) r

/-- Inductive property of `foldCall`. -/
def GCall (f : Nat) : Prop :=
  ∀ st c args r, foldCall f st c args = some r → InvOut st (Expr.call c args) r

/-- Inductive property of `foldNew`. -/
def GNew (f : Nat) : Prop :=
  ∀ st c args r, foldNew f st c args = some r → InvOut st (Expr.newE c args) r

/-- Inductive property of `foldBin`. -/
def GB (f : Nat) : Prop :=
  ∀ st op l rr r, foldBin f st op l rr = some r → InvOut st (Expr.bin op l rr) r

/-- Inductive property of `foldMember`. -/
def GM (f : Nat) : Prop :=
  ∀ st o p c r, foldMember f st o p c = some r → InvOut st (Expr.member o p c) r

/-- Inductive property of `foldUpdate`. -/
def GUp (f : Nat) : Prop :=
  ∀ st a r, foldUpdate f st a = some r → InvOut st (Expr.update a) r

/-- Inductive property of `foldUnary`. -/
def GUn (f : Nat) : Prop :=
  ∀ st op a r, foldUnary f st op a = some r → InvOut st (Expr.unary op a) r

/-- Inductive property of `foldExprList`. -/
def GEL (f : Nat) : Prop := ∀ st es r, foldExprList f st es = some r → InvOut st es r

/-- Inductive property of `foldOptExpr`. -/
def GOE (f : Nat) : Prop := ∀ st oe r, foldOptExpr f st oe = some r → InvOut st oe r

/-- Inductive property of `foldVarDeclarator`. -/
def GVD (f : Nat) : Prop := ∀ st d r, foldVarDeclarator f st d = some r → InvOut st d r

/-- Inductive property of `foldDeclarators`. -/
def GDs (f : Nat) : Prop := ∀ st ds r, foldDeclarators f st ds = some r → InvOut st ds r

/-- Inductive property of `foldVarDecl`. -/
def GVDl (f : Nat) : Prop :=
  ∀ st kd ds r, foldVarDecl f st kd ds = some r → InvOut st ds r

/-- Inductive property of `foldStmt`. -/
def GS (f : Nat) : Prop := ∀ st s r, foldStmt f st s = some r → InvOut st s r

/-- Inductive property of `foldStmts`. -/
def GSs (f : Nat) : Prop := ∀ st ss r, foldStmts f st ss = some r → InvOut st ss r

/-- Inductive property of `foldStmtList`. -/
def GSL (f : Nat) : Prop := ∀ st ss r, foldStmtList f st ss = some r → InvOut st ss r

/-- Inductive property of `foldOptForHead`. -/
def GOH (f : Nat) : Prop := ∀ st oh r, foldOptForHead f st oh = some r → InvOut st oh r

/-- Inductive property of `foldFor`. -/
def GFor (f : Nat) : Prop :=
  ∀ st i t u b r, foldFor f st i t u b = some r → InvOut st (Stmt.forStmt i t u b) r

/-- The conjunction of the inductive properties of every fold function. -/
def GAll (f : Nat) : Prop :=
  GE f ∧ GEC f ∧ GA f ∧ GCall f ∧ GNew f ∧ GB f ∧ GM f ∧ GUp f ∧ GUn f ∧ GEL f ∧
    GOE f ∧ GVD f ∧ GDs f ∧ GVDl f ∧ GS f ∧ GSs f ∧ GSL f ∧ GOH f ∧ GFor f

end SwcInlining

namespace SwcInlining

theorem frameMono_refl (a : Frame) : FrameMono a a :=
  fun i v h hp => ⟨v, h, hp⟩

theorem framesMono_refl : ∀ l : List Frame, FramesMono l l
  | [] => List.Forall₂.nil
  | _ :: rest => List.Forall₂.cons (frameMono_refl _) (framesMono_refl rest)

theorem frameMono_trans {a b c : Frame} (h1 : FrameMono a b) (h2 : FrameMono b c) :
    FrameMono a c := by
  intro i v hv hp
  obtain ⟨w, hw, hwp⟩ := h1 i v hv hp
  exact h2 i w hw hwp

theorem framesMono_trans : ∀ {a b c : List Frame},
    FramesMono a b → FramesMono b c → FramesMono a c := by
  intro a b c h1 h2
  induction h1 generalizing c with
  | nil => cases h2; exact List.Forall₂.nil
  | cons hab htail ih =>
    cases h2 with
    | cons hbc htail2 => exact List.Forall₂.cons (frameMono_trans hab hbc) (ih htail2)

theorem stInv_refl (s : St) : StInv s s :=
  ⟨framesMono_refl _, le_refl _, fun _ => rfl⟩

theorem stInv_trans {a b c : St} (h1 : StInv a b) (h2 : StInv b c) : StInv a c := by
  obtain ⟨f1, r1, c1⟩ := h1
  obtain ⟨f2, r2, c2⟩ := h2
  refine ⟨framesMono_trans f1 f2, le_trans r1 r2, fun h => ?_⟩
  have hb : b.rewrites = a.rewrites := le_antisymm (h ▸ r2) r1
  have hc : c.rewrites = b.rewrites := hb ▸ h
  rw [c2 hc, c1 hb]

theorem stInv_of_fields {s t : St} (hf : t.frames = s.frames)
    (hr : t.rewrites = s.rewrites) (hc : t.changed = s.changed) : StInv s t := by
  refine ⟨?_, le_of_eq hr.symm, fun _ => hc⟩
  rw [hf]; exact framesMono_refl _

theorem lookup_varsUpdate (g : VarInfo → VarInfo) :
    ∀ (l : List (Id × VarInfo)) (i j : Id),
      varsLookup (varsUpdate g l i) j =
        if j = i then (varsLookup l i).map g else varsLookup l j := by
  intro l
  induction l with
  | nil => intro i j; simp [varsUpdate, varsLookup]
  | cons p rest ih =>
    intro i j
    obtain ⟨k, v⟩ := p
    by_cases hk : k = i
    · by_cases hj : j = i
      · have hkj : k = j := by rw [hk, hj]
        simp [varsUpdate, varsLookup, hk, hj, hkj]
      · have hkj : ¬ k = j := by rw [hk]; exact fun h => hj h.symm
        have hij : ¬ i = j := fun h => hj h.symm
        simp [varsUpdate, varsLookup, hk, hj, hkj, hij]
    · by_cases hkj : k = j
      · have hj : ¬ j = i := by rw [← hkj]; exact hk
        simp [varsUpdate, varsLookup, hk, hj, hkj]
      · simp [varsUpdate, varsLookup, hk, hkj, ih i j]

theorem lookup_mapSecond (h : VarInfo → VarInfo) :
    ∀ (l : List (Id × VarInfo)) (j : Id),
      varsLookup (l.map fun p => (p.1, h p.2)) j = (varsLookup l j).map h := by
  intro l
  induction l with
  | nil => intro j; simp [varsLookup]
  | cons p rest ih =>
    intro j
    obtain ⟨k, v⟩ := p
    by_cases hk : k = j
    · subst hk; simp [varsLookup]
    · simp [varsLookup, hk, ih j]

theorem frameMono_update {fr : Frame} {g : VarInfo → VarInfo} {i : Id}
    (hg : ∀ v, v.inlinePrevented = true → (g v).inlinePrevented = true) :
    FrameMono fr { fr with vars := varsUpdate g fr.vars i } := by
  intro j v hv hp
  rw [show ({ fr with vars := varsUpdate g fr.vars i } : Frame).vars
        = varsUpdate g fr.vars i from rfl, lookup_varsUpdate]
  by_cases hj : j = i
  · subst hj
    exact ⟨g v, by simp [hv], hg v hp⟩
  · simp only [hj, if_false]
    exact ⟨v, hv, hp⟩

theorem frameMono_insert {fr : Frame} {i : Id} {info : VarInfo}
    (h : varsLookup fr.vars i = none) :
    FrameMono fr { fr with vars := (i, info) :: fr.vars } := by
  intro j v hv hp
  by_cases hj : i = j
  · subst hj; rw [h] at hv; cases hv
  · exact ⟨v, by simpa [varsLookup, hj] using hv, hp⟩

theorem framesMono_updateInnermost_go (g : VarInfo → VarInfo) (i : Id)
    (hg : ∀ v, v.inlinePrevented = true → (g v).inlinePrevented = true) :
    ∀ fs : List Frame, FramesMono fs (updateInnermost.go g i fs) := by
  intro fs
  induction fs with
  | nil => exact List.Forall₂.nil
  | cons fr rest ih =>
    unfold updateInnermost.go
    cases hl : varsLookup fr.vars i with
    | some v => exact List.Forall₂.cons (frameMono_update hg) (framesMono_refl rest)
    | none => exact List.Forall₂.cons (frameMono_refl fr) ih

theorem stInv_updateInnermost {g : VarInfo → VarInfo} {st : St} {i : Id}
    (hg : ∀ v, v.inlinePrevented = true → (g v).inlinePrevented = true) :
    StInv st (updateInnermost g st i) :=
  ⟨framesMono_updateInnermost_go g i hg st.frames, le_refl _, fun _ => rfl⟩

theorem stInv_addRead (st : St) (i : Id) : StInv st (addRead st i) :=
  stInv_updateInnermost (fun v h => h)

theorem stInv_addWrite (st : St) (i : Id) (b : Bool) : StInv st (addWrite st i b) :=
  stInv_updateInnermost (fun v h => by simp [h])

theorem stInv_preventInline (st : St) (i : Id) : StInv st (preventInline st i) :=
  stInv_updateInnermost (fun v _ => rfl)

theorem stInv_markThisSensitive (st : St) (c : Expr) :
    StInv st (markThisSensitive st c) := by
  unfold markThisSensitive
  cases c <;> first
    | exact stInv_updateInnermost (fun v h => h)
    | exact stInv_refl st

theorem stInv_setValueInnermost (st : St) (i : Id) (e : Option Expr) :
    StInv st (setValueInnermost st i e) :=
  stInv_updateInnermost (fun v h => h)

theorem stInv_bump (st : St) : StInv st (bumpRewrites st) :=
  ⟨framesMono_refl _, Nat.le_succ _, fun h => absurd h (Nat.succ_ne_self _)⟩

theorem stInv_updateCurrent (g : VarInfo → VarInfo) (st : St) (i : Id)
    (hg : ∀ v, v.inlinePrevented = true → (g v).inlinePrevented = true) :
    StInv st (updateCurrent g st i) := by
  unfold updateCurrent
  split
  · exact stInv_refl st
  next fr rest heq =>
    refine ⟨?_, le_refl _, fun _ => rfl⟩
    rw [heq]
    exact List.Forall₂.cons (frameMono_update hg) (framesMono_refl rest)

theorem stInv_elideAssign (st : St) (i : Id) (rhs : Expr) :
    StInv st (elideAssign st i rhs) := by
  unfold elideAssign
  exact stInv_trans
    (stInv_updateCurrent (fun v => { v with value := some rhs, isUndefined := false })
      st i (fun v h => h))
    (stInv_bump _)

theorem stInv_declare (st : St) (i : Id) (v : Option Expr) (u : Bool) (k : VarType) :
    StInv st (declare st i v u k) := by
  unfold declare
  split
  · exact stInv_refl st
  next fr rest heq =>
    split
    next w hl =>
      refine ⟨?_, le_refl _, fun _ => rfl⟩
      rw [heq]
      exact List.Forall₂.cons (frameMono_update (fun x h => h)) (framesMono_refl rest)
    next hl =>
      refine ⟨?_, le_refl _, fun _ => rfl⟩
      rw [heq]
      exact List.Forall₂.cons (frameMono_insert hl) (framesMono_refl rest)

theorem framesMono_map {F : Frame → Frame} (hF : ∀ fr, FrameMono fr (F fr)) :
    ∀ fs : List Frame, FramesMono fs (fs.map F) := by
  intro fs
  induction fs with
  | nil => exact List.Forall₂.nil
  | cons fr rest ih => exact List.Forall₂.cons (hF fr) ih

theorem frameMono_barrierFrame (fr : Frame) : FrameMono fr (barrierFrame fr) := by
  intro j v hv hp
  refine ⟨preventedVar v, ?_, rfl⟩
  show varsLookup (fr.vars.map fun p => (p.1, preventedVar p.2)) j = some (preventedVar v)
  rw [lookup_mapSecond, hv, Option.map_some']

theorem stInv_storeInlineBarrier (st : St) (ph : Phase) :
    StInv st (storeInlineBarrier st ph) :=
  ⟨framesMono_map frameMono_barrierFrame st.frames, le_refl _, fun _ => rfl⟩

theorem stInv_insertConstant (st : St) (i : Id) (e : Option Expr) :
    StInv st (insertConstant st i e) :=
  ⟨framesMono_refl _, le_refl _, fun _ => rfl⟩

theorem stInv_identListVisit : ∀ (ids : List Id) (st : St),
    StInv st (identListVisit st ids) := by
  intro ids
  induction ids with
  | nil => intro st; exact stInv_refl st
  | cons i rest ih =>
    intro st
    exact stInv_trans (stInv_addWrite st i true) (ih (addWrite st i true))

theorem identListVisit_rewrites : ∀ (ids : List Id) (st : St),
    (identListVisit st ids).rewrites = st.rewrites := by
  intro ids
  induction ids with
  | nil => intro st; rfl
  | cons i rest ih => intro st; exact ih (addWrite st i true)

theorem stInv_push_pop {k : ScopeKind} {st t : St}
    (h : StInv (pushFrame k st) t) : StInv st (popFrame t) := by
  obtain ⟨hf, hr, hc⟩ := h
  rw [show (pushFrame k st).frames = { kind := k, vars := [] } :: st.frames from rfl] at hf
  cases ht : t.frames with
  | nil => rw [ht] at hf; cases hf
  | cons b bs =>
    rw [ht] at hf
    cases hf with
    | cons hhead htail =>
      refine ⟨?_, hr, hc⟩
      show FramesMono st.frames t.frames.tail
      rw [ht]
      exact htail

theorem declare_rewrites (st : St) (i : Id) (v : Option Expr) (u : Bool) (k : VarType) :
    (declare st i v u k).rewrites = st.rewrites := by
  unfold declare
  (repeat' split) <;> rfl

theorem declare_changed (st : St) (i : Id) (v : Option Expr) (u : Bool) (k : VarType) :
    (declare st i v u k).changed = st.changed := by
  unfold declare
  (repeat' split) <;> rfl

theorem stInv_foldPat (st : St) (p : Pat) : StInv st (foldPat st p).1 := by
  cases p with
  | pother => exact stInv_refl st
  | pid i =>
    show StInv st (match st.patMode with
      | .paramMode => declare st i (some (.ident i)) false .param
      | .catchParamMode => declare st i (some (.ident i)) false (.var .varKind)
      | .varDeclMode => st
      | .assignMode =>
        match findBindingFromCurrent st i with
        | some _ => st
        | none => addWrite st i false)
    split
    · exact stInv_declare st i _ _ _
    · exact stInv_declare st i _ _ _
    · exact stInv_refl st
    · split
      · exact stInv_refl st
      · exact stInv_addWrite st i false

theorem foldPat_snd (st : St) (p : Pat) : (foldPat st p).2 = p := by
  cases p <;> rfl

theorem foldPat_rewrites (st : St) (p : Pat) : (foldPat st p).1.rewrites = st.rewrites := by
  cases p with
  | pother => rfl
  | pid i =>
    show (match st.patMode with
      | .paramMode => declare st i (some (.ident i)) false .param
      | .catchParamMode => declare st i (some (.ident i)) false (.var .varKind)
      | .varDeclMode => st
      | .assignMode =>
        match findBindingFromCurrent st i with
        | some _ => st
        | none => addWrite st i false).rewrites = st.rewrites
    split
    · exact declare_rewrites ..
    · exact declare_rewrites ..
    · rfl
    · split <;> rfl

end SwcInlining

namespace SwcInlining

theorem updateCurrent_rewrites (g : VarInfo → VarInfo) (st : St) (i : Id) :
    (updateCurrent g st i).rewrites = st.rewrites := by
  unfold updateCurrent
  (repeat' split) <;> rfl

theorem elideAssign_rewrites (st : St) (i : Id) (rhs : Expr) :
    (elideAssign st i rhs).rewrites = st.rewrites + 1 := by
  unfold elideAssign bumpRewrites
  rw [updateCurrent_rewrites]

theorem markThisSensitive_rewrites (st : St) (c : Expr) :
    (markThisSensitive st c).rewrites = st.rewrites := by
  unfold markThisSensitive
  cases c <;> rfl

theorem stInv_bumpChanged (st : St) :
    StInv st (bumpRewrites { st with changed := true }) :=
  ⟨framesMono_refl _, Nat.le_succ _, fun h => absurd h (Nat.succ_ne_self _)⟩

theorem rwOut {s t : St} (inv : StInv s t) {c : Nat} (h1 : c = s.rewrites)
    (h2 : t.rewrites = c) : t.rewrites = s.rewrites := by omega

end SwcInlining

namespace SwcInlining

theorem rw_split {s m t : St} (i1 : StInv s m) (i2 : StInv m t)
    (h : t.rewrites = s.rewrites) :
    m.rewrites = s.rewrites ∧ t.rewrites = m.rewrites := by
  have a := i1.2.1
  have b := i2.2.1
  omega

theorem stepEL (f : Nat) (hE : GE f) (hEL : GEL f) : GEL (f + 1) := by
  intro st es r h
  cases es with
  | nil =>
    simp only [foldExprList, Option.pure_def, Option.some.injEq] at h
    subst h
    exact ⟨stInv_refl st, fun _ => rfl⟩
  | cons e rest =>
    simp only [foldExprList, Option.pure_def, Option.bind_eq_bind, Option.bind_eq_some,
      Option.some.injEq] at h
    obtain ⟨⟨st1, e'⟩, h1, ⟨st2, rest'⟩, h2, h3⟩ := h
    subst h3
    have I1 := hE st e (st1, e') h1
    have I2 := hEL st1 rest (st2, rest') h2
    refine ⟨stInv_trans I1.1 I2.1, fun hr => ?_⟩
    obtain ⟨m1, m2⟩ := rw_split I1.1 I2.1 hr
    rw [I1.2 m1, I2.2 m2]

end SwcInlining

namespace SwcInlining

theorem stInv_markIf (st : St) (c : Expr) :
    StInv st (if st.phase = .analysis then markThisSensitive st c else st) := by
  split
  · exact stInv_markThisSensitive st c
  · exact stInv_refl st

theorem markIf_rewrites (st : St) (c : Expr) :
    (if st.phase = .analysis then markThisSensitive st c else st).rewrites
      = st.rewrites := by
  split
  · exact markThisSensitive_rewrites st c
  · rfl

theorem stepE (f : Nat) (hEC : GEC f) (hE : GE f) : GE (f + 1) := by
  intro st e r h
  simp only [foldExpr, Option.pure_def, Option.bind_eq_bind, Option.bind_eq_some,
    Option.some.injEq] at h
  obtain ⟨⟨st1, node1⟩, h1, h2⟩ := h
  have I1 := hEC st e (st1, node1) h1
  have a1 : st.rewrites ≤ st1.rewrites := I1.1.2.1
  dsimp only at h2
  cases node1
  case assign op left rhs =>
    cases hph : st1.phase with
    | analysis =>
      rw [hph] at h2
      dsimp only at h2
      simp only [Option.some.injEq] at h2
      subst h2
      exact ⟨I1.1, fun hr => I1.2 hr⟩
    | inlining =>
      rw [hph] at h2
      cases op with
      | compound =>
        dsimp only at h2
        simp only [Option.some.injEq] at h2
        subst h2
        exact ⟨I1.1, fun hr => I1.2 hr⟩
      | eq =>
        dsimp only at h2
        cases left with
        | mem o p c =>
          dsimp only at h2
          simp only [Option.some.injEq] at h2
          subst h2
          exact ⟨I1.1, fun hr => I1.2 hr⟩
        | pid i =>
          dsimp only at h2
          cases hb : findBindingFromCurrent st1 i with
          | none =>
            rw [hb] at h2
            dsimp only at h2
            simp only [Option.some.injEq] at h2
            subst h2
            exact ⟨I1.1, fun hr => I1.2 hr⟩
          | some v =>
            rw [hb] at h2
            dsimp only at h2
            by_cases hcond :
              (v.isUndefined && !v.inlinePrevented && !isInlinePrevented st1 rhs) = true
            · rw [if_pos hcond] at h2
              simp only [Option.some.injEq] at h2
              subst h2
              refine ⟨stInv_trans I1.1 (stInv_elideAssign st1 i rhs), fun hr => ?_⟩
              exfalso
              have hb2 : (elideAssign st1 i rhs).rewrites = st1.rewrites + 1 :=
                elideAssign_rewrites st1 i rhs
              have hr2 : (elideAssign st1 i rhs).rewrites = st.rewrites := hr
              omega
            · rw [if_neg hcond] at h2
              simp only [Option.some.injEq] at h2
              subst h2
              exact ⟨I1.1, fun hr => I1.2 hr⟩
  case ident i =>
    cases hph : st1.phase with
    | analysis =>
      rw [hph] at h2
      dsimp only at h2
      cases hc : (if st1.isFirstRun = true then findConstant st1 i else none) with
      | some expr =>
        rw [hc] at h2
        dsimp only at h2
        have IE := hE _ expr r h2
        refine ⟨stInv_trans I1.1 (stInv_trans (stInv_bumpChanged st1) IE.1),
          fun hr => ?_⟩
        exfalso
        have a2 : st1.rewrites + 1 ≤ r.1.rewrites := IE.1.2.1
        omega
      | none =>
        rw [hc] at h2
        dsimp only at h2
        simp only [Option.some.injEq] at h2
        subst h2
        refine ⟨stInv_trans I1.1 (stInv_addRead st1 i), fun hr => ?_⟩
        exact I1.2 hr
    | inlining =>
      rw [hph] at h2
      dsimp only at h2
      cases hc : (if st1.isFirstRun = true then findConstant st1 i else none) with
      | some expr =>
        rw [hc] at h2
        dsimp only at h2
        have IE := hE _ expr r h2
        refine ⟨stInv_trans I1.1 (stInv_trans (stInv_bumpChanged st1) IE.1),
          fun hr => ?_⟩
        exfalso
        have a2 : st1.rewrites + 1 ≤ r.1.rewrites := IE.1.2.1
        omega
      | none =>
        rw [hc] at h2
        dsimp only at h2
        cases hfb : findBinding st1 i with
        | none =>
          rw [hfb] at h2
          dsimp only at h2
          simp only [Option.some.injEq] at h2
          subst h2
          exact ⟨I1.1, fun hr => I1.2 hr⟩
        | some v =>
          rw [hfb] at h2
          dsimp only at h2
          by_cases hp : (!v.inlinePrevented) = true
          · rw [if_pos hp] at h2
            cases hval : v.value with
            | some expr =>
              rw [hval] at h2
              dsimp only at h2
              by_cases hqe : exprEqb (Expr.ident i) expr = true
              · rw [if_pos hqe] at h2
                simp only [Option.some.injEq] at h2
                subst h2
                refine ⟨stInv_trans I1.1 (stInv_bump st1), fun hr => ?_⟩
                exfalso
                have hr2 : st1.rewrites + 1 = st.rewrites := hr
                omega
              · rw [if_neg hqe] at h2
                simp only [Option.some.injEq] at h2
                subst h2
                refine ⟨stInv_trans I1.1 (stInv_bumpChanged st1), fun hr => ?_⟩
                exfalso
                have hr2 : st1.rewrites + 1 = st.rewrites := hr
                omega
            | none =>
              rw [hval] at h2
              dsimp only at h2
              by_cases hu : v.isUndefined = true
              · rw [if_pos hu] at h2
                simp only [Option.some.injEq] at h2
                subst h2
                refine ⟨stInv_trans I1.1 (stInv_bump st1), fun hr => ?_⟩
                exfalso
                have hb2 : (bumpRewrites st1).rewrites = st1.rewrites + 1 := rfl
                have hr2 : (bumpRewrites st1).rewrites = st.rewrites := hr
                omega
              · rw [if_neg hu] at h2
                simp only [Option.some.injEq] at h2
                subst h2
                exact ⟨I1.1, fun hr => I1.2 hr⟩
          · rw [if_neg hp] at h2
            simp only [Option.some.injEq] at h2
            subst h2
            exact ⟨I1.1, fun hr => I1.2 hr⟩
  all_goals
    cases hph : st1.phase <;>
      (rw [hph] at h2 ; dsimp only at h2 ;
       simp only [Option.some.injEq] at h2 ; subst h2 ;
       exact ⟨I1.1, fun hr => I1.2 hr⟩)


theorem stepEC (f : Nat) (hA : GA f) (hC : GCall f) (hN : GNew f) (hB : GB f)
    (hM : GM f) (hUp : GUp f) (hUn : GUn f) : GEC (f + 1) := by
  intro st e r h
  cases e with
  | assign op left right => exact hA st op left right r h
  | call c args => exact hC st c args r h
  | newE c args => exact hN st c args r h
  | bin op l rr => exact hB st op l rr r h
  | member o p c => exact hM st o p c r h
  | update a => exact hUp st a r h
  | unary op a => exact hUn st op a r h
  | lit n =>
    simp only [foldExprChildren, Option.pure_def, Option.some.injEq] at h
    subst h
    exact ⟨stInv_refl st, fun _ => rfl⟩
  | ident i =>
    simp only [foldExprChildren, Option.pure_def, Option.some.injEq] at h
    subst h
    exact ⟨stInv_refl st, fun _ => rfl⟩
  | thisE =>
    simp only [foldExprChildren, Option.pure_def, Option.some.injEq] at h
    subst h
    exact ⟨stInv_refl st, fun _ => rfl⟩

theorem stepCall (f : Nat) (hE : GE f) (hEL : GEL f) : GCall (f + 1) := by
  intro st c args r h
  simp only [foldCall, Option.pure_def, Option.bind_eq_bind, Option.bind_eq_some,
    Option.some.injEq] at h
  obtain ⟨⟨st1, c'⟩, h1, ⟨st2, args'⟩, h2, h3⟩ := h
  subst h3
  dsimp only at h2
  have I1 := hE st c (st1, c') h1
  have IM := stInv_markIf st1 c'
  have I2 := hEL _ args (st2, args') h2
  refine ⟨stInv_trans I1.1 (stInv_trans IM (stInv_trans I2.1
    (stInv_storeInlineBarrier st2 st2.phase))), fun hr => ?_⟩
  have hmr := markIf_rewrites st1 c'
  have hre : st2.rewrites = st.rewrites := hr
  have a1 : st.rewrites ≤ st1.rewrites := I1.1.2.1
  have a2 : st1.rewrites
      ≤ (if st1.phase = .analysis then markThisSensitive st1 c' else st1).rewrites :=
    IM.2.1
  have a3 : (if st1.phase = .analysis then markThisSensitive st1 c' else st1).rewrites
      ≤ st2.rewrites := I2.1.2.1
  have h1e : st1.rewrites = st.rewrites := by omega
  have h2e : st2.rewrites
      = (if st1.phase = .analysis then markThisSensitive st1 c' else st1).rewrites := by
    omega
  rw [I1.2 h1e, I2.2 h2e]

theorem stepNew (f : Nat) (hE : GE f) (hEL : GEL f) : GNew (f + 1) := by
  intro st c args r h
  simp only [foldNew, Option.pure_def, Option.bind_eq_bind, Option.bind_eq_some,
    Option.some.injEq] at h
  obtain ⟨⟨st1, c'⟩, h1, ⟨st2, args'⟩, h2, h3⟩ := h
  subst h3
  dsimp only at h2
  have I1 := hE st c (st1, c') h1
  have IM := stInv_markIf st1 c'
  have I2 := hEL _ args (st2, args') h2
  refine ⟨stInv_trans I1.1 (stInv_trans IM (stInv_trans I2.1
    (stInv_storeInlineBarrier st2 st2.phase))), fun hr => ?_⟩
  have hmr := markIf_rewrites st1 c'
  have hre : st2.rewrites = st.rewrites := hr
  have a1 : st.rewrites ≤ st1.rewrites := I1.1.2.1
  have a2 : st1.rewrites
      ≤ (if st1.phase = .analysis then markThisSensitive st1 c' else st1).rewrites :=
    IM.2.1
  have a3 : (if st1.phase = .analysis then markThisSensitive st1 c' else st1).rewrites
      ≤ st2.rewrites := I2.1.2.1
  have h1e : st1.rewrites = st.rewrites := by omega
  have h2e : st2.rewrites
      = (if st1.phase = .analysis then markThisSensitive st1 c' else st1).rewrites := by
    omega
  rw [I1.2 h1e, I2.2 h2e]

theorem stepBin (f : Nat) (hE : GE f) : GB (f + 1) := by
  intro st op l rr r h
  cases op with
  | land =>
    simp only [foldBin, Option.pure_def, Option.bind_eq_bind, Option.bind_eq_some,
      Option.some.injEq] at h
    obtain ⟨⟨st1, l'⟩, h1, h2⟩ := h
    subst h2
    have I1 := hE st l (st1, l') h1
    exact ⟨I1.1, fun hr => by rw [I1.2 hr]⟩
  | lor =>
    simp only [foldBin, Option.pure_def, Option.bind_eq_bind, Option.bind_eq_some,
      Option.some.injEq] at h
    obtain ⟨⟨st1, l'⟩, h1, h2⟩ := h
    subst h2
    have I1 := hE st l (st1, l') h1
    exact ⟨I1.1, fun hr => by rw [I1.2 hr]⟩
  | other =>
    simp only [foldBin, Option.pure_def, Option.bind_eq_bind, Option.bind_eq_some,
      Option.some.injEq] at h
    obtain ⟨⟨st1, l'⟩, h1, ⟨st2, r2'⟩, h2, h3⟩ := h
    subst h3
    have I1 := hE st l (st1, l') h1
    have I2 := hE st1 rr (st2, r2') h2
    refine ⟨stInv_trans I1.1 I2.1, fun hr => ?_⟩
    obtain ⟨m1, m2⟩ := rw_split I1.1 I2.1 hr
    rw [I1.2 m1, I2.2 m2]

theorem stepM (f : Nat) (hE : GE f) : GM (f + 1) := by
  intro st o p c r h
  simp only [foldMember, Option.pure_def, Option.bind_eq_bind, Option.bind_eq_some,
    Option.some.injEq] at h
  obtain ⟨⟨st1, o'⟩, h1, h2⟩ := h
  have I1 := hE st o (st1, o') h1
  cases c with
  | true =>
    rw [if_pos rfl] at h2
    simp only [Option.pure_def, Option.bind_eq_bind, Option.bind_eq_some,
      Option.some.injEq] at h2
    obtain ⟨⟨st2, p'⟩, h3, h4⟩ := h2
    subst h4
    have I2 := hE st1 p (st2, p') h3
    refine ⟨stInv_trans I1.1 I2.1, fun hr => ?_⟩
    obtain ⟨m1, m2⟩ := rw_split I1.1 I2.1 hr
    have e1 : o' = o := I1.2 m1
    have e2 : p' = p := I2.2 m2
    rw [e1, e2]
  | false =>
    rw [if_neg Bool.false_ne_true] at h2
    simp only [Option.some.injEq] at h2
    subst h2
    refine ⟨I1.1, fun hr => ?_⟩
    have e1 : o' = o := I1.2 hr
    rw [e1]

theorem stepUp (f : Nat) : GUp (f + 1) := by
  intro st a r h
  simp only [foldUpdate, Option.pure_def, Option.some.injEq] at h
  subst h
  exact ⟨stInv_identListVisit _ st, fun _ => rfl⟩

theorem stepUn (f : Nat) (hE : GE f) : GUn (f + 1) := by
  intro st op a r h
  cases op with
  | udelete =>
    simp only [foldUnary, Option.pure_def, Option.some.injEq] at h
    subst h
    exact ⟨stInv_identListVisit _ st, fun _ => rfl⟩
  | uvoid =>
    simp only [foldUnary, Option.pure_def, Option.bind_eq_bind, Option.bind_eq_some,
      Option.some.injEq] at h
    obtain ⟨⟨st1, a'⟩, h1, h2⟩ := h
    subst h2
    have I1 := hE st a (st1, a') h1
    exact ⟨I1.1, fun hr => by rw [I1.2 hr]⟩
  | uother =>
    simp only [foldUnary, Option.pure_def, Option.bind_eq_bind, Option.bind_eq_some,
      Option.some.injEq] at h
    obtain ⟨⟨st1, a'⟩, h1, h2⟩ := h
    subst h2
    have I1 := hE st a (st1, a') h1
    exact ⟨I1.1, fun hr => by rw [I1.2 hr]⟩

theorem stepOE (f : Nat) (hE : GE f) : GOE (f + 1) := by
  intro st oe r h
  cases oe with
  | none =>
    simp only [foldOptExpr, Option.pure_def, Option.some.injEq] at h
    subst h
    exact ⟨stInv_refl st, fun _ => rfl⟩
  | some e =>
    simp only [foldOptExpr, Option.pure_def, Option.bind_eq_bind, Option.bind_eq_some,
      Option.some.injEq] at h
    obtain ⟨⟨st1, e'⟩, h1, h2⟩ := h
    subst h2
    have I1 := hE st e (st1, e') h1
    exact ⟨I1.1, fun hr => by rw [I1.2 hr]⟩

theorem stepDs (f : Nat) (hVD : GVD f) (hDs : GDs f) : GDs (f + 1) := by
  intro st ds r h
  cases ds with
  | nil =>
    simp only [foldDeclarators, Option.pure_def, Option.some.injEq] at h
    subst h
    exact ⟨stInv_refl st, fun _ => rfl⟩
  | cons d rest =>
    simp only [foldDeclarators, Option.pure_def, Option.bind_eq_bind, Option.bind_eq_some,
      Option.some.injEq] at h
    obtain ⟨⟨st1, d'⟩, h1, ⟨st2, rest'⟩, h2, h3⟩ := h
    subst h3
    have I1 := hVD st d (st1, d') h1
    have I2 := hDs st1 rest (st2, rest') h2
    refine ⟨stInv_trans I1.1 I2.1, fun hr => ?_⟩
    obtain ⟨m1, m2⟩ := rw_split I1.1 I2.1 hr
    rw [I1.2 m1, I2.2 m2]

theorem stepVDl (f : Nat) (hDs : GDs f) : GVDl (f + 1) := by
  intro st kd ds r h
  simp only [foldVarDecl] at h
  have I1 := hDs { st with varDeclKind := kd } ds r h
  refine ⟨stInv_trans (stInv_of_fields rfl rfl rfl) I1.1, fun hr => ?_⟩
  exact I1.2 hr

theorem stepSL (f : Nat) (hS : GS f) (hSL : GSL f) : GSL (f + 1) := by
  intro st ss r h
  cases ss with
  | nil =>
    simp only [foldStmtList, Option.pure_def, Option.some.injEq] at h
    subst h
    exact ⟨stInv_refl st, fun _ => rfl⟩
  | cons s1 rest =>
    simp only [foldStmtList, Option.pure_def, Option.bind_eq_bind, Option.bind_eq_some,
      Option.some.injEq] at h
    obtain ⟨⟨st1, s'⟩, h1, ⟨st2, rest'⟩, h2, h3⟩ := h
    subst h3
    have I1 := hS st s1 (st1, s') h1
    have I2 := hSL st1 rest (st2, rest') h2
    refine ⟨stInv_trans I1.1 I2.1, fun hr => ?_⟩
    obtain ⟨m1, m2⟩ := rw_split I1.1 I2.1 hr
    rw [I1.2 m1, I2.2 m2]

theorem stepSs (f : Nat) (hSL : GSL f) : GSs (f + 1) := by
  intro st ss r h
  simp only [foldStmts] at h
  cases hph : st.phase with
  | analysis =>
    rw [hph] at h
    dsimp only at h
    exact hSL st ss r h
  | inlining =>
    rw [hph] at h
    dsimp only at h
    simp only [Option.pure_def, Option.bind_eq_bind, Option.bind_eq_some,
      Option.some.injEq] at h
    obtain ⟨⟨st1, ss1⟩, h1, ⟨st2, ss2⟩, h2, h3⟩ := h
    subst h3
    have I1 := hSL { st with phase := Phase.analysis } ss (st1, ss1) h1
    have I2 := hSL { st1 with phase := Phase.inlining } ss1 (st2, ss2) h2
    refine ⟨stInv_trans (stInv_of_fields rfl rfl rfl)
      (stInv_trans I1.1 (stInv_trans (stInv_of_fields rfl rfl rfl)
        (stInv_trans I2.1 (stInv_of_fields rfl rfl rfl)))), fun hr => ?_⟩
    have a1 : st.rewrites ≤ st1.rewrites := I1.1.2.1
    have a2 : st1.rewrites ≤ st2.rewrites := I2.1.2.1
    have hre : st2.rewrites = st.rewrites := hr
    have m1 : st1.rewrites = st.rewrites := by omega
    have m2 : st2.rewrites = st1.rewrites := by omega
    have e1 : ss1 = ss := I1.2 m1
    have e2 : ss2 = ss1 := I2.2 m2
    rw [e2, e1]

theorem stepS (f : Nat) (hVDl : GVDl f) (hE : GE f) (hSs : GSs f) (hFor : GFor f) :
    GS (f + 1) := by
  intro st s r h
  cases s with
  | varDecl kd ds =>
    simp only [foldStmt, Option.pure_def, Option.bind_eq_bind, Option.bind_eq_some,
      Option.some.injEq] at h
    obtain ⟨⟨st1, ds'⟩, h1, h2⟩ := h
    subst h2
    have I1 := hVDl st kd ds (st1, ds') h1
    exact ⟨I1.1, fun hr => by rw [I1.2 hr]⟩
  | exprStmt e =>
    simp only [foldStmt, Option.pure_def, Option.bind_eq_bind, Option.bind_eq_some,
      Option.some.injEq] at h
    obtain ⟨⟨st1, e'⟩, h1, h2⟩ := h
    subst h2
    have I1 := hE st e (st1, e') h1
    exact ⟨I1.1, fun hr => by rw [I1.2 hr]⟩
  | block ss =>
    simp only [foldStmt, Option.pure_def, Option.bind_eq_bind, Option.bind_eq_some,
      Option.some.injEq] at h
    obtain ⟨⟨st2, ss'⟩, h1, h2⟩ := h
    subst h2
    have I1 := hSs (pushFrame .block st) ss (st2, ss') h1
    refine ⟨stInv_push_pop I1.1, fun hr => ?_⟩
    rw [I1.2 hr]
  | forStmt i t u b => exact hFor st i t u b r h

theorem stepOH (f : Nat) (hVDl : GVDl f) (hE : GE f) : GOH (f + 1) := by
  intro st oh r h
  cases oh with
  | none =>
    simp only [foldOptForHead, Option.pure_def, Option.some.injEq] at h
    subst h
    exact ⟨stInv_refl st, fun _ => rfl⟩
  | some fh =>
    cases fh with
    | varHead kd ds =>
      simp only [foldOptForHead, Option.pure_def, Option.bind_eq_bind, Option.bind_eq_some,
        Option.some.injEq] at h
      obtain ⟨⟨st1, ds'⟩, h1, h2⟩ := h
      subst h2
      have I1 := hVDl st kd ds (st1, ds') h1
      exact ⟨I1.1, fun hr => by rw [I1.2 hr]⟩
    | exprHead e =>
      simp only [foldOptForHead, Option.pure_def, Option.bind_eq_bind, Option.bind_eq_some,
        Option.some.injEq] at h
      obtain ⟨⟨st1, e'⟩, h1, h2⟩ := h
      subst h2
      have I1 := hE st e (st1, e') h1
      exact ⟨I1.1, fun hr => by rw [I1.2 hr]⟩

theorem stInv_foldl_prevent : ∀ (ids : List Id) (st : St),
    StInv st (ids.foldl (fun s j => preventInline s j) st) := by
  intro ids
  induction ids with
  | nil => intro st; exact stInv_refl st
  | cons i rest ih =>
    intro st
    exact stInv_trans (stInv_preventInline st i) (ih (preventInline st i))

theorem foldl_prevent_rewrites : ∀ (ids : List Id) (st : St),
    (ids.foldl (fun s j => preventInline s j) st).rewrites = st.rewrites := by
  intro ids
  induction ids with
  | nil => intro st; rfl
  | cons i rest ih => intro st; exact ih (preventInline st i)

theorem seg_eq {a b c : St} (i1 : StInv a b) (i2 : StInv b c)
    (h1 : b.rewrites = a.rewrites) (h : c.rewrites = a.rewrites) :
    c.rewrites = b.rewrites := by
  have := i2.2.1
  omega

theorem stepA (f : Nat) (hE : GE f) : GA (f + 1) := by
  intro st op left rhs r h
  simp only [foldAssign, Option.pure_def, Option.bind_eq_bind, Option.bind_eq_some,
    Option.some.injEq] at h
  cases left with
  | mem o p c =>
    obtain ⟨⟨st1, rhs1⟩, h1, h2⟩ := h
    dsimp only at h1 h2
    have hmid : StInv st ({ st with patMode := PatMode.assignMode } : St) :=
      stInv_of_fields rfl rfl rfl
    have IS1 : StInv st (identListVisit
        (identListVisit { st with patMode := PatMode.assignMode }
          (collectIds (.member o p c))) (collectIds rhs)) :=
      stInv_trans hmid
        (stInv_trans (stInv_identListVisit _ _) (stInv_identListVisit _ _))
    have hS1r : (identListVisit
        (identListVisit { st with patMode := PatMode.assignMode }
          (collectIds (.member o p c))) (collectIds rhs)).rewrites = st.rewrites := by
      rw [identListVisit_rewrites, identListVisit_rewrites]
    have I1 := hE _ rhs (st1, rhs1) h1
    cases op with
    | eq =>
      dsimp only at h2
      by_cases hprev : isInlinePrevented st1 rhs1 = true
      · rw [if_pos hprev] at h2
        simp only [Option.some.injEq] at h2
        subst h2
        refine ⟨stInv_trans IS1 I1.1, fun hr => ?_⟩
        have e1 : rhs1 = rhs := I1.2 (seg_eq IS1 I1.1 hS1r hr)
        rw [e1]
      · rw [if_neg hprev] at h2
        cases rhs1 <;>
          (simp only [Option.some.injEq] at h2 ;
           subst h2 ;
           exact ⟨stInv_trans IS1 I1.1, fun hr =>
             congrArg (fun z => Expr.assign AssignOp.eq (AssignLeft.mem o p c) z)
               (I1.2 (seg_eq IS1 I1.1 hS1r hr))⟩)
    | compound =>
      dsimp only at h2
      by_cases hprev : isInlinePrevented (identListVisit
          (identListVisit st1 (collectIdsLeft (.mem o p c))) (collectIds rhs1)) rhs1 = true
      · rw [if_pos hprev] at h2
        simp only [Option.some.injEq] at h2
        subst h2
        have IS2 : StInv st1 (identListVisit
            (identListVisit st1 (collectIdsLeft (.mem o p c))) (collectIds rhs1)) :=
          stInv_trans (stInv_identListVisit _ _) (stInv_identListVisit _ _)
        refine ⟨stInv_trans IS1 (stInv_trans I1.1 IS2), fun hr => ?_⟩
        have hre : (identListVisit (identListVisit st1 (collectIdsLeft (.mem o p c)))
            (collectIds rhs1)).rewrites = st1.rewrites := by
          rw [identListVisit_rewrites, identListVisit_rewrites]
        have hre2 : st1.rewrites = st.rewrites := by
          have b1 := IS2.2.1
          have b2 : (identListVisit (identListVisit st1 (collectIdsLeft (.mem o p c)))
              (collectIds rhs1)).rewrites = st.rewrites := hr
          omega
        have e1 : rhs1 = rhs := I1.2 (seg_eq IS1 I1.1 hS1r hre2)
        rw [e1]
      · rw [if_neg hprev] at h2
        have IS2 : StInv st1 (identListVisit
            (identListVisit st1 (collectIdsLeft (.mem o p c))) (collectIds rhs1)) :=
          stInv_trans (stInv_identListVisit _ _) (stInv_identListVisit _ _)
        have hre : (identListVisit (identListVisit st1 (collectIdsLeft (.mem o p c)))
            (collectIds rhs1)).rewrites = st1.rewrites := by
          rw [identListVisit_rewrites, identListVisit_rewrites]
        cases rhs1 <;>
          (simp only [Option.some.injEq] at h2 ;
           subst h2 ;
           refine ⟨stInv_trans IS1 (stInv_trans I1.1 IS2), fun hr => ?_⟩ ;
           (have hre2 : st1.rewrites = st.rewrites := by
              rw [← hre]
              exact hr) ;
           exact congrArg (fun z => Expr.assign AssignOp.compound (AssignLeft.mem o p c) z)
             (I1.2 (seg_eq IS1 I1.1 hS1r hre2)))
  | pid i =>
    obtain ⟨⟨st1, rhs1⟩, h1, h2⟩ := h
    dsimp only at h1 h2
    have hmid : StInv st ({ st with patMode := PatMode.assignMode } : St) :=
      stInv_of_fields rfl rfl rfl
    have IS1 : StInv st (foldPat { st with patMode := PatMode.assignMode } (.pid i)).1 :=
      stInv_trans hmid (stInv_foldPat { st with patMode := PatMode.assignMode } (.pid i))
    have hS1r : (foldPat { st with patMode := PatMode.assignMode } (.pid i)).1.rewrites
        = st.rewrites := foldPat_rewrites _ _
    have I1 := hE _ rhs (st1, rhs1) h1
    cases op with
    | eq =>
      dsimp only at h2
      by_cases hprev : isInlinePrevented st1 rhs1 = true
      · rw [if_pos hprev] at h2
        simp only [Option.some.injEq] at h2
        subst h2
        refine ⟨stInv_trans IS1 (stInv_trans I1.1 (stInv_foldl_prevent [i] st1)),
          fun hr => ?_⟩
        have hre : st1.rewrites = st.rewrites := hr
        have e1 : rhs1 = rhs := I1.2 (seg_eq IS1 I1.1 hS1r hre)
        rw [e1]
      · rw [if_neg hprev] at h2
        cases rhs1 with
        | lit n =>
          dsimp only at h2
          cases hfb : findBinding (addWrite st1 i false) i with
          | none =>
            rw [hfb] at h2
            dsimp only at h2
            simp only [Option.some.injEq] at h2
            subst h2
            refine ⟨stInv_trans IS1 (stInv_trans I1.1 (stInv_addWrite st1 i false)),
              fun hr => ?_⟩
            have hre : st1.rewrites = st.rewrites := hr
            have e1 : Expr.lit n = rhs := I1.2 (seg_eq IS1 I1.1 hS1r hre)
            rw [← e1]
          | some v =>
            rw [hfb] at h2
            dsimp only at h2
            by_cases hvp : (!v.inlinePrevented) = true
            · rw [if_pos hvp] at h2
              simp only [Option.some.injEq] at h2
              subst h2
              refine ⟨stInv_trans IS1 (stInv_trans I1.1
                (stInv_trans (stInv_addWrite st1 i false)
                  (stInv_setValueInnermost _ i _))), fun hr => ?_⟩
              have hre : st1.rewrites = st.rewrites := hr
              have e1 : Expr.lit n = rhs := I1.2 (seg_eq IS1 I1.1 hS1r hre)
              rw [← e1]
            · rw [if_neg hvp] at h2
              simp only [Option.some.injEq] at h2
              subst h2
              refine ⟨stInv_trans IS1 (stInv_trans I1.1 (stInv_addWrite st1 i false)),
                fun hr => ?_⟩
              have hre : st1.rewrites = st.rewrites := hr
              have e1 : Expr.lit n = rhs := I1.2 (seg_eq IS1 I1.1 hS1r hre)
              rw [← e1]
        | ident j =>
          dsimp only at h2
          cases hfb : findBinding (addWrite st1 i false) i with
          | none =>
            rw [hfb] at h2
            dsimp only at h2
            simp only [Option.some.injEq] at h2
            subst h2
            refine ⟨stInv_trans IS1 (stInv_trans I1.1 (stInv_addWrite st1 i false)),
              fun hr => ?_⟩
            have hre : st1.rewrites = st.rewrites := hr
            have e1 : Expr.ident j = rhs := I1.2 (seg_eq IS1 I1.1 hS1r hre)
            rw [← e1]
          | some v =>
            rw [hfb] at h2
            dsimp only at h2
            by_cases hvp : (!v.inlinePrevented) = true
            · rw [if_pos hvp] at h2
              simp only [Option.some.injEq] at h2
              subst h2
              refine ⟨stInv_trans IS1 (stInv_trans I1.1
                (stInv_trans (stInv_addWrite st1 i false)
                  (stInv_setValueInnermost _ i _))), fun hr => ?_⟩
              have hre : st1.rewrites = st.rewrites := hr
              have e1 : Expr.ident j = rhs := I1.2 (seg_eq IS1 I1.1 hS1r hre)
              rw [← e1]
            · rw [if_neg hvp] at h2
              simp only [Option.some.injEq] at h2
              subst h2
              refine ⟨stInv_trans IS1 (stInv_trans I1.1 (stInv_addWrite st1 i false)),
                fun hr => ?_⟩
              have hre : st1.rewrites = st.rewrites := hr
              have e1 : Expr.ident j = rhs := I1.2 (seg_eq IS1 I1.1 hS1r hre)
              rw [← e1]
        | thisE =>
          simp only [Option.some.injEq] at h2
          subst h2
          refine ⟨stInv_trans IS1 I1.1, fun hr => ?_⟩
          have hre : st1.rewrites = st.rewrites := hr
          have e1 : Expr.thisE = rhs := I1.2 (seg_eq IS1 I1.1 hS1r hre)
          rw [← e1]
        | assign o2 l2 r2 =>
          simp only [Option.some.injEq] at h2
          subst h2
          refine ⟨stInv_trans IS1 I1.1, fun hr => ?_⟩
          have hre : st1.rewrites = st.rewrites := hr
          have e1 : Expr.assign o2 l2 r2 = rhs := I1.2 (seg_eq IS1 I1.1 hS1r hre)
          rw [← e1]
        | call c2 a2 =>
          simp only [Option.some.injEq] at h2
          subst h2
          refine ⟨stInv_trans IS1 I1.1, fun hr => ?_⟩
          have hre : st1.rewrites = st.rewrites := hr
          have e1 : Expr.call c2 a2 = rhs := I1.2 (seg_eq IS1 I1.1 hS1r hre)
          rw [← e1]
        | newE c2 a2 =>
          simp only [Option.some.injEq] at h2
          subst h2
          refine ⟨stInv_trans IS1 I1.1, fun hr => ?_⟩
          have hre : st1.rewrites = st.rewrites := hr
          have e1 : Expr.newE c2 a2 = rhs := I1.2 (seg_eq IS1 I1.1 hS1r hre)
          rw [← e1]
        | bin o2 l2 r2 =>
          simp only [Option.some.injEq] at h2
          subst h2
          refine ⟨stInv_trans IS1 I1.1, fun hr => ?_⟩
          have hre : st1.rewrites = st.rewrites := hr
          have e1 : Expr.bin o2 l2 r2 = rhs := I1.2 (seg_eq IS1 I1.1 hS1r hre)
          rw [← e1]
        | member o2 p2 c2 =>
          simp only [Option.some.injEq] at h2
          subst h2
          refine ⟨stInv_trans IS1 I1.1, fun hr => ?_⟩
          have hre : st1.rewrites = st.rewrites := hr
          have e1 : Expr.member o2 p2 c2 = rhs := I1.2 (seg_eq IS1 I1.1 hS1r hre)
          rw [← e1]
        | update a2 =>
          simp only [Option.some.injEq] at h2
          subst h2
          refine ⟨stInv_trans IS1 I1.1, fun hr => ?_⟩
          have hre : st1.rewrites = st.rewrites := hr
          have e1 : Expr.update a2 = rhs := I1.2 (seg_eq IS1 I1.1 hS1r hre)
          rw [← e1]
        | unary o2 a2 =>
          simp only [Option.some.injEq] at h2
          subst h2
          refine ⟨stInv_trans IS1 I1.1, fun hr => ?_⟩
          have hre : st1.rewrites = st.rewrites := hr
          have e1 : Expr.unary o2 a2 = rhs := I1.2 (seg_eq IS1 I1.1 hS1r hre)
          rw [← e1]
    | compound =>
      dsimp only at h2
      by_cases hprev : isInlinePrevented (identListVisit
          (identListVisit st1 (collectIdsLeft (.pid i))) (collectIds rhs1)) rhs1 = true
      · rw [if_pos hprev] at h2
        simp only [Option.some.injEq] at h2
        subst h2
        have IS2 : StInv st1 (identListVisit
            (identListVisit st1 (collectIdsLeft (.pid i))) (collectIds rhs1)) :=
          stInv_trans (stInv_identListVisit _ _) (stInv_identListVisit _ _)
        refine ⟨stInv_trans IS1 (stInv_trans I1.1 (stInv_trans IS2
          (stInv_foldl_prevent [i] _))), fun hr => ?_⟩
        have hre0 : (identListVisit (identListVisit st1 (collectIdsLeft (.pid i)))
            (collectIds rhs1)).rewrites = st1.rewrites := by
          rw [identListVisit_rewrites, identListVisit_rewrites]
        have hre2 : st1.rewrites = st.rewrites := by
          have b1 := IS2.2.1
          have b2 : (identListVisit (identListVisit st1 (collectIdsLeft (.pid i)))
              (collectIds rhs1)).rewrites = st.rewrites := hr
          omega
        have e1 : rhs1 = rhs := I1.2 (seg_eq IS1 I1.1 hS1r hre2)
        rw [e1]
      · rw [if_neg hprev] at h2
        have IS2 : StInv st1 (identListVisit
            (identListVisit st1 (collectIdsLeft (.pid i))) (collectIds rhs1)) :=
          stInv_trans (stInv_identListVisit _ _) (stInv_identListVisit _ _)
        have hre0 : (identListVisit (identListVisit st1 (collectIdsLeft (.pid i)))
            (collectIds rhs1)).rewrites = st1.rewrites := by
          rw [identListVisit_rewrites, identListVisit_rewrites]
        cases rhs1 with
        | lit n =>
          dsimp only at h2
          cases hfb : findBinding (addWrite (identListVisit
              (identListVisit st1 (collectIdsLeft (.pid i))) (collectIds (.lit n)))
              i false) i with
          | none =>
            rw [hfb] at h2
            dsimp only at h2
            simp only [Option.some.injEq] at h2
            subst h2
            refine ⟨stInv_trans IS1 (stInv_trans I1.1 (stInv_trans IS2
              (stInv_addWrite _ i false))), fun hr => ?_⟩
            have hre2 : st1.rewrites = st.rewrites := by
              have b1 := IS2.2.1
              have b2 : (identListVisit (identListVisit st1 (collectIdsLeft (.pid i)))
                  (collectIds (Expr.lit n))).rewrites = st.rewrites := hr
              omega
            have e1 : Expr.lit n = rhs := I1.2 (seg_eq IS1 I1.1 hS1r hre2)
            rw [← e1]
          | some v =>
            rw [hfb] at h2
            dsimp only at h2
            by_cases hvp : (!v.inlinePrevented) = true
            · rw [if_pos hvp] at h2
              simp only [Option.some.injEq] at h2
              subst h2
              refine ⟨stInv_trans IS1 (stInv_trans I1.1 (stInv_trans IS2
                (stInv_trans (stInv_addWrite _ i false)
                  (stInv_setValueInnermost _ i _)))), fun hr => ?_⟩
              have hre2 : st1.rewrites = st.rewrites := by
                have b1 := IS2.2.1
                have b2 : (identListVisit (identListVisit st1 (collectIdsLeft (.pid i)))
                    (collectIds (Expr.lit n))).rewrites = st.rewrites := hr
                omega
              have e1 : Expr.lit n = rhs := I1.2 (seg_eq IS1 I1.1 hS1r hre2)
              rw [← e1]
            · rw [if_neg hvp] at h2
              simp only [Option.some.injEq] at h2
              subst h2
              refine ⟨stInv_trans IS1 (stInv_trans I1.1 (stInv_trans IS2
                (stInv_addWrite _ i false))), fun hr => ?_⟩
              have hre2 : st1.rewrites = st.rewrites := by
                have b1 := IS2.2.1
                have b2 : (identListVisit (identListVisit st1 (collectIdsLeft (.pid i)))
                    (collectIds (Expr.lit n))).rewrites = st.rewrites := hr
                omega
              have e1 : Expr.lit n = rhs := I1.2 (seg_eq IS1 I1.1 hS1r hre2)
              rw [← e1]
        | ident j =>
          dsimp only at h2
          cases hfb : findBinding (addWrite (identListVisit
              (identListVisit st1 (collectIdsLeft (.pid i))) (collectIds (.ident j)))
              i false) i with
          | none =>
            rw [hfb] at h2
            dsimp only at h2
            simp only [Option.some.injEq] at h2
            subst h2
            refine ⟨stInv_trans IS1 (stInv_trans I1.1 (stInv_trans IS2
              (stInv_addWrite _ i false))), fun hr => ?_⟩
            have hre2 : st1.rewrites = st.rewrites := by
              have b1 := IS2.2.1
              have b2 : (identListVisit (identListVisit st1 (collectIdsLeft (.pid i)))
                  (collectIds (Expr.ident j))).rewrites = st.rewrites := hr
              omega
            have e1 : Expr.ident j = rhs := I1.2 (seg_eq IS1 I1.1 hS1r hre2)
            rw [← e1]
          | some v =>
            rw [hfb] at h2
            dsimp only at h2
            by_cases hvp : (!v.inlinePrevented) = true
            · rw [if_pos hvp] at h2
              simp only [Option.some.injEq] at h2
              subst h2
              refine ⟨stInv_trans IS1 (stInv_trans I1.1 (stInv_trans IS2
                (stInv_trans (stInv_addWrite _ i false)
                  (stInv_setValueInnermost _ i _)))), fun hr => ?_⟩
              have hre2 : st1.rewrites = st.rewrites := by
                have b1 := IS2.2.1
                have b2 : (identListVisit (identListVisit st1 (collectIdsLeft (.pid i)))
                    (collectIds (Expr.ident j))).rewrites = st.rewrites := hr
                omega
              have e1 : Expr.ident j = rhs := I1.2 (seg_eq IS1 I1.1 hS1r hre2)
              rw [← e1]
            · rw [if_neg hvp] at h2
              simp only [Option.some.injEq] at h2
              subst h2
              refine ⟨stInv_trans IS1 (stInv_trans I1.1 (stInv_trans IS2
                (stInv_addWrite _ i false))), fun hr => ?_⟩
              have hre2 : st1.rewrites = st.rewrites := by
                have b1 := IS2.2.1
                have b2 : (identListVisit (identListVisit st1 (collectIdsLeft (.pid i)))
                    (collectIds (Expr.ident j))).rewrites = st.rewrites := hr
                omega
              have e1 : Expr.ident j = rhs := I1.2 (seg_eq IS1 I1.1 hS1r hre2)
              rw [← e1]
        | thisE =>
          simp only [Option.some.injEq] at h2
          subst h2
          refine ⟨stInv_trans IS1 (stInv_trans I1.1 IS2), fun hr => ?_⟩
          have hre2 : st1.rewrites = st.rewrites := by
            rw [← hre0]
            exact hr
          have e1 : Expr.thisE = rhs := I1.2 (seg_eq IS1 I1.1 hS1r hre2)
          rw [← e1]
        | assign o2 l2 r2 =>
          simp only [Option.some.injEq] at h2
          subst h2
          refine ⟨stInv_trans IS1 (stInv_trans I1.1 IS2), fun hr => ?_⟩
          have hre2 : st1.rewrites = st.rewrites := by
            rw [← hre0]
            exact hr
          have e1 : Expr.assign o2 l2 r2 = rhs := I1.2 (seg_eq IS1 I1.1 hS1r hre2)
          rw [← e1]
        | call c2 a2 =>
          simp only [Option.some.injEq] at h2
          subst h2
          refine ⟨stInv_trans IS1 (stInv_trans I1.1 IS2), fun hr => ?_⟩
          have hre2 : st1.rewrites = st.rewrites := by
            rw [← hre0]
            exact hr
          have e1 : Expr.call c2 a2 = rhs := I1.2 (seg_eq IS1 I1.1 hS1r hre2)
          rw [← e1]
        | newE c2 a2 =>
          simp only [Option.some.injEq] at h2
          subst h2
          refine ⟨stInv_trans IS1 (stInv_trans I1.1 IS2), fun hr => ?_⟩
          have hre2 : st1.rewrites = st.rewrites := by
            rw [← hre0]
            exact hr
          have e1 : Expr.newE c2 a2 = rhs := I1.2 (seg_eq IS1 I1.1 hS1r hre2)
          rw [← e1]
        | bin o2 l2 r2 =>
          simp only [Option.some.injEq] at h2
          subst h2
          refine ⟨stInv_trans IS1 (stInv_trans I1.1 IS2), fun hr => ?_⟩
          have hre2 : st1.rewrites = st.rewrites := by
            rw [← hre0]
            exact hr
          have e1 : Expr.bin o2 l2 r2 = rhs := I1.2 (seg_eq IS1 I1.1 hS1r hre2)
          rw [← e1]
        | member o2 p2 c2 =>
          simp only [Option.some.injEq] at h2
          subst h2
          refine ⟨stInv_trans IS1 (stInv_trans I1.1 IS2), fun hr => ?_⟩
          have hre2 : st1.rewrites = st.rewrites := by
            rw [← hre0]
            exact hr
          have e1 : Expr.member o2 p2 c2 = rhs := I1.2 (seg_eq IS1 I1.1 hS1r hre2)
          rw [← e1]
        | update a2 =>
          simp only [Option.some.injEq] at h2
          subst h2
          refine ⟨stInv_trans IS1 (stInv_trans I1.1 IS2), fun hr => ?_⟩
          have hre2 : st1.rewrites = st.rewrites := by
            rw [← hre0]
            exact hr
          have e1 : Expr.update a2 = rhs := I1.2 (seg_eq IS1 I1.1 hS1r hre2)
          rw [← e1]
        | unary o2 a2 =>
          simp only [Option.some.injEq] at h2
          subst h2
          refine ⟨stInv_trans IS1 (stInv_trans I1.1 IS2), fun hr => ?_⟩
          have hre2 : st1.rewrites = st.rewrites := by
            rw [← hre0]
            exact hr
          have e1 : Expr.unary o2 a2 = rhs := I1.2 (seg_eq IS1 I1.1 hS1r hre2)
          rw [← e1]

theorem invOut_vacuous {α : Type} {st : St} {a : α} {r : St × α}
    (hInv : StInv st r.1) (hgt : st.rewrites < r.1.rewrites) : InvOut st a r :=
  ⟨hInv, fun hr => absurd hr (by omega)⟩

theorem foldPat_invOut {S a : St} {p q : Pat} (heq : foldPat S p = (a, q)) :
    StInv S a ∧ a.rewrites = S.rewrites ∧ q = p := by
  refine ⟨?_, ?_, ?_⟩
  · have h := stInv_foldPat S p
    rw [heq] at h
    exact h
  · have h := foldPat_rewrites S p
    rw [heq] at h
    exact h
  · have h := foldPat_snd S p
    rw [heq] at h
    exact h

theorem vdTerminal {st st1 D : St} {init init1 : Option Expr}
    (I1 : InvOut st init (st1, init1)) (hD : StInv st1 D)
    (hDr : D.rewrites = st1.rewrites) {nmP nmQ : Pat} (hq : nmQ = nmP) :
    InvOut st (VarDeclarator.mk nmP init) (D, VarDeclarator.mk nmQ init1) := by
  refine ⟨stInv_trans I1.1 hD, fun hr => ?_⟩
  have c2 : D.rewrites = st.rewrites := hr
  have hre : st1.rewrites = st.rewrites := by omega
  have e1 : init1 = init := I1.2 hre
  rw [hq, e1]

theorem vdTerminal2 {st st1 st2 D : St} {init init1 init2 : Option Expr}
    (I1 : InvOut st init (st1, init1))
    (I2 : InvOut ({ st1 with patMode := PatMode.varDeclMode } : St) init1 (st2, init2))
    (hD : StInv st2 D) (hDr : D.rewrites = st2.rewrites) {nmP : Pat} :
    InvOut st (VarDeclarator.mk nmP init) (D, VarDeclarator.mk nmP init2) := by
  refine ⟨stInv_trans I1.1 (stInv_trans (stInv_of_fields rfl rfl rfl)
    (stInv_trans I2.1 hD)), fun hr => ?_⟩
  have c0 : st.rewrites ≤ st1.rewrites := I1.1.2.1
  have c1 : st1.rewrites ≤ st2.rewrites := I2.1.2.1
  have c2 : D.rewrites = st.rewrites := hr
  have e2 : init2 = init1 := I2.2 (show st2.rewrites = st1.rewrites by omega)
  have e1 : init1 = init := I1.2 (show st1.rewrites = st.rewrites by omega)
  rw [e2, e1]

theorem preventInline_rewrites (st : St) (i : Id) :
    (preventInline st i).rewrites = st.rewrites := rfl

theorem bump_declare_rewrites (st : St) (i : Id) (v : Option Expr) (u : Bool) (k : VarType) :
    (bumpRewrites (declare st i v u k)).rewrites = st.rewrites + 1 := by
  show (declare st i v u k).rewrites + 1 = st.rewrites + 1
  rw [declare_rewrites]

theorem vdTerminalFP {st st1 X : St} {init init1 : Option Expr}
    (I1 : InvOut st init (st1, init1)) (hX : StInv st1 X)
    (hXr : X.rewrites = st1.rewrites) (p : Pat) :
    InvOut st (VarDeclarator.mk p init)
      ((foldPat X p).1, VarDeclarator.mk (foldPat X p).2 init1) :=
  vdTerminal I1 (stInv_trans hX (stInv_foldPat X p))
    (by rw [foldPat_rewrites]; exact hXr) (foldPat_snd X p)

theorem stepVD (f : Nat) (hE : GE f) (hOE : GOE f) : GVD (f + 1) := by
  intro st d r h
  obtain ⟨name, init⟩ := d
  simp only [foldVarDeclarator, Option.pure_def, Option.bind_eq_bind, Option.bind_eq_some,
    Option.some.injEq] at h
  obtain ⟨⟨st1, init1⟩, h1, h2⟩ := h
  obtain ⟨ph1, fr1, ch1, fs1, cs1, vk1, pm1, rw1⟩ := st1
  dsimp only at h1 h2
  have I1 := hOE st init _ h1
  have hmid : StInv (⟨ph1, fr1, ch1, fs1, cs1, vk1, pm1, rw1⟩ : St)
      (⟨ph1, fr1, ch1, fs1, cs1, vk1, PatMode.varDeclMode, rw1⟩ : St) :=
    stInv_of_fields rfl rfl rfl
  cases ph1 with
  | analysis =>
    dsimp only at h2
    cases name with
    | pother =>
      simp only [Option.some.injEq] at h2
      subst h2
      exact vdTerminalFP I1 hmid rfl _
    | pid nm =>
      cases init1 with
      | none =>
        dsimp only at h2
        split at h2 <;>
          (simp only [Option.some.injEq] at h2 ;
           subst h2 ;
           refine vdTerminalFP I1 (by
               first
                 | exact stInv_trans hmid (stInv_declare _ nm none true _)
                 | exact hmid) ?_ _ ;
           first
             | exact declare_rewrites _ nm none true _
             | rfl)
      | some e =>
        dsimp only at h2
        split at h2
        · split at h2 <;> split at h2 <;>
            (simp only [Option.some.injEq] at h2 ;
             subst h2 ;
             refine vdTerminalFP I1 (by
                 first
                   | exact stInv_trans hmid (stInv_insertConstant _ nm _)
                   | exact hmid) ?_ _ ;
             rfl)
        · split at h2
          case isFalse.h_1 n =>
            split at h2 <;>
              (simp only [Option.some.injEq] at h2 ;
               subst h2 ;
               refine vdTerminalFP I1 (by
                   first
                     | exact stInv_trans hmid (stInv_trans (stInv_declare _ nm _ false _)
                         (stInv_preventInline _ nm))
                     | exact stInv_trans hmid (stInv_declare _ nm _ false _)) ?_ _ ;
               first
                 | (rw [preventInline_rewrites] ;
                    exact declare_rewrites _ nm _ false _)
                 | exact declare_rewrites _ nm _ false _)
          case isFalse.h_2 j =>
            split at h2 <;>
              (simp only [Option.some.injEq] at h2 ;
               subst h2 ;
               refine vdTerminalFP I1 (by
                   first
                     | exact stInv_trans hmid (stInv_trans (stInv_declare _ nm _ false _)
                         (stInv_preventInline _ nm))
                     | exact stInv_trans hmid (stInv_declare _ nm _ false _)) ?_ _ ;
               first
                 | (rw [preventInline_rewrites] ;
                    exact declare_rewrites _ nm _ false _)
                 | exact declare_rewrites _ nm _ false _)
          case isFalse.h_3 =>
            split at h2
            · simp only [Option.some.injEq] at h2
              subst h2
              refine vdTerminal I1 (stInv_trans hmid
                (stInv_trans (stInv_declare _ nm _ false _)
                  (stInv_preventInline _ nm))) ?_ rfl
              rw [preventInline_rewrites]
              exact declare_rewrites _ nm _ false _
            · simp only [Option.some.injEq] at h2
              subst h2
              refine vdTerminalFP I1
                (stInv_trans hmid (stInv_declare _ nm _ false _)) ?_ _
              exact declare_rewrites _ nm _ false _
  | inlining =>
    dsimp only at h2
    cases name with
    | pother =>
      simp only [Option.some.injEq] at h2
      subst h2
      exact vdTerminalFP I1 hmid rfl _
    | pid nm =>
      dsimp only at h2
      split at h2
      · split at h2
        · simp only [Option.some.injEq] at h2
          subst h2
          exact vdTerminal I1 hmid rfl rfl
        · simp only [Option.pure_def, Option.bind_eq_bind, Option.bind_eq_some,
            Option.some.injEq] at h2
          obtain ⟨⟨st2, init2⟩, h3, h4⟩ := h2
          dsimp only at h3 h4
          have I2 := hOE _ init1 (st2, init2) h3
          cases init2 with
          | none =>
            dsimp only at h4
            split at h4
            next hq =>
              exact Bool.noConfusion hq
            next =>
              simp only [Option.some.injEq] at h4
              subst h4
              exact vdTerminal2 I1 I2 (stInv_declare _ nm none false _)
                (declare_rewrites _ nm none false _)
          | some e2v =>
            cases e2v
            case ident ri =>
              dsimp only at h4
              split at h4
              · simp only [Option.some.injEq] at h4
                subst h4
                exact vdTerminal2 I1 I2
                  (stInv_trans (stInv_declare _ nm _ false _) (stInv_preventInline _ nm))
                  (by rw [preventInline_rewrites]; exact declare_rewrites _ nm _ false _)
              · simp only [Option.some.injEq] at h4
                subst h4
                refine invOut_vacuous (stInv_trans I1.1 (stInv_trans hmid (stInv_trans I2.1
                  (stInv_trans (stInv_declare _ nm _ false _)
                    (stInv_trans (stInv_declare _ nm _ false _) (stInv_bump _)))))) ?_
                have c0 : st.rewrites ≤ rw1 := I1.1.2.1
                have c1 : rw1 ≤ st2.rewrites := I2.1.2.1
                rw [bump_declare_rewrites, declare_rewrites]
                omega
            case lit n2 =>
              dsimp only at h4
              split at h4
              next hq =>
                exact Bool.noConfusion hq
              next =>
                simp only [Option.some.injEq] at h4
                subst h4
                refine invOut_vacuous (stInv_trans I1.1 (stInv_trans hmid (stInv_trans I2.1
                  (stInv_trans (stInv_declare _ nm _ false _) (stInv_bump _))))) ?_
                have c0 : st.rewrites ≤ rw1 := I1.1.2.1
                have c1 : rw1 ≤ st2.rewrites := I2.1.2.1
                rw [bump_declare_rewrites]
                omega
            all_goals
              (dsimp only at h4 ;
               split at h4 ;
               · simp only [Option.some.injEq] at h4 ;
                 subst h4 ;
                 exact vdTerminal2 I1 I2 (stInv_preventInline st2 nm) rfl
               · split at h4
                 · simp only [Option.some.injEq] at h4 ;
                   subst h4 ;
                   exact vdTerminal2 I1 I2 (stInv_refl st2) rfl
                 · split at h4
                   · simp only [Option.some.injEq] at h4 ;
                     subst h4 ;
                     refine invOut_vacuous (stInv_trans I1.1 (stInv_trans hmid
                       (stInv_trans I2.1 (stInv_trans (stInv_declare _ nm _ false _)
                         (stInv_bump _))))) ?_ ;
                     have c0 : st.rewrites ≤ rw1 := I1.1.2.1 ;
                     have c1 : rw1 ≤ st2.rewrites := I2.1.2.1 ;
                     rw [bump_declare_rewrites] ;
                     omega
                   · simp only [Option.some.injEq] at h4 ;
                     subst h4 ;
                     exact vdTerminal2 I1 I2 (stInv_refl st2) rfl
                   · simp only [Option.some.injEq] at h4 ;
                     subst h4 ;
                     exact vdTerminal2 I1 I2 (stInv_refl st2) rfl)
      · simp only [Option.some.injEq] at h2
        subst h2
        exact vdTerminalFP I1 hmid rfl _


theorem stepFor (f : Nat) (hOH : GOH f) (hOE : GOE f) (hS : GS f) : GFor (f + 1) := by
  intro st i t u b r h
  simp only [foldFor, Option.pure_def, Option.bind_eq_bind, Option.bind_eq_some,
    Option.some.injEq] at h
  obtain ⟨⟨stA, init2⟩, h1, ⟨stB, test2⟩, h2, ⟨stC, update2⟩, h3,
    ⟨st2, body2⟩, h4, h5⟩ := h
  dsimp only at h1 h2 h3 h4 h5
  have I1 := hOH st i _ h1
  have I2 := hOE _ t _ h2
  have I3 := hOE _ u _ h3
  have I4 := hS _ b _ h4
  have hPop : StInv stC (popFrame st2) := stInv_push_pop I4.1
  subst h5
  split
  · have hFin : StInv stC (storeInlineBarrier (popFrame st2) (popFrame st2).phase) :=
      stInv_trans hPop (stInv_storeInlineBarrier (popFrame st2) (popFrame st2).phase)
    refine ⟨stInv_trans I1.1 (stInv_trans (stInv_identListVisit _ _)
        (stInv_trans (stInv_identListVisit _ _) (stInv_trans (stInv_identListVisit _ _)
          (stInv_trans I2.1 (stInv_trans I3.1 hFin))))), fun hr => ?_⟩
    have s1 := rw_split I1.1 (stInv_trans (stInv_identListVisit _ _)
        (stInv_trans (stInv_identListVisit _ _) (stInv_trans (stInv_identListVisit _ _)
          (stInv_trans I2.1 (stInv_trans I3.1 hFin))))) hr
    have s2 := rw_split (stInv_trans (stInv_identListVisit _ _)
        (stInv_trans (stInv_identListVisit _ _) (stInv_identListVisit _ _)))
        (stInv_trans I2.1 (stInv_trans I3.1 hFin)) s1.2
    have s3 := rw_split I2.1 (stInv_trans I3.1 hFin) s2.2
    have s4 := rw_split I3.1 hFin s3.2
    have t2 : st2.rewrites = stC.rewrites := s4.2
    have e1 : init2 = i := I1.2 s1.1
    have e2 : test2 = t := I2.2 s3.1
    have e3 : update2 = u := I3.2 s4.1
    have e4 : body2 = b := I4.2 t2
    rw [e1, e2, e3, e4]
  · refine ⟨stInv_trans I1.1 (stInv_trans (stInv_identListVisit _ _)
        (stInv_trans (stInv_identListVisit _ _) (stInv_trans (stInv_identListVisit _ _)
          (stInv_trans I2.1 (stInv_trans I3.1 hPop))))), fun hr => ?_⟩
    have s1 := rw_split I1.1 (stInv_trans (stInv_identListVisit _ _)
        (stInv_trans (stInv_identListVisit _ _) (stInv_trans (stInv_identListVisit _ _)
          (stInv_trans I2.1 (stInv_trans I3.1 hPop))))) hr
    have s2 := rw_split (stInv_trans (stInv_identListVisit _ _)
        (stInv_trans (stInv_identListVisit _ _) (stInv_identListVisit _ _)))
        (stInv_trans I2.1 (stInv_trans I3.1 hPop)) s1.2
    have s3 := rw_split I2.1 (stInv_trans I3.1 hPop) s2.2
    have s4 := rw_split I3.1 hPop s3.2
    have t2 : st2.rewrites = stC.rewrites := s4.2
    have e1 : init2 = i := I1.2 s1.1
    have e2 : test2 = t := I2.2 s3.1
    have e3 : update2 = u := I3.2 s4.1
    have e4 : body2 = b := I4.2 t2
    rw [e1, e2, e3, e4]


/-- Master invariant: every fold function preserves `StInv` and, when it performs
no rewrite, returns its input unchanged — simultaneous induction on fuel. -/
theorem goodAll : ∀ f, GAll f := by
  intro f
  induction f with
  | zero =>
    refine ⟨?_, ?_, ?_, ?_, ?_, ?_, ?_, ?_, ?_, ?_, ?_, ?_, ?_, ?_, ?_, ?_, ?_, ?_, ?_⟩ <;>
      first
        | exact fun st a r h => Option.noConfusion h
        | exact fun st a b r h => Option.noConfusion h
        | exact fun st a b c r h => Option.noConfusion h
        | exact fun st a b c d r h => Option.noConfusion h
  | succ f ih =>
    obtain ⟨hE, hEC, hA, hC, hN, hB, hM, hUp, hUn, hEL, hOE, hVD, hDs, hVDl, hS, hSs,
      hSL, hOH, hFor⟩ := ih
    exact ⟨stepE f hEC hE, stepEC f hA hC hN hB hM hUp hUn, stepA f hE, stepCall f hE hEL,
      stepNew f hE hEL, stepBin f hE, stepM f hE, stepUp f, stepUn f hE, stepEL f hE hEL,
      stepOE f hE, stepVD f hE hOE, stepDs f hVD hDs, stepVDl f hDs,
      stepS f hVDl hE hSs hFor, stepSs f hSL, stepSL f hS hSL, stepOH f hVDl hE,
      stepFor f hOH hOE hS⟩

/-- The module fold preserves the master invariant, and a run that performs no
rewrite returns the module body unchanged. -/
theorem goodModule (f : Nat) (st : St) (items : List Stmt) (r : St × List Stmt)
    (h : foldModule f st items = some r) :
    StInv st r.1 ∧ (r.1.rewrites = st.rewrites → r.2 = items) := by
  cases f with
  | zero => exact Option.noConfusion h
  | succ f =>
    have hSL : GSL f := (goodAll f).2.2.2.2.2.2.2.2.2.2.2.2.2.2.2.2.1
    simp only [foldModule, Option.pure_def, Option.bind_eq_bind, Option.bind_eq_some,
      Option.some.injEq] at h
    obtain ⟨⟨s1, items1⟩, h1, ⟨s2, items2⟩, h2, h3⟩ := h
    dsimp only at h1 h2 h3
    have I1 := hSL _ items _ h1
    have I2 := hSL _ items1 _ h2
    have m0 : StInv st ({ st with phase := Phase.analysis } : St) :=
      stInv_of_fields rfl rfl rfl
    have m1 : StInv s1 ({ s1 with phase := Phase.inlining } : St) :=
      stInv_of_fields rfl rfl rfl
    have m2 : StInv s2 ({ s2 with phase := st.phase } : St) :=
      stInv_of_fields rfl rfl rfl
    subst h3
    refine ⟨stInv_trans m0 (stInv_trans I1.1 (stInv_trans m1 (stInv_trans I2.1 m2))), ?_⟩
    intro hr
    have s1h := rw_split m0 (stInv_trans I1.1 (stInv_trans m1 (stInv_trans I2.1 m2))) hr
    have s2h := rw_split I1.1 (stInv_trans m1 (stInv_trans I2.1 m2)) s1h.2
    have s3h := rw_split m1 (stInv_trans I2.1 m2) s2h.2
    have s4h := rw_split I2.1 m2 s3h.2
    have e1 : items1 = items := I1.2 s2h.1
    have e2 : items2 = items1 := I2.2 s4h.1
    rw [e2, e1]


theorem findBinding_updateInnermost (g : VarInfo → VarInfo) (st : St) (i : Id) :
    findBinding (updateInnermost g st i) i = (findBinding st i).map g := by
  have aux : ∀ l : List Frame,
      findBinding.go i (updateInnermost.go g i l) = (findBinding.go i l).map g := by
    intro l
    induction l with
    | nil => rfl
    | cons fr rest ih =>
      show findBinding.go i
          (match varsLookup fr.vars i with
           | some _ => { fr with vars := varsUpdate g fr.vars i } :: rest
           | none => fr :: updateInnermost.go g i rest) =
        (findBinding.go i (fr :: rest)).map g
      cases hv : varsLookup fr.vars i with
      | some v =>
        show findBinding.go i ({ fr with vars := varsUpdate g fr.vars i } :: rest) =
          (findBinding.go i (fr :: rest)).map g
        show (match varsLookup (varsUpdate g fr.vars i) i with
              | some w => some w
              | none => findBinding.go i rest) =
          (findBinding.go i (fr :: rest)).map g
        rw [lookup_varsUpdate, if_pos rfl, hv]
        show some (g v) = (findBinding.go i (fr :: rest)).map g
        show some (g v) =
          (match varsLookup fr.vars i with
           | some w => some w
           | none => findBinding.go i rest).map g
        rw [hv]
        rfl
      | none =>
        show findBinding.go i (fr :: updateInnermost.go g i rest) =
          (findBinding.go i (fr :: rest)).map g
        show (match varsLookup fr.vars i with
              | some w => some w
              | none => findBinding.go i (updateInnermost.go g i rest)) =
          (findBinding.go i (fr :: rest)).map g
        rw [hv, ih]
        show (findBinding.go i rest).map g =
          (match varsLookup fr.vars i with
           | some w => some w
           | none => findBinding.go i rest).map g
        rw [hv]
  exact aux st.frames

theorem findBinding_storeInlineBarrier (st : St) (ph : Phase) (i : Id) :
    findBinding (storeInlineBarrier st ph) i = (findBinding st i).map preventedVar := by
  have aux : ∀ l : List Frame,
      findBinding.go i (l.map barrierFrame) = (findBinding.go i l).map preventedVar := by
    intro l
    induction l with
    | nil => rfl
    | cons fr rest ih =>
      show (match varsLookup (barrierFrame fr).vars i with
            | some w => some w
            | none => findBinding.go i (rest.map barrierFrame)) =
        (match varsLookup fr.vars i with
         | some w => some w
         | none => findBinding.go i rest).map preventedVar
      show (match varsLookup (fr.vars.map fun p => (p.1, preventedVar p.2)) i with
            | some w => some w
            | none => findBinding.go i (rest.map barrierFrame)) = _
      rw [lookup_mapSecond]
      cases hv : varsLookup fr.vars i with
      | some v => rfl
      | none => exact ih
  exact aux st.frames

theorem allPrevented_storeInlineBarrier (st : St) (ph : Phase) :
    allPrevented (storeInlineBarrier st ph) = true := by
  show (st.frames.map barrierFrame).all _ = true
  rw [List.all_map]
  refine List.all_eq_true.mpr ?_
  intro fr _
  show ((fr.vars.map fun p => (p.1, preventedVar p.2)).all fun p => p.2.inlinePrevented)
    = true
  rw [List.all_map]
  refine List.all_eq_true.mpr ?_
  intro p _
  rfl

theorem findCur_updateCurrent (g : VarInfo → VarInfo) (st : St) (x : Id) :
    findBindingFromCurrent (updateCurrent g st x) x =
      (findBindingFromCurrent st x).map g := by
  obtain ⟨ph, fr, ch, fs, cs, vk, pm, rw⟩ := st
  cases fs with
  | nil => rfl
  | cons f rest =>
    show varsLookup (varsUpdate g f.vars x) x = (varsLookup f.vars x).map g
    rw [lookup_varsUpdate, if_pos rfl]


/-- C1: in the inlining phase, an `=`-assignment to an identifier whose
current-scope binding holds the undefined sentinel, with neither the binding nor
the right-hand side inline-prevented, updates the binding value to the right-hand
side, clears the undefined flag, and replaces the whole assignment expression by
the right-hand side; concretely `var y; y = x; y;` becomes `var y; x; x;`. -/
theorem c1_inlining_elides_undefined_assignment :
    (∀ (f : Nat) (st st1 : St) (node rhs : Expr) (x : Id) (v : VarInfo),
      foldExprChildren f st node = some (st1, Expr.assign .eq (.pid x) rhs) →
      st1.phase = .inlining →
      findBindingFromCurrent st1 x = some v →
      v.isUndefined = true → v.inlinePrevented = false →
      isInlinePrevented st1 rhs = false →
      foldExpr (f + 1) st node = some (elideAssign st1 x rhs, rhs) ∧
        findBindingFromCurrent (elideAssign st1 x rhs) x =
          some { v with value := some rhs, isUndefined := false }) ∧
    runProg [(Stmt.varDecl VarDeclKind.varKind [⟨(Pat.pid ("y", 0)), none⟩]), (Stmt.exprStmt (Expr.assign AssignOp.eq (AssignLeft.pid ("y", 0)) (Expr.ident ("x", 0)))), (Stmt.exprStmt (Expr.ident ("y", 0)))]
      = some [(Stmt.varDecl VarDeclKind.varKind [⟨(Pat.pid ("y", 0)), none⟩]), (Stmt.exprStmt (Expr.ident ("x", 0))), (Stmt.exprStmt (Expr.ident ("x", 0)))] := by
  have h1 : foldStmtList 39 ({ initState with phase := Phase.analysis } : St)
      [(Stmt.varDecl VarDeclKind.varKind [⟨(Pat.pid ("y", 0)), none⟩]), (Stmt.exprStmt (Expr.assign AssignOp.eq (AssignLeft.pid ("y", 0)) (Expr.ident ("x", 0)))), (Stmt.exprStmt (Expr.ident ("y", 0)))]
      = some (({ phase := Phase.analysis, isFirstRun := true, changed := false, frames := [{ kind := ScopeKind.module, vars := [(("y", 0), { kind := (VarType.var VarDeclKind.varKind), value := (some (Expr.ident ("x", 0))), readCnt := 1, writeCnt := 1, isUndefined := true, inlinePrevented := false, thisSensitive := false })] }], constants := [], varDeclKind := VarDeclKind.varKind, patMode := PatMode.assignMode, rewrites := 0 } : St),
        [(Stmt.varDecl VarDeclKind.varKind [⟨(Pat.pid ("y", 0)), none⟩]), (Stmt.exprStmt (Expr.assign AssignOp.eq (AssignLeft.pid ("y", 0)) (Expr.ident ("x", 0)))), (Stmt.exprStmt (Expr.ident ("y", 0)))]) := by rfl
  have h2 : foldStmtList 39
      ({ phase := Phase.inlining, isFirstRun := true, changed := false, frames := [{ kind := ScopeKind.module, vars := [(("y", 0), { kind := (VarType.var VarDeclKind.varKind), value := (some (Expr.ident ("x", 0))), readCnt := 1, writeCnt := 1, isUndefined := true, inlinePrevented := false, thisSensitive := false })] }], constants := [], varDeclKind := VarDeclKind.varKind, patMode := PatMode.assignMode, rewrites := 0 } : St)
      [(Stmt.varDecl VarDeclKind.varKind [⟨(Pat.pid ("y", 0)), none⟩]), (Stmt.exprStmt (Expr.assign AssignOp.eq (AssignLeft.pid ("y", 0)) (Expr.ident ("x", 0)))), (Stmt.exprStmt (Expr.ident ("y", 0)))]
      = some (({ phase := Phase.inlining, isFirstRun := true, changed := true, frames := [{ kind := ScopeKind.module, vars := [(("y", 0), { kind := (VarType.var VarDeclKind.varKind), value := (some (Expr.ident ("x", 0))), readCnt := 1, writeCnt := 3, isUndefined := false, inlinePrevented := false, thisSensitive := false })] }], constants := [], varDeclKind := VarDeclKind.varKind, patMode := PatMode.assignMode, rewrites := 2 } : St),
        [(Stmt.varDecl VarDeclKind.varKind [⟨(Pat.pid ("y", 0)), none⟩]), (Stmt.exprStmt (Expr.ident ("x", 0))), (Stmt.exprStmt (Expr.ident ("x", 0)))]) := by rfl
  have hmod : runModule initState
      [(Stmt.varDecl VarDeclKind.varKind [⟨(Pat.pid ("y", 0)), none⟩]), (Stmt.exprStmt (Expr.assign AssignOp.eq (AssignLeft.pid ("y", 0)) (Expr.ident ("x", 0)))), (Stmt.exprStmt (Expr.ident ("y", 0)))]
      = some (({ phase := Phase.analysis, isFirstRun := true, changed := true, frames := [{ kind := ScopeKind.module, vars := [(("y", 0), { kind := (VarType.var VarDeclKind.varKind), value := (some (Expr.ident ("x", 0))), readCnt := 1, writeCnt := 3, isUndefined := false, inlinePrevented := false, thisSensitive := false })] }], constants := [], varDeclKind := VarDeclKind.varKind, patMode := PatMode.assignMode, rewrites := 2 } : St),
        [(Stmt.varDecl VarDeclKind.varKind [⟨(Pat.pid ("y", 0)), none⟩]), (Stmt.exprStmt (Expr.ident ("x", 0))), (Stmt.exprStmt (Expr.ident ("x", 0)))]) := by
    show foldModule (39 + 1) initState _ = _
    simp only [foldModule, Option.pure_def, Option.bind_eq_bind]
    rw [h1]
    simp only [Option.some_bind]
    (try dsimp only)
    rw [h2]
    rfl
  constructor
  · intro f st st1 node rhs x v h1 hph hb hu hp hr
    have hcur : findBindingFromCurrent (elideAssign st1 x rhs) x =
        (findBindingFromCurrent st1 x).map
          (fun w => { w with value := some rhs, isUndefined := false }) :=
      findCur_updateCurrent _ st1 x
    constructor
    · simp only [foldExpr, Option.pure_def, Option.bind_eq_bind]
      rw [h1]
      obtain ⟨p1, f1, c1, fs1, cs1, k1, m1, r1⟩ := st1
      dsimp only at hph
      subst hph
      dsimp only [Option.some_bind]
      rw [hb]
      dsimp only
      split
      · rfl
      · next hfalse => exact absurd (by rw [hu, hp, hr]; rfl) hfalse
    · rw [hcur, hb]
      rfl
  · show (runModule initState _).map _ = _
    rw [hmod]
    rfl

/-- C2: call and new expressions recurse into callee and arguments, flag an
identifier callee's binding this-sensitive during analysis, and raise the inline
barrier: every binding visible from the current scope is inline-prevented in the
resulting state, so `let x = 1; call(); use(x);` is returned unchanged. -/
theorem c2_call_new_inline_barrier :
    (∀ (f : Nat) (st : St) (callee : Expr) (args : List Expr) (r : St × Expr),
      foldCall f st callee args = some r → allPrevented r.1 = true) ∧
    (∀ (f : Nat) (st : St) (callee : Expr) (args : List Expr) (r : St × Expr),
      foldNew f st callee args = some r → allPrevented r.1 = true) ∧
    (∀ (f : Nat) (st : St) (c : Id) (r : St × Expr),
      st.phase = .analysis →
      (if st.isFirstRun then findConstant st c else none) = none →
      foldCall (f + 2) st (.ident c) [] = some r →
      ∀ v, findBinding r.1 c = some v →
        v.thisSensitive = true ∧ v.inlinePrevented = true) ∧
    runProg [(Stmt.varDecl VarDeclKind.letKind [⟨(Pat.pid ("x", 0)), (some (Expr.lit 1))⟩]), (Stmt.exprStmt (Expr.call (Expr.ident ("call", 0)) [])), (Stmt.exprStmt (Expr.call (Expr.ident ("use", 0)) [(Expr.ident ("x", 0))]))]
      = some [(Stmt.varDecl VarDeclKind.letKind [⟨(Pat.pid ("x", 0)), (some (Expr.lit 1))⟩]), (Stmt.exprStmt (Expr.call (Expr.ident ("call", 0)) [])), (Stmt.exprStmt (Expr.call (Expr.ident ("use", 0)) [(Expr.ident ("x", 0))]))] ∧
    runChanged [(Stmt.varDecl VarDeclKind.letKind [⟨(Pat.pid ("x", 0)), (some (Expr.lit 1))⟩]), (Stmt.exprStmt (Expr.call (Expr.ident ("call", 0)) [])), (Stmt.exprStmt (Expr.call (Expr.ident ("use", 0)) [(Expr.ident ("x", 0))]))]
      = some false := by
  have g1 : foldStmtList 39 ({ initState with phase := Phase.analysis } : St)
      [(Stmt.varDecl VarDeclKind.letKind [⟨(Pat.pid ("x", 0)), (some (Expr.lit 1))⟩]), (Stmt.exprStmt (Expr.call (Expr.ident ("call", 0)) [])), (Stmt.exprStmt (Expr.call (Expr.ident ("use", 0)) [(Expr.ident ("x", 0))]))]
      = some (({ phase := Phase.analysis, isFirstRun := true, changed := false, frames := [{ kind := ScopeKind.module, vars := [(("x", 0), { kind := (VarType.var VarDeclKind.letKind), value := (some (Expr.lit 1)), readCnt := 1, writeCnt := 0, isUndefined := false, inlinePrevented := true, thisSensitive := false })] }], constants := [], varDeclKind := VarDeclKind.letKind, patMode := PatMode.varDeclMode, rewrites := 0 } : St),
        [(Stmt.varDecl VarDeclKind.letKind [⟨(Pat.pid ("x", 0)), (some (Expr.lit 1))⟩]), (Stmt.exprStmt (Expr.call (Expr.ident ("call", 0)) [])), (Stmt.exprStmt (Expr.call (Expr.ident ("use", 0)) [(Expr.ident ("x", 0))]))]) := by rfl
  have g2 : foldStmtList 39
      ({ phase := Phase.inlining, isFirstRun := true, changed := false, frames := [{ kind := ScopeKind.module, vars := [(("x", 0), { kind := (VarType.var VarDeclKind.letKind), value := (some (Expr.lit 1)), readCnt := 1, writeCnt := 0, isUndefined := false, inlinePrevented := true, thisSensitive := false })] }], constants := [], varDeclKind := VarDeclKind.letKind, patMode := PatMode.varDeclMode, rewrites := 0 } : St)
      [(Stmt.varDecl VarDeclKind.letKind [⟨(Pat.pid ("x", 0)), (some (Expr.lit 1))⟩]), (Stmt.exprStmt (Expr.call (Expr.ident ("call", 0)) [])), (Stmt.exprStmt (Expr.call (Expr.ident ("use", 0)) [(Expr.ident ("x", 0))]))]
      = some (({ phase := Phase.inlining, isFirstRun := true, changed := false, frames := [{ kind := ScopeKind.module, vars := [(("x", 0), { kind := (VarType.var VarDeclKind.letKind), value := (some (Expr.lit 1)), readCnt := 1, writeCnt := 0, isUndefined := false, inlinePrevented := true, thisSensitive := false })] }], constants := [], varDeclKind := VarDeclKind.letKind, patMode := PatMode.varDeclMode, rewrites := 0 } : St),
        [(Stmt.varDecl VarDeclKind.letKind [⟨(Pat.pid ("x", 0)), (some (Expr.lit 1))⟩]), (Stmt.exprStmt (Expr.call (Expr.ident ("call", 0)) [])), (Stmt.exprStmt (Expr.call (Expr.ident ("use", 0)) [(Expr.ident ("x", 0))]))]) := by rfl
  have gmod : runModule initState
      [(Stmt.varDecl VarDeclKind.letKind [⟨(Pat.pid ("x", 0)), (some (Expr.lit 1))⟩]), (Stmt.exprStmt (Expr.call (Expr.ident ("call", 0)) [])), (Stmt.exprStmt (Expr.call (Expr.ident ("use", 0)) [(Expr.ident ("x", 0))]))]
      = some (({ phase := Phase.analysis, isFirstRun := true, changed := false, frames := [{ kind := ScopeKind.module, vars := [(("x", 0), { kind := (VarType.var VarDeclKind.letKind), value := (some (Expr.lit 1)), readCnt := 1, writeCnt := 0, isUndefined := false, inlinePrevented := true, thisSensitive := false })] }], constants := [], varDeclKind := VarDeclKind.letKind, patMode := PatMode.varDeclMode, rewrites := 0 } : St),
        [(Stmt.varDecl VarDeclKind.letKind [⟨(Pat.pid ("x", 0)), (some (Expr.lit 1))⟩]), (Stmt.exprStmt (Expr.call (Expr.ident ("call", 0)) [])), (Stmt.exprStmt (Expr.call (Expr.ident ("use", 0)) [(Expr.ident ("x", 0))]))]) := by
    show foldModule (39 + 1) initState _ = _
    simp only [foldModule, Option.pure_def, Option.bind_eq_bind]
    rw [g1]
    simp only [Option.some_bind]
    (try dsimp only)
    rw [g2]
    rfl
  refine ⟨?_, ?_, ?_, ?_, ?_⟩
  · intro f st callee args r h
    cases f with
    | zero => exact Option.noConfusion h
    | succ f =>
      simp only [foldCall, Option.pure_def, Option.bind_eq_bind, Option.bind_eq_some,
        Option.some.injEq] at h
      obtain ⟨⟨s1, c1⟩, h1, ⟨s2, a2⟩, h2, h3⟩ := h
      subst h3
      exact allPrevented_storeInlineBarrier s2 s2.phase
  · intro f st callee args r h
    cases f with
    | zero => exact Option.noConfusion h
    | succ f =>
      simp only [foldNew, Option.pure_def, Option.bind_eq_bind, Option.bind_eq_some,
        Option.some.injEq] at h
      obtain ⟨⟨s1, c1⟩, h1, ⟨s2, a2⟩, h2, h3⟩ := h
      subst h3
      exact allPrevented_storeInlineBarrier s2 s2.phase
  · intro f st c r hph hfc h
    cases f with
    | zero => exact Option.noConfusion h
    | succ f =>
      obtain ⟨ph, fr, ch, fs, cs, vk, pm, rw⟩ := st
      dsimp only at hph hfc
      subst hph
      have hfe : foldExpr (f + 2) (⟨Phase.analysis, fr, ch, fs, cs, vk, pm, rw⟩ : St)
          (Expr.ident c)
          = some (addRead (⟨Phase.analysis, fr, ch, fs, cs, vk, pm, rw⟩ : St) c,
              Expr.ident c) := by
        rw [show f + 2 = f + 1 + 1 from rfl]
        simp only [foldExpr, foldExprChildren, Option.pure_def, Option.bind_eq_bind,
          Option.some_bind]
        rw [hfc]
      rw [show f + 1 + 2 = f + 2 + 1 from rfl] at h
      simp only [foldCall, Option.pure_def, Option.bind_eq_bind, Option.bind_eq_some,
        Option.some.injEq] at h
      obtain ⟨⟨s1, c1⟩, h1, ⟨s2, a2⟩, h2, h3⟩ := h
      rw [hfe] at h1
      simp only [Option.some.injEq, Prod.mk.injEq] at h1
      obtain ⟨h1a, h1b⟩ := h1
      subst h1a
      subst h1b
      split at h2
      case isFalse hfalse => exact absurd rfl hfalse
      simp only [foldExprList, Option.pure_def, Option.some.injEq, Prod.mk.injEq] at h2
      obtain ⟨h2a, h2b⟩ := h2
      subst h2a
      subst h2b
      subst h3
      intro v hv
      dsimp only at hv
      rw [findBinding_storeInlineBarrier] at hv
      simp only [markThisSensitive] at hv
      rw [findBinding_updateInnermost] at hv
      simp only [addRead] at hv
      rw [findBinding_updateInnermost] at hv
      cases hb : findBinding (⟨Phase.analysis, fr, ch, fs, cs, vk, pm, rw⟩ : St) c with
      | none =>
        rw [hb] at hv
        exact Option.noConfusion hv
      | some v0 =>
        rw [hb] at hv
        simp only [Option.map_some', Option.some.injEq] at hv
        subst hv
        exact ⟨rfl, rfl⟩
  · show (runModule initState _).map _ = _
    rw [gmod]
    rfl
  · show (runModule initState _).map _ = _
    rw [gmod]
    rfl

/-- C3: a `const` declarator whose initializer is a literal or identifier is
recorded in the separate constants map at the top of the first run, and reads
are folded eagerly from that map regardless of read count — but only while
`is_first_run` holds; a read on a later run is returned untouched even when the
map still stores an inlineable value (see the counterexample). -/
theorem c3_constants_eager_only_on_first_run :
    (∀ (f : Nat) (st : St) (i : Id) (e : Expr),
      st.isFirstRun = false → findConstant st i = some e → findBinding st i = none →
      st.phase = .inlining →
      foldExpr (f + 2) st (.ident i) = some (st, .ident i)) ∧
    (runModule initState [(Stmt.varDecl VarDeclKind.constKind [⟨(Pat.pid ("a", 0)), (some (Expr.lit 1))⟩])]).map
      (fun r => findConstant r.1 ("a", 0)) = some (some (Expr.lit 1)) ∧
    runProg [(Stmt.varDecl VarDeclKind.constKind [⟨(Pat.pid ("a", 0)), (some (Expr.lit 1))⟩]), (Stmt.exprStmt (Expr.ident ("a", 0))), (Stmt.exprStmt (Expr.ident ("a", 0)))]
      = some [(Stmt.varDecl VarDeclKind.constKind [⟨(Pat.pid ("a", 0)), (some (Expr.lit 1))⟩]), (Stmt.exprStmt (Expr.lit 1)), (Stmt.exprStmt (Expr.lit 1))] ∧
    runChanged [(Stmt.varDecl VarDeclKind.constKind [⟨(Pat.pid ("a", 0)), (some (Expr.lit 1))⟩]), (Stmt.exprStmt (Expr.ident ("a", 0))), (Stmt.exprStmt (Expr.ident ("a", 0)))]
      = some true := by
  have p1 : foldStmtList 39 ({ initState with phase := Phase.analysis } : St)
      [(Stmt.varDecl VarDeclKind.constKind [⟨(Pat.pid ("a", 0)), (some (Expr.lit 1))⟩])]
      = some (({ phase := Phase.analysis, isFirstRun := true, changed := false, frames := [{ kind := ScopeKind.module, vars := [] }], constants := [(("a", 0), (some (Expr.lit 1)))], varDeclKind := VarDeclKind.constKind, patMode := PatMode.varDeclMode, rewrites := 0 } : St),
        [(Stmt.varDecl VarDeclKind.constKind [⟨(Pat.pid ("a", 0)), (some (Expr.lit 1))⟩])]) := by rfl
  have p2 : foldStmtList 39
      ({ phase := Phase.inlining, isFirstRun := true, changed := false, frames := [{ kind := ScopeKind.module, vars := [] }], constants := [(("a", 0), (some (Expr.lit 1)))], varDeclKind := VarDeclKind.constKind, patMode := PatMode.varDeclMode, rewrites := 0 } : St)
      [(Stmt.varDecl VarDeclKind.constKind [⟨(Pat.pid ("a", 0)), (some (Expr.lit 1))⟩])]
      = some (({ phase := Phase.inlining, isFirstRun := true, changed := false, frames := [{ kind := ScopeKind.module, vars := [] }], constants := [(("a", 0), (some (Expr.lit 1)))], varDeclKind := VarDeclKind.constKind, patMode := PatMode.varDeclMode, rewrites := 0 } : St),
        [(Stmt.varDecl VarDeclKind.constKind [⟨(Pat.pid ("a", 0)), (some (Expr.lit 1))⟩])]) := by rfl
  have pmod : runModule initState
      [(Stmt.varDecl VarDeclKind.constKind [⟨(Pat.pid ("a", 0)), (some (Expr.lit 1))⟩])]
      = some (({ phase := Phase.analysis, isFirstRun := true, changed := false, frames := [{ kind := ScopeKind.module, vars := [] }], constants := [(("a", 0), (some (Expr.lit 1)))], varDeclKind := VarDeclKind.constKind, patMode := PatMode.varDeclMode, rewrites := 0 } : St),
        [(Stmt.varDecl VarDeclKind.constKind [⟨(Pat.pid ("a", 0)), (some (Expr.lit 1))⟩])]) := by
    show foldModule (39 + 1) initState _ = _
    simp only [foldModule, Option.pure_def, Option.bind_eq_bind]
    rw [p1]
    simp only [Option.some_bind]
    (try dsimp only)
    rw [p2]
    rfl
  have q1 : foldStmtList 39 ({ initState with phase := Phase.analysis } : St)
      [(Stmt.varDecl VarDeclKind.constKind [⟨(Pat.pid ("a", 0)), (some (Expr.lit 1))⟩]), (Stmt.exprStmt (Expr.ident ("a", 0))), (Stmt.exprStmt (Expr.ident ("a", 0)))]
      = some (({ phase := Phase.analysis, isFirstRun := true, changed := true, frames := [{ kind := ScopeKind.module, vars := [] }], constants := [(("a", 0), (some (Expr.lit 1)))], varDeclKind := VarDeclKind.constKind, patMode := PatMode.varDeclMode, rewrites := 2 } : St),
        [(Stmt.varDecl VarDeclKind.constKind [⟨(Pat.pid ("a", 0)), (some (Expr.lit 1))⟩]), (Stmt.exprStmt (Expr.lit 1)), (Stmt.exprStmt (Expr.lit 1))]) := by rfl
  have q2 : foldStmtList 39
      ({ phase := Phase.inlining, isFirstRun := true, changed := true, frames := [{ kind := ScopeKind.module, vars := [] }], constants := [(("a", 0), (some (Expr.lit 1)))], varDeclKind := VarDeclKind.constKind, patMode := PatMode.varDeclMode, rewrites := 2 } : St)
      [(Stmt.varDecl VarDeclKind.constKind [⟨(Pat.pid ("a", 0)), (some (Expr.lit 1))⟩]), (Stmt.exprStmt (Expr.lit 1)), (Stmt.exprStmt (Expr.lit 1))]
      = some (({ phase := Phase.inlining, isFirstRun := true, changed := true, frames := [{ kind := ScopeKind.module, vars := [] }], constants := [(("a", 0), (some (Expr.lit 1)))], varDeclKind := VarDeclKind.constKind, patMode := PatMode.varDeclMode, rewrites := 2 } : St),
        [(Stmt.varDecl VarDeclKind.constKind [⟨(Pat.pid ("a", 0)), (some (Expr.lit 1))⟩]), (Stmt.exprStmt (Expr.lit 1)), (Stmt.exprStmt (Expr.lit 1))]) := by rfl
  have qmod : runModule initState
      [(Stmt.varDecl VarDeclKind.constKind [⟨(Pat.pid ("a", 0)), (some (Expr.lit 1))⟩]), (Stmt.exprStmt (Expr.ident ("a", 0))), (Stmt.exprStmt (Expr.ident ("a", 0)))]
      = some (({ phase := Phase.analysis, isFirstRun := true, changed := true, frames := [{ kind := ScopeKind.module, vars := [] }], constants := [(("a", 0), (some (Expr.lit 1)))], varDeclKind := VarDeclKind.constKind, patMode := PatMode.varDeclMode, rewrites := 2 } : St),
        [(Stmt.varDecl VarDeclKind.constKind [⟨(Pat.pid ("a", 0)), (some (Expr.lit 1))⟩]), (Stmt.exprStmt (Expr.lit 1)), (Stmt.exprStmt (Expr.lit 1))]) := by
    show foldModule (39 + 1) initState _ = _
    simp only [foldModule, Option.pure_def, Option.bind_eq_bind]
    rw [q1]
    simp only [Option.some_bind]
    (try dsimp only)
    rw [q2]
    rfl
  refine ⟨?_, ?_, ?_, ?_⟩
  · intro f st i e hfr hfc hb hph
    obtain ⟨ph, fr, ch, fs, cs, vk, pm, rw⟩ := st
    dsimp only at hfr hfc hb hph
    subst hph
    subst hfr
    rw [show f + 2 = f + 1 + 1 from rfl]
    simp only [foldExpr, foldExprChildren, Option.pure_def, Option.bind_eq_bind,
      Option.some_bind]
    split
    · next e2 hc =>
      rw [if_neg (show ¬(false = true) from fun hq => Bool.noConfusion hq)] at hc
      exact Option.noConfusion hc
    · (try dsimp only)
      rw [hb]
  · rw [pmod]
    rfl
  · show (runModule initState _).map _ = _
    rw [qmod]
    rfl
  · show (runModule initState _).map _ = _
    rw [qmod]
    rfl

/-- C3 counterexample: after a first run over `const a = 1;` the constants map
still stores the inlineable value `1` for `a`, yet a subsequent run (after
`Repeated::reset`) returns the read `a;` untouched with the change flag clear —
refuting "on any run after the map is built". -/
theorem c3_counterexample_later_run_keeps_read :
    ((runModule initState [(Stmt.varDecl VarDeclKind.constKind [⟨(Pat.pid ("a", 0)), (some (Expr.lit 1))⟩])]).bind fun r1 =>
      runModule (resetPass r1.1) [(Stmt.exprStmt (Expr.ident ("a", 0)))]).map
      (fun r2 => (r2.2, changedFlag r2.1, findConstant r2.1 ("a", 0)))
      = some ([(Stmt.exprStmt (Expr.ident ("a", 0)))], false, some (Expr.lit 1)) := by
  have p1 : foldStmtList 39 ({ initState with phase := Phase.analysis } : St)
      [(Stmt.varDecl VarDeclKind.constKind [⟨(Pat.pid ("a", 0)), (some (Expr.lit 1))⟩])]
      = some (({ phase := Phase.analysis, isFirstRun := true, changed := false, frames := [{ kind := ScopeKind.module, vars := [] }], constants := [(("a", 0), (some (Expr.lit 1)))], varDeclKind := VarDeclKind.constKind, patMode := PatMode.varDeclMode, rewrites := 0 } : St),
        [(Stmt.varDecl VarDeclKind.constKind [⟨(Pat.pid ("a", 0)), (some (Expr.lit 1))⟩])]) := by rfl
  have p2 : foldStmtList 39
      ({ phase := Phase.inlining, isFirstRun := true, changed := false, frames := [{ kind := ScopeKind.module, vars := [] }], constants := [(("a", 0), (some (Expr.lit 1)))], varDeclKind := VarDeclKind.constKind, patMode := PatMode.varDeclMode, rewrites := 0 } : St)
      [(Stmt.varDecl VarDeclKind.constKind [⟨(Pat.pid ("a", 0)), (some (Expr.lit 1))⟩])]
      = some (({ phase := Phase.inlining, isFirstRun := true, changed := false, frames := [{ kind := ScopeKind.module, vars := [] }], constants := [(("a", 0), (some (Expr.lit 1)))], varDeclKind := VarDeclKind.constKind, patMode := PatMode.varDeclMode, rewrites := 0 } : St),
        [(Stmt.varDecl VarDeclKind.constKind [⟨(Pat.pid ("a", 0)), (some (Expr.lit 1))⟩])]) := by rfl
  have pmod : runModule initState
      [(Stmt.varDecl VarDeclKind.constKind [⟨(Pat.pid ("a", 0)), (some (Expr.lit 1))⟩])]
      = some (({ phase := Phase.analysis, isFirstRun := true, changed := false, frames := [{ kind := ScopeKind.module, vars := [] }], constants := [(("a", 0), (some (Expr.lit 1)))], varDeclKind := VarDeclKind.constKind, patMode := PatMode.varDeclMode, rewrites := 0 } : St),
        [(Stmt.varDecl VarDeclKind.constKind [⟨(Pat.pid ("a", 0)), (some (Expr.lit 1))⟩])]) := by
    show foldModule (39 + 1) initState _ = _
    simp only [foldModule, Option.pure_def, Option.bind_eq_bind]
    rw [p1]
    simp only [Option.some_bind]
    (try dsimp only)
    rw [p2]
    rfl
  have x1 : foldStmtList 39 ({ (resetPass ({ phase := Phase.analysis, isFirstRun := true, changed := false, frames := [{ kind := ScopeKind.module, vars := [] }], constants := [(("a", 0), (some (Expr.lit 1)))], varDeclKind := VarDeclKind.constKind, patMode := PatMode.varDeclMode, rewrites := 0 } : St)) with phase := Phase.analysis } : St)
      [(Stmt.exprStmt (Expr.ident ("a", 0)))]
      = some (({ phase := Phase.analysis, isFirstRun := false, changed := false, frames := [{ kind := ScopeKind.module, vars := [] }], constants := [(("a", 0), (some (Expr.lit 1)))], varDeclKind := VarDeclKind.constKind, patMode := PatMode.varDeclMode, rewrites := 0 } : St),
        [(Stmt.exprStmt (Expr.ident ("a", 0)))]) := by rfl
  have x2 : foldStmtList 39
      ({ phase := Phase.inlining, isFirstRun := false, changed := false, frames := [{ kind := ScopeKind.module, vars := [] }], constants := [(("a", 0), (some (Expr.lit 1)))], varDeclKind := VarDeclKind.constKind, patMode := PatMode.varDeclMode, rewrites := 0 } : St)
      [(Stmt.exprStmt (Expr.ident ("a", 0)))]
      = some (({ phase := Phase.inlining, isFirstRun := false, changed := false, frames := [{ kind := ScopeKind.module, vars := [] }], constants := [(("a", 0), (some (Expr.lit 1)))], varDeclKind := VarDeclKind.constKind, patMode := PatMode.varDeclMode, rewrites := 0 } : St),
        [(Stmt.exprStmt (Expr.ident ("a", 0)))]) := by rfl
  have xmod : runModule (resetPass ({ phase := Phase.analysis, isFirstRun := true, changed := false, frames := [{ kind := ScopeKind.module, vars := [] }], constants := [(("a", 0), (some (Expr.lit 1)))], varDeclKind := VarDeclKind.constKind, patMode := PatMode.varDeclMode, rewrites := 0 } : St))
      [(Stmt.exprStmt (Expr.ident ("a", 0)))]
      = some (({ phase := Phase.analysis, isFirstRun := false, changed := false, frames := [{ kind := ScopeKind.module, vars := [] }], constants := [(("a", 0), (some (Expr.lit 1)))], varDeclKind := VarDeclKind.constKind, patMode := PatMode.varDeclMode, rewrites := 0 } : St),
        [(Stmt.exprStmt (Expr.ident ("a", 0)))]) := by
    show foldModule (39 + 1) (resetPass ({ phase := Phase.analysis, isFirstRun := true, changed := false, frames := [{ kind := ScopeKind.module, vars := [] }], constants := [(("a", 0), (some (Expr.lit 1)))], varDeclKind := VarDeclKind.constKind, patMode := PatMode.varDeclMode, rewrites := 0 } : St)) _ = _
    simp only [foldModule, Option.pure_def, Option.bind_eq_bind]
    rw [x1]
    simp only [Option.some_bind]
    (try dsimp only)
    rw [x2]
    rfl
  rw [pmod]
  simp only [Option.some_bind]
  rw [xmod]
  rfl

/-- C4: for `&&` and `||` the fold descends only into the left operand — in the
analysis phase and in the inlining phase alike; the right operand is returned
word for word (the spec's claim that rewriting descends both sides is refuted by
the counterexample). -/
theorem c4_logical_ops_fold_left_only :
    (∀ (f : Nat) (st : St) (l rr : Expr) (r : St × Expr),
      foldBin (f + 1) st .land l rr = some r →
      ∃ st1 l1, foldExpr f st l = some (st1, l1) ∧ r = (st1, Expr.bin .land l1 rr)) ∧
    (∀ (f : Nat) (st : St) (l rr : Expr) (r : St × Expr),
      foldBin (f + 1) st .lor l rr = some r →
      ∃ st1 l1, foldExpr f st l = some (st1, l1) ∧ r = (st1, Expr.bin .lor l1 rr)) := by
  constructor <;>
    (intro f st l rr r h ;
     simp only [foldBin, Option.pure_def, Option.bind_eq_bind, Option.bind_eq_some,
       Option.some.injEq] at h ;
     obtain ⟨⟨st1, l1⟩, h1, h2⟩ := h ;
     exact ⟨st1, l1, h1, h2.symm⟩)

/-- C4 counterexample: on `let x = 1; x && x;` the left operand is rewritten to
`1` while the right operand remains the identifier `x` — the inlining (rewrite)
phase does not descend into the right operand of `&&`. -/
theorem c4_counterexample_right_operand_untouched :
    runProg [(Stmt.varDecl VarDeclKind.letKind [⟨(Pat.pid ("x", 0)), (some (Expr.lit 1))⟩]), (Stmt.exprStmt (Expr.bin BinOp.land (Expr.ident ("x", 0)) (Expr.ident ("x", 0))))]
      = some [(Stmt.varDecl VarDeclKind.letKind [⟨(Pat.pid ("x", 0)), none⟩]), (Stmt.exprStmt (Expr.bin BinOp.land (Expr.lit 1) (Expr.ident ("x", 0))))] := by
  have y1 : foldStmtList 39 ({ initState with phase := Phase.analysis } : St)
      [(Stmt.varDecl VarDeclKind.letKind [⟨(Pat.pid ("x", 0)), (some (Expr.lit 1))⟩]), (Stmt.exprStmt (Expr.bin BinOp.land (Expr.ident ("x", 0)) (Expr.ident ("x", 0))))]
      = some (({ phase := Phase.analysis, isFirstRun := true, changed := false, frames := [{ kind := ScopeKind.module, vars := [(("x", 0), { kind := (VarType.var VarDeclKind.letKind), value := (some (Expr.lit 1)), readCnt := 1, writeCnt := 0, isUndefined := false, inlinePrevented := false, thisSensitive := false })] }], constants := [], varDeclKind := VarDeclKind.letKind, patMode := PatMode.varDeclMode, rewrites := 0 } : St),
        [(Stmt.varDecl VarDeclKind.letKind [⟨(Pat.pid ("x", 0)), (some (Expr.lit 1))⟩]), (Stmt.exprStmt (Expr.bin BinOp.land (Expr.ident ("x", 0)) (Expr.ident ("x", 0))))]) := by rfl
  have y2 : foldStmtList 39
      ({ phase := Phase.inlining, isFirstRun := true, changed := false, frames := [{ kind := ScopeKind.module, vars := [(("x", 0), { kind := (VarType.var VarDeclKind.letKind), value := (some (Expr.lit 1)), readCnt := 1, writeCnt := 0, isUndefined := false, inlinePrevented := false, thisSensitive := false })] }], constants := [], varDeclKind := VarDeclKind.letKind, patMode := PatMode.varDeclMode, rewrites := 0 } : St)
      [(Stmt.varDecl VarDeclKind.letKind [⟨(Pat.pid ("x", 0)), (some (Expr.lit 1))⟩]), (Stmt.exprStmt (Expr.bin BinOp.land (Expr.ident ("x", 0)) (Expr.ident ("x", 0))))]
      = some (({ phase := Phase.inlining, isFirstRun := true, changed := true, frames := [{ kind := ScopeKind.module, vars := [(("x", 0), { kind := (VarType.var VarDeclKind.letKind), value := (some (Expr.lit 1)), readCnt := 1, writeCnt := 1, isUndefined := false, inlinePrevented := false, thisSensitive := false })] }], constants := [], varDeclKind := VarDeclKind.letKind, patMode := PatMode.varDeclMode, rewrites := 2 } : St),
        [(Stmt.varDecl VarDeclKind.letKind [⟨(Pat.pid ("x", 0)), none⟩]), (Stmt.exprStmt (Expr.bin BinOp.land (Expr.lit 1) (Expr.ident ("x", 0))))]) := by rfl
  have ymod : runModule initState
      [(Stmt.varDecl VarDeclKind.letKind [⟨(Pat.pid ("x", 0)), (some (Expr.lit 1))⟩]), (Stmt.exprStmt (Expr.bin BinOp.land (Expr.ident ("x", 0)) (Expr.ident ("x", 0))))]
      = some (({ phase := Phase.analysis, isFirstRun := true, changed := true, frames := [{ kind := ScopeKind.module, vars := [(("x", 0), { kind := (VarType.var VarDeclKind.letKind), value := (some (Expr.lit 1)), readCnt := 1, writeCnt := 1, isUndefined := false, inlinePrevented := false, thisSensitive := false })] }], constants := [], varDeclKind := VarDeclKind.letKind, patMode := PatMode.varDeclMode, rewrites := 2 } : St),
        [(Stmt.varDecl VarDeclKind.letKind [⟨(Pat.pid ("x", 0)), none⟩]), (Stmt.exprStmt (Expr.bin BinOp.land (Expr.lit 1) (Expr.ident ("x", 0))))]) := by
    show foldModule (39 + 1) initState _ = _
    simp only [foldModule, Option.pure_def, Option.bind_eq_bind]
    rw [y1]
    simp only [Option.some_bind]
    (try dsimp only)
    rw [y2]
    rfl
  show (runModule initState _).map _ = _
  rw [ymod]
  rfl

/-- C5: an identifier operand of an update expression (`++`/`--`) or of a
`delete` is marked inline-prevented by the visitor, and a prevented binding's
reads are never substituted, so `let a = 2; a++; use(a);` is returned
unchanged. -/
theorem c5_update_delete_prevent_inlining :
    (∀ (f : Nat) (st : St) (x : Id) (r : St × Expr),
      foldUpdate f st (.ident x) = some r →
      ∀ v, findBinding r.1 x = some v → v.inlinePrevented = true) ∧
    (∀ (f : Nat) (st : St) (x : Id) (r : St × Expr),
      foldUnary f st .udelete (.ident x) = some r →
      ∀ v, findBinding r.1 x = some v → v.inlinePrevented = true) ∧
    (∀ (f : Nat) (st : St) (x : Id) (v : VarInfo),
      st.phase = .inlining →
      (if st.isFirstRun then findConstant st x else none) = none →
      findBinding st x = some v → v.inlinePrevented = true →
      foldExpr (f + 2) st (.ident x) = some (st, .ident x)) ∧
    runProg [(Stmt.varDecl VarDeclKind.letKind [⟨(Pat.pid ("a", 0)), (some (Expr.lit 2))⟩]), (Stmt.exprStmt (Expr.update (Expr.ident ("a", 0)))), (Stmt.exprStmt (Expr.call (Expr.ident ("use", 0)) [(Expr.ident ("a", 0))]))]
      = some [(Stmt.varDecl VarDeclKind.letKind [⟨(Pat.pid ("a", 0)), (some (Expr.lit 2))⟩]), (Stmt.exprStmt (Expr.update (Expr.ident ("a", 0)))), (Stmt.exprStmt (Expr.call (Expr.ident ("use", 0)) [(Expr.ident ("a", 0))]))] ∧
    runChanged [(Stmt.varDecl VarDeclKind.letKind [⟨(Pat.pid ("a", 0)), (some (Expr.lit 2))⟩]), (Stmt.exprStmt (Expr.update (Expr.ident ("a", 0)))), (Stmt.exprStmt (Expr.call (Expr.ident ("use", 0)) [(Expr.ident ("a", 0))]))]
      = some false := by
  have u1 : foldStmtList 39 ({ initState with phase := Phase.analysis } : St)
      [(Stmt.varDecl VarDeclKind.letKind [⟨(Pat.pid ("a", 0)), (some (Expr.lit 2))⟩]), (Stmt.exprStmt (Expr.update (Expr.ident ("a", 0)))), (Stmt.exprStmt (Expr.call (Expr.ident ("use", 0)) [(Expr.ident ("a", 0))]))]
      = some (({ phase := Phase.analysis, isFirstRun := true, changed := false, frames := [{ kind := ScopeKind.module, vars := [(("a", 0), { kind := (VarType.var VarDeclKind.letKind), value := (some (Expr.lit 2)), readCnt := 1, writeCnt := 1, isUndefined := false, inlinePrevented := true, thisSensitive := false })] }], constants := [], varDeclKind := VarDeclKind.letKind, patMode := PatMode.varDeclMode, rewrites := 0 } : St),
        [(Stmt.varDecl VarDeclKind.letKind [⟨(Pat.pid ("a", 0)), (some (Expr.lit 2))⟩]), (Stmt.exprStmt (Expr.update (Expr.ident ("a", 0)))), (Stmt.exprStmt (Expr.call (Expr.ident ("use", 0)) [(Expr.ident ("a", 0))]))]) := by rfl
  have u2 : foldStmtList 39
      ({ phase := Phase.inlining, isFirstRun := true, changed := false, frames := [{ kind := ScopeKind.module, vars := [(("a", 0), { kind := (VarType.var VarDeclKind.letKind), value := (some (Expr.lit 2)), readCnt := 1, writeCnt := 1, isUndefined := false, inlinePrevented := true, thisSensitive := false })] }], constants := [], varDeclKind := VarDeclKind.letKind, patMode := PatMode.varDeclMode, rewrites := 0 } : St)
      [(Stmt.varDecl VarDeclKind.letKind [⟨(Pat.pid ("a", 0)), (some (Expr.lit 2))⟩]), (Stmt.exprStmt (Expr.update (Expr.ident ("a", 0)))), (Stmt.exprStmt (Expr.call (Expr.ident ("use", 0)) [(Expr.ident ("a", 0))]))]
      = some (({ phase := Phase.inlining, isFirstRun := true, changed := false, frames := [{ kind := ScopeKind.module, vars := [(("a", 0), { kind := (VarType.var VarDeclKind.letKind), value := (some (Expr.lit 2)), readCnt := 1, writeCnt := 2, isUndefined := false, inlinePrevented := true, thisSensitive := false })] }], constants := [], varDeclKind := VarDeclKind.letKind, patMode := PatMode.varDeclMode, rewrites := 0 } : St),
        [(Stmt.varDecl VarDeclKind.letKind [⟨(Pat.pid ("a", 0)), (some (Expr.lit 2))⟩]), (Stmt.exprStmt (Expr.update (Expr.ident ("a", 0)))), (Stmt.exprStmt (Expr.call (Expr.ident ("use", 0)) [(Expr.ident ("a", 0))]))]) := by rfl
  have umod : runModule initState
      [(Stmt.varDecl VarDeclKind.letKind [⟨(Pat.pid ("a", 0)), (some (Expr.lit 2))⟩]), (Stmt.exprStmt (Expr.update (Expr.ident ("a", 0)))), (Stmt.exprStmt (Expr.call (Expr.ident ("use", 0)) [(Expr.ident ("a", 0))]))]
      = some (({ phase := Phase.analysis, isFirstRun := true, changed := false, frames := [{ kind := ScopeKind.module, vars := [(("a", 0), { kind := (VarType.var VarDeclKind.letKind), value := (some (Expr.lit 2)), readCnt := 1, writeCnt := 2, isUndefined := false, inlinePrevented := true, thisSensitive := false })] }], constants := [], varDeclKind := VarDeclKind.letKind, patMode := PatMode.varDeclMode, rewrites := 0 } : St),
        [(Stmt.varDecl VarDeclKind.letKind [⟨(Pat.pid ("a", 0)), (some (Expr.lit 2))⟩]), (Stmt.exprStmt (Expr.update (Expr.ident ("a", 0)))), (Stmt.exprStmt (Expr.call (Expr.ident ("use", 0)) [(Expr.ident ("a", 0))]))]) := by
    show foldModule (39 + 1) initState _ = _
    simp only [foldModule, Option.pure_def, Option.bind_eq_bind]
    rw [u1]
    simp only [Option.some_bind]
    (try dsimp only)
    rw [u2]
    rfl
  refine ⟨?_, ?_, ?_, ?_, ?_⟩
  · intro f st x r h
    cases f with
    | zero => exact Option.noConfusion h
    | succ f =>
      simp only [foldUpdate, Option.pure_def, Option.some.injEq] at h
      subst h
      intro v hv
      have hv2 : (findBinding st x).map (fun w => { w with writeCnt := w.writeCnt + 1, inlinePrevented := w.inlinePrevented || true }) = some v :=
        (findBinding_updateInnermost _ st x).symm.trans hv
      cases hb : findBinding st x with
      | none => rw [hb] at hv2; exact Option.noConfusion hv2
      | some v0 =>
        rw [hb] at hv2
        simp only [Option.map_some', Option.some.injEq] at hv2
        subst hv2
        exact Bool.or_true _
  · intro f st x r h
    cases f with
    | zero => exact Option.noConfusion h
    | succ f =>
      simp only [foldUnary, Option.pure_def, Option.some.injEq] at h
      subst h
      intro v hv
      have hv2 : (findBinding st x).map (fun w => { w with writeCnt := w.writeCnt + 1, inlinePrevented := w.inlinePrevented || true }) = some v :=
        (findBinding_updateInnermost _ st x).symm.trans hv
      cases hb : findBinding st x with
      | none => rw [hb] at hv2; exact Option.noConfusion hv2
      | some v0 =>
        rw [hb] at hv2
        simp only [Option.map_some', Option.some.injEq] at hv2
        subst hv2
        exact Bool.or_true _
  · intro f st x v hph hfc hb hp
    obtain ⟨ph, fr, ch, fs, cs, vk, pm, rw⟩ := st
    dsimp only at hph hfc hb
    subst hph
    rw [show f + 2 = f + 1 + 1 from rfl]
    simp only [foldExpr, foldExprChildren, Option.pure_def, Option.bind_eq_bind,
      Option.some_bind]
    rw [hfc]
    dsimp only
    rw [hb]
    dsimp only
    split
    · next htr => rw [hp] at htr; exact Bool.noConfusion htr
    · rfl
  · show (runModule initState _).map _ = _
    rw [umod]
    rfl
  · show (runModule initState _).map _ = _
    rw [umod]
    rfl

/-- C6: a `for` statement with init, test and update all absent raises the
inline barrier (every visible binding becomes inline-prevented) in addition to
processing the body in a child loop scope, so `let n = 1; for(;;)…` is returned
unchanged; with a head present no barrier is raised and `n` is inlined. -/
theorem c6_empty_for_head_barrier :
    (∀ (f : Nat) (st : St) (b : Stmt) (r : St × Stmt),
      foldFor (f + 1) st none none none b = some r → allPrevented r.1 = true) ∧
    runProg [(Stmt.varDecl VarDeclKind.letKind [⟨(Pat.pid ("n", 0)), (some (Expr.lit 1))⟩]), (Stmt.forStmt none none none (Stmt.block [(Stmt.exprStmt (Expr.call (Expr.ident ("use", 0)) [(Expr.ident ("n", 0))]))]))]
      = some [(Stmt.varDecl VarDeclKind.letKind [⟨(Pat.pid ("n", 0)), (some (Expr.lit 1))⟩]), (Stmt.forStmt none none none (Stmt.block [(Stmt.exprStmt (Expr.call (Expr.ident ("use", 0)) [(Expr.ident ("n", 0))]))]))] ∧
    runChanged [(Stmt.varDecl VarDeclKind.letKind [⟨(Pat.pid ("n", 0)), (some (Expr.lit 1))⟩]), (Stmt.forStmt none none none (Stmt.block [(Stmt.exprStmt (Expr.call (Expr.ident ("use", 0)) [(Expr.ident ("n", 0))]))]))]
      = some false ∧
    runProg [(Stmt.varDecl VarDeclKind.letKind [⟨(Pat.pid ("n", 0)), (some (Expr.lit 1))⟩]), (Stmt.forStmt (some (ForHead.exprHead (Expr.lit 0))) none none (Stmt.block [])), (Stmt.exprStmt (Expr.ident ("n", 0)))]
      = some [(Stmt.varDecl VarDeclKind.letKind [⟨(Pat.pid ("n", 0)), none⟩]), (Stmt.forStmt (some (ForHead.exprHead (Expr.lit 0))) none none (Stmt.block [])), (Stmt.exprStmt (Expr.lit 1))] := by
  have e1 : foldStmtList 39 ({ initState with phase := Phase.analysis } : St)
      [(Stmt.varDecl VarDeclKind.letKind [⟨(Pat.pid ("n", 0)), (some (Expr.lit 1))⟩]), (Stmt.forStmt none none none (Stmt.block [(Stmt.exprStmt (Expr.call (Expr.ident ("use", 0)) [(Expr.ident ("n", 0))]))]))]
      = some (({ phase := Phase.analysis, isFirstRun := true, changed := false, frames := [{ kind := ScopeKind.module, vars := [(("n", 0), { kind := (VarType.var VarDeclKind.letKind), value := (some (Expr.lit 1)), readCnt := 1, writeCnt := 0, isUndefined := false, inlinePrevented := true, thisSensitive := false })] }], constants := [], varDeclKind := VarDeclKind.letKind, patMode := PatMode.varDeclMode, rewrites := 0 } : St),
        [(Stmt.varDecl VarDeclKind.letKind [⟨(Pat.pid ("n", 0)), (some (Expr.lit 1))⟩]), (Stmt.forStmt none none none (Stmt.block [(Stmt.exprStmt (Expr.call (Expr.ident ("use", 0)) [(Expr.ident ("n", 0))]))]))]) := by rfl
  have e2 : foldStmtList 39
      ({ phase := Phase.inlining, isFirstRun := true, changed := false, frames := [{ kind := ScopeKind.module, vars := [(("n", 0), { kind := (VarType.var VarDeclKind.letKind), value := (some (Expr.lit 1)), readCnt := 1, writeCnt := 0, isUndefined := false, inlinePrevented := true, thisSensitive := false })] }], constants := [], varDeclKind := VarDeclKind.letKind, patMode := PatMode.varDeclMode, rewrites := 0 } : St)
      [(Stmt.varDecl VarDeclKind.letKind [⟨(Pat.pid ("n", 0)), (some (Expr.lit 1))⟩]), (Stmt.forStmt none none none (Stmt.block [(Stmt.exprStmt (Expr.call (Expr.ident ("use", 0)) [(Expr.ident ("n", 0))]))]))]
      = some (({ phase := Phase.inlining, isFirstRun := true, changed := false, frames := [{ kind := ScopeKind.module, vars := [(("n", 0), { kind := (VarType.var VarDeclKind.letKind), value := (some (Expr.lit 1)), readCnt := 2, writeCnt := 0, isUndefined := false, inlinePrevented := true, thisSensitive := false })] }], constants := [], varDeclKind := VarDeclKind.letKind, patMode := PatMode.varDeclMode, rewrites := 0 } : St),
        [(Stmt.varDecl VarDeclKind.letKind [⟨(Pat.pid ("n", 0)), (some (Expr.lit 1))⟩]), (Stmt.forStmt none none none (Stmt.block [(Stmt.exprStmt (Expr.call (Expr.ident ("use", 0)) [(Expr.ident ("n", 0))]))]))]) := by rfl
  have emod : runModule initState
      [(Stmt.varDecl VarDeclKind.letKind [⟨(Pat.pid ("n", 0)), (some (Expr.lit 1))⟩]), (Stmt.forStmt none none none (Stmt.block [(Stmt.exprStmt (Expr.call (Expr.ident ("use", 0)) [(Expr.ident ("n", 0))]))]))]
      = some (({ phase := Phase.analysis, isFirstRun := true, changed := false, frames := [{ kind := ScopeKind.module, vars := [(("n", 0), { kind := (VarType.var VarDeclKind.letKind), value := (some (Expr.lit 1)), readCnt := 2, writeCnt := 0, isUndefined := false, inlinePrevented := true, thisSensitive := false })] }], constants := [], varDeclKind := VarDeclKind.letKind, patMode := PatMode.varDeclMode, rewrites := 0 } : St),
        [(Stmt.varDecl VarDeclKind.letKind [⟨(Pat.pid ("n", 0)), (some (Expr.lit 1))⟩]), (Stmt.forStmt none none none (Stmt.block [(Stmt.exprStmt (Expr.call (Expr.ident ("use", 0)) [(Expr.ident ("n", 0))]))]))]) := by
    show foldModule (39 + 1) initState _ = _
    simp only [foldModule, Option.pure_def, Option.bind_eq_bind]
    rw [e1]
    simp only [Option.some_bind]
    (try dsimp only)
    rw [e2]
    rfl
  have w1 : foldStmtList 39 ({ initState with phase := Phase.analysis } : St)
      [(Stmt.varDecl VarDeclKind.letKind [⟨(Pat.pid ("n", 0)), (some (Expr.lit 1))⟩]), (Stmt.forStmt (some (ForHead.exprHead (Expr.lit 0))) none none (Stmt.block [])), (Stmt.exprStmt (Expr.ident ("n", 0)))]
      = some (({ phase := Phase.analysis, isFirstRun := true, changed := false, frames := [{ kind := ScopeKind.module, vars := [(("n", 0), { kind := (VarType.var VarDeclKind.letKind), value := (some (Expr.lit 1)), readCnt := 1, writeCnt := 0, isUndefined := false, inlinePrevented := false, thisSensitive := false })] }], constants := [], varDeclKind := VarDeclKind.letKind, patMode := PatMode.varDeclMode, rewrites := 0 } : St),
        [(Stmt.varDecl VarDeclKind.letKind [⟨(Pat.pid ("n", 0)), (some (Expr.lit 1))⟩]), (Stmt.forStmt (some (ForHead.exprHead (Expr.lit 0))) none none (Stmt.block [])), (Stmt.exprStmt (Expr.ident ("n", 0)))]) := by rfl
  have w2 : foldStmtList 39
      ({ phase := Phase.inlining, isFirstRun := true, changed := false, frames := [{ kind := ScopeKind.module, vars := [(("n", 0), { kind := (VarType.var VarDeclKind.letKind), value := (some (Expr.lit 1)), readCnt := 1, writeCnt := 0, isUndefined := false, inlinePrevented := false, thisSensitive := false })] }], constants := [], varDeclKind := VarDeclKind.letKind, patMode := PatMode.varDeclMode, rewrites := 0 } : St)
      [(Stmt.varDecl VarDeclKind.letKind [⟨(Pat.pid ("n", 0)), (some (Expr.lit 1))⟩]), (Stmt.forStmt (some (ForHead.exprHead (Expr.lit 0))) none none (Stmt.block [])), (Stmt.exprStmt (Expr.ident ("n", 0)))]
      = some (({ phase := Phase.inlining, isFirstRun := true, changed := true, frames := [{ kind := ScopeKind.module, vars := [(("n", 0), { kind := (VarType.var VarDeclKind.letKind), value := (some (Expr.lit 1)), readCnt := 1, writeCnt := 1, isUndefined := false, inlinePrevented := false, thisSensitive := false })] }], constants := [], varDeclKind := VarDeclKind.letKind, patMode := PatMode.varDeclMode, rewrites := 2 } : St),
        [(Stmt.varDecl VarDeclKind.letKind [⟨(Pat.pid ("n", 0)), none⟩]), (Stmt.forStmt (some (ForHead.exprHead (Expr.lit 0))) none none (Stmt.block [])), (Stmt.exprStmt (Expr.lit 1))]) := by rfl
  have wmod : runModule initState
      [(Stmt.varDecl VarDeclKind.letKind [⟨(Pat.pid ("n", 0)), (some (Expr.lit 1))⟩]), (Stmt.forStmt (some (ForHead.exprHead (Expr.lit 0))) none none (Stmt.block [])), (Stmt.exprStmt (Expr.ident ("n", 0)))]
      = some (({ phase := Phase.analysis, isFirstRun := true, changed := true, frames := [{ kind := ScopeKind.module, vars := [(("n", 0), { kind := (VarType.var VarDeclKind.letKind), value := (some (Expr.lit 1)), readCnt := 1, writeCnt := 1, isUndefined := false, inlinePrevented := false, thisSensitive := false })] }], constants := [], varDeclKind := VarDeclKind.letKind, patMode := PatMode.varDeclMode, rewrites := 2 } : St),
        [(Stmt.varDecl VarDeclKind.letKind [⟨(Pat.pid ("n", 0)), none⟩]), (Stmt.forStmt (some (ForHead.exprHead (Expr.lit 0))) none none (Stmt.block [])), (Stmt.exprStmt (Expr.lit 1))]) := by
    show foldModule (39 + 1) initState _ = _
    simp only [foldModule, Option.pure_def, Option.bind_eq_bind]
    rw [w1]
    simp only [Option.some_bind]
    (try dsimp only)
    rw [w2]
    rfl
  refine ⟨?_, ?_, ?_, ?_⟩
  · intro f st b r h
    cases f with
    | zero => exact Option.noConfusion h
    | succ f =>
      simp only [foldFor, Option.pure_def, Option.bind_eq_bind, Option.bind_eq_some,
        Option.some.injEq] at h
      obtain ⟨⟨stA, init2⟩, h1, ⟨stB, test2⟩, h2, ⟨stC, update2⟩, h3,
        ⟨st2, body2⟩, h4, h5⟩ := h
      simp only [foldOptForHead, Option.pure_def, Option.some.injEq, Prod.mk.injEq] at h1
      obtain ⟨h1a, h1b⟩ := h1
      subst h1a
      subst h1b
      simp only [foldOptExpr, Option.pure_def, Option.some.injEq, Prod.mk.injEq] at h2
      obtain ⟨h2a, h2b⟩ := h2
      subst h2a
      subst h2b
      simp only [foldOptExpr, Option.pure_def, Option.some.injEq, Prod.mk.injEq] at h3
      obtain ⟨h3a, h3b⟩ := h3
      subst h3a
      subst h3b
      subst h5
      exact allPrevented_storeInlineBarrier (popFrame st2) (popFrame st2).phase
  · show (runModule initState _).map _ = _
    rw [emod]
    rfl
  · show (runModule initState _).map _ = _
    rw [emod]
    rfl
  · show (runModule initState _).map _ = _
    rw [wmod]
    rfl

/-- C7: within a single run every binding's `inline_prevented` flag is monotone —
the scope stack of the output state dominates the input's, scope by scope:
every prevented binding stays present and prevented (`FramesMono`), for a whole
module run as well as for every single expression or statement fold. -/
theorem c7_inline_prevented_monotone :
    (∀ (f : Nat) (st : St) (items : List Stmt) (r : St × List Stmt),
      foldModule f st items = some r → FramesMono st.frames r.1.frames) ∧
    (∀ (f : Nat) (st : St) (e : Expr) (r : St × Expr),
      foldExpr f st e = some r → FramesMono st.frames r.1.frames) ∧
    (∀ (f : Nat) (st : St) (s : Stmt) (r : St × Stmt),
      foldStmt f st s = some r → FramesMono st.frames r.1.frames) := by
  refine ⟨?_, ?_, ?_⟩
  · intro f st items r h
    exact (goodModule f st items r h).1.1
  · intro f st e r h
    exact ((goodAll f).1 st e r h).1.1
  · intro f st s r h
    exact ((goodAll f).2.2.2.2.2.2.2.2.2.2.2.2.2.2.1 st s r h).1.1

/-- C8: a `var` binding declared without initializer that still holds the
undefined sentinel and is not inline-prevented has its identifier reads rewritten
in the inlining phase to the literal undefined (`void 0`); concretely
`var y; y;` becomes `var y; void 0;`. -/
theorem c8_undefined_var_read_substituted :
    (∀ (f : Nat) (st : St) (i : Id) (v : VarInfo),
      st.phase = .inlining →
      (if st.isFirstRun then findConstant st i else none) = none →
      findBinding st i = some v → v.inlinePrevented = false →
      v.value = none → v.isUndefined = true →
      foldExpr (f + 2) st (.ident i) = some (bumpRewrites st, undefinedExpr)) ∧
    runProg [(Stmt.varDecl VarDeclKind.varKind [⟨(Pat.pid ("y", 0)), none⟩]), (Stmt.exprStmt (Expr.ident ("y", 0)))]
      = some [(Stmt.varDecl VarDeclKind.varKind [⟨(Pat.pid ("y", 0)), none⟩]), (Stmt.exprStmt (Expr.unary UnaryOp.uvoid (Expr.lit 0)))] := by
  have n1 : foldStmtList 39 ({ initState with phase := Phase.analysis } : St)
      [(Stmt.varDecl VarDeclKind.varKind [⟨(Pat.pid ("y", 0)), none⟩]), (Stmt.exprStmt (Expr.ident ("y", 0)))]
      = some (({ phase := Phase.analysis, isFirstRun := true, changed := false, frames := [{ kind := ScopeKind.module, vars := [(("y", 0), { kind := (VarType.var VarDeclKind.varKind), value := none, readCnt := 1, writeCnt := 0, isUndefined := true, inlinePrevented := false, thisSensitive := false })] }], constants := [], varDeclKind := VarDeclKind.varKind, patMode := PatMode.varDeclMode, rewrites := 0 } : St),
        [(Stmt.varDecl VarDeclKind.varKind [⟨(Pat.pid ("y", 0)), none⟩]), (Stmt.exprStmt (Expr.ident ("y", 0)))]) := by rfl
  have n2 : foldStmtList 39
      ({ phase := Phase.inlining, isFirstRun := true, changed := false, frames := [{ kind := ScopeKind.module, vars := [(("y", 0), { kind := (VarType.var VarDeclKind.varKind), value := none, readCnt := 1, writeCnt := 0, isUndefined := true, inlinePrevented := false, thisSensitive := false })] }], constants := [], varDeclKind := VarDeclKind.varKind, patMode := PatMode.varDeclMode, rewrites := 0 } : St)
      [(Stmt.varDecl VarDeclKind.varKind [⟨(Pat.pid ("y", 0)), none⟩]), (Stmt.exprStmt (Expr.ident ("y", 0)))]
      = some (({ phase := Phase.inlining, isFirstRun := true, changed := false, frames := [{ kind := ScopeKind.module, vars := [(("y", 0), { kind := (VarType.var VarDeclKind.varKind), value := none, readCnt := 1, writeCnt := 1, isUndefined := true, inlinePrevented := false, thisSensitive := false })] }], constants := [], varDeclKind := VarDeclKind.varKind, patMode := PatMode.varDeclMode, rewrites := 1 } : St),
        [(Stmt.varDecl VarDeclKind.varKind [⟨(Pat.pid ("y", 0)), none⟩]), (Stmt.exprStmt (Expr.unary UnaryOp.uvoid (Expr.lit 0)))]) := by rfl
  have nmod : runModule initState
      [(Stmt.varDecl VarDeclKind.varKind [⟨(Pat.pid ("y", 0)), none⟩]), (Stmt.exprStmt (Expr.ident ("y", 0)))]
      = some (({ phase := Phase.analysis, isFirstRun := true, changed := false, frames := [{ kind := ScopeKind.module, vars := [(("y", 0), { kind := (VarType.var VarDeclKind.varKind), value := none, readCnt := 1, writeCnt := 1, isUndefined := true, inlinePrevented := false, thisSensitive := false })] }], constants := [], varDeclKind := VarDeclKind.varKind, patMode := PatMode.varDeclMode, rewrites := 1 } : St),
        [(Stmt.varDecl VarDeclKind.varKind [⟨(Pat.pid ("y", 0)), none⟩]), (Stmt.exprStmt (Expr.unary UnaryOp.uvoid (Expr.lit 0)))]) := by
    show foldModule (39 + 1) initState _ = _
    simp only [foldModule, Option.pure_def, Option.bind_eq_bind]
    rw [n1]
    simp only [Option.some_bind]
    (try dsimp only)
    rw [n2]
    rfl
  refine ⟨?_, ?_⟩
  · intro f st i v hph hfc hb hp hv hu
    obtain ⟨ph, fr, ch, fs, cs, vk, pm, rw⟩ := st
    dsimp only at hph hfc hb
    subst hph
    rw [show f + 2 = f + 1 + 1 from rfl]
    simp only [foldExpr, foldExprChildren, Option.pure_def, Option.bind_eq_bind,
      Option.some_bind]
    rw [hfc]
    dsimp only
    rw [hb]
    dsimp only
    split
    · rw [hv]
    · next hfalse => exact absurd (by rw [hp]; rfl) hfalse
  · show (runModule initState _).map _ = _
    rw [nmod]
    rfl

/-- C9: a first run that performs no rewrite leaves the change flag clear and
returns the program unchanged; and substituting a stored value that is
syntactically identical to the identifier it replaces does not set the change
flag (the `node != *expr` comparison). -/
theorem c9_noop_run_roundtrip :
    (∀ (p : List Stmt) (st2 : St) (p2 : List Stmt),
      runModule initState p = some (st2, p2) → st2.rewrites = 0 →
      changedFlag st2 = false ∧ p2 = p) ∧
    (∀ (f : Nat) (st : St) (i : Id) (v : VarInfo),
      st.phase = .inlining →
      (if st.isFirstRun then findConstant st i else none) = none →
      findBinding st i = some v → v.inlinePrevented = false →
      v.value = some (.ident i) →
      foldExpr (f + 2) st (.ident i) = some (bumpRewrites st, .ident i) ∧
        (bumpRewrites st).changed = st.changed) := by
  refine ⟨?_, ?_⟩
  · intro p st2 p2 h hr
    have g := goodModule fuelDef initState p (st2, p2) h
    refine ⟨?_, ?_⟩
    · have hc : st2.changed = initState.changed := g.1.2.2 hr
      exact hc
    · exact g.2 hr
  · intro f st i v hph hfc hb hp hv
    obtain ⟨ph, fr, ch, fs, cs, vk, pm, rw⟩ := st
    dsimp only at hph hfc hb
    subst hph
    refine ⟨?_, rfl⟩
    rw [show f + 2 = f + 1 + 1 from rfl]
    simp only [foldExpr, foldExprChildren, Option.pure_def, Option.bind_eq_bind,
      Option.some_bind]
    rw [hfc]
    dsimp only
    rw [hb]
    dsimp only
    split
    · rw [hv]
      dsimp only
      rw [if_pos (show exprEqb (Expr.ident i) (Expr.ident i) = true from by
        simp [exprEqb])]
    · next hfalse => exact absurd (by rw [hp]; rfl) hfalse

/-- C10: the assignment elision consults only the innermost scope
(`find_binding_from_current`): when the target's binding lives in a strictly
enclosing scope the assignment is returned intact even if that binding holds the
undefined sentinel and nothing is inline-prevented; concretely
`var y; { y = x; }` is returned unchanged. -/
theorem c10_elision_restricted_to_current_scope :
    (∀ (f : Nat) (st st1 : St) (node rhs : Expr) (x : Id) (v : VarInfo),
      foldExprChildren f st node = some (st1, Expr.assign .eq (.pid x) rhs) →
      st1.phase = .inlining →
      findBindingFromCurrent st1 x = none →
      findBinding st1 x = some v →
      v.isUndefined = true → v.inlinePrevented = false →
      isInlinePrevented st1 rhs = false →
      foldExpr (f + 1) st node = some (st1, Expr.assign .eq (.pid x) rhs)) ∧
    runProg [(Stmt.varDecl VarDeclKind.varKind [⟨(Pat.pid ("y", 0)), none⟩]), (Stmt.block [(Stmt.exprStmt (Expr.assign AssignOp.eq (AssignLeft.pid ("y", 0)) (Expr.ident ("x", 0))))])]
      = some [(Stmt.varDecl VarDeclKind.varKind [⟨(Pat.pid ("y", 0)), none⟩]), (Stmt.block [(Stmt.exprStmt (Expr.assign AssignOp.eq (AssignLeft.pid ("y", 0)) (Expr.ident ("x", 0))))])] ∧
    runChanged [(Stmt.varDecl VarDeclKind.varKind [⟨(Pat.pid ("y", 0)), none⟩]), (Stmt.block [(Stmt.exprStmt (Expr.assign AssignOp.eq (AssignLeft.pid ("y", 0)) (Expr.ident ("x", 0))))])]
      = some false := by
  have t1 : foldStmtList 39 ({ initState with phase := Phase.analysis } : St)
      [(Stmt.varDecl VarDeclKind.varKind [⟨(Pat.pid ("y", 0)), none⟩]), (Stmt.block [(Stmt.exprStmt (Expr.assign AssignOp.eq (AssignLeft.pid ("y", 0)) (Expr.ident ("x", 0))))])]
      = some (({ phase := Phase.analysis, isFirstRun := true, changed := false, frames := [{ kind := ScopeKind.module, vars := [(("y", 0), { kind := (VarType.var VarDeclKind.varKind), value := (some (Expr.ident ("x", 0))), readCnt := 0, writeCnt := 2, isUndefined := true, inlinePrevented := false, thisSensitive := false })] }], constants := [], varDeclKind := VarDeclKind.varKind, patMode := PatMode.assignMode, rewrites := 0 } : St),
        [(Stmt.varDecl VarDeclKind.varKind [⟨(Pat.pid ("y", 0)), none⟩]), (Stmt.block [(Stmt.exprStmt (Expr.assign AssignOp.eq (AssignLeft.pid ("y", 0)) (Expr.ident ("x", 0))))])]) := by rfl
  have td : foldStmt 38 ({ phase := Phase.inlining, isFirstRun := true, changed := false, frames := [{ kind := ScopeKind.module, vars := [(("y", 0), { kind := (VarType.var VarDeclKind.varKind), value := (some (Expr.ident ("x", 0))), readCnt := 0, writeCnt := 2, isUndefined := true, inlinePrevented := false, thisSensitive := false })] }], constants := [], varDeclKind := VarDeclKind.varKind, patMode := PatMode.assignMode, rewrites := 0 } : St) (Stmt.varDecl VarDeclKind.varKind [⟨(Pat.pid ("y", 0)), none⟩])
      = some (({ phase := Phase.inlining, isFirstRun := true, changed := false, frames := [{ kind := ScopeKind.module, vars := [(("y", 0), { kind := (VarType.var VarDeclKind.varKind), value := none, readCnt := 0, writeCnt := 3, isUndefined := true, inlinePrevented := false, thisSensitive := false })] }], constants := [], varDeclKind := VarDeclKind.varKind, patMode := PatMode.varDeclMode, rewrites := 0 } : St), (Stmt.varDecl VarDeclKind.varKind [⟨(Pat.pid ("y", 0)), none⟩])) := by rfl
  have ta : foldStmtList 35 ({ phase := Phase.analysis, isFirstRun := true, changed := false, frames := [{ kind := ScopeKind.block, vars := [] }, { kind := ScopeKind.module, vars := [(("y", 0), { kind := (VarType.var VarDeclKind.varKind), value := none, readCnt := 0, writeCnt := 3, isUndefined := true, inlinePrevented := false, thisSensitive := false })] }], constants := [], varDeclKind := VarDeclKind.varKind, patMode := PatMode.varDeclMode, rewrites := 0 } : St)
      [(Stmt.exprStmt (Expr.assign AssignOp.eq (AssignLeft.pid ("y", 0)) (Expr.ident ("x", 0))))]
      = some (({ phase := Phase.analysis, isFirstRun := true, changed := false, frames := [{ kind := ScopeKind.block, vars := [] }, { kind := ScopeKind.module, vars := [(("y", 0), { kind := (VarType.var VarDeclKind.varKind), value := (some (Expr.ident ("x", 0))), readCnt := 0, writeCnt := 5, isUndefined := true, inlinePrevented := false, thisSensitive := false })] }], constants := [], varDeclKind := VarDeclKind.varKind, patMode := PatMode.assignMode, rewrites := 0 } : St), [(Stmt.exprStmt (Expr.assign AssignOp.eq (AssignLeft.pid ("y", 0)) (Expr.ident ("x", 0))))]) := by rfl
  have tb : foldStmtList 35 ({ phase := Phase.inlining, isFirstRun := true, changed := false, frames := [{ kind := ScopeKind.block, vars := [] }, { kind := ScopeKind.module, vars := [(("y", 0), { kind := (VarType.var VarDeclKind.varKind), value := (some (Expr.ident ("x", 0))), readCnt := 0, writeCnt := 5, isUndefined := true, inlinePrevented := false, thisSensitive := false })] }], constants := [], varDeclKind := VarDeclKind.varKind, patMode := PatMode.assignMode, rewrites := 0 } : St) [(Stmt.exprStmt (Expr.assign AssignOp.eq (AssignLeft.pid ("y", 0)) (Expr.ident ("x", 0))))]
      = some (({ phase := Phase.inlining, isFirstRun := true, changed := false, frames := [{ kind := ScopeKind.block, vars := [] }, { kind := ScopeKind.module, vars := [(("y", 0), { kind := (VarType.var VarDeclKind.varKind), value := (some (Expr.ident ("x", 0))), readCnt := 0, writeCnt := 7, isUndefined := true, inlinePrevented := false, thisSensitive := false })] }], constants := [], varDeclKind := VarDeclKind.varKind, patMode := PatMode.assignMode, rewrites := 0 } : St), [(Stmt.exprStmt (Expr.assign AssignOp.eq (AssignLeft.pid ("y", 0)) (Expr.ident ("x", 0))))]) := by rfl
  have ts : foldStmts 36 ({ phase := Phase.inlining, isFirstRun := true, changed := false, frames := [{ kind := ScopeKind.block, vars := [] }, { kind := ScopeKind.module, vars := [(("y", 0), { kind := (VarType.var VarDeclKind.varKind), value := none, readCnt := 0, writeCnt := 3, isUndefined := true, inlinePrevented := false, thisSensitive := false })] }], constants := [], varDeclKind := VarDeclKind.varKind, patMode := PatMode.varDeclMode, rewrites := 0 } : St) [(Stmt.exprStmt (Expr.assign AssignOp.eq (AssignLeft.pid ("y", 0)) (Expr.ident ("x", 0))))]
      = some (({ phase := Phase.inlining, isFirstRun := true, changed := false, frames := [{ kind := ScopeKind.block, vars := [] }, { kind := ScopeKind.module, vars := [(("y", 0), { kind := (VarType.var VarDeclKind.varKind), value := (some (Expr.ident ("x", 0))), readCnt := 0, writeCnt := 7, isUndefined := true, inlinePrevented := false, thisSensitive := false })] }], constants := [], varDeclKind := VarDeclKind.varKind, patMode := PatMode.assignMode, rewrites := 0 } : St), [(Stmt.exprStmt (Expr.assign AssignOp.eq (AssignLeft.pid ("y", 0)) (Expr.ident ("x", 0))))]) := by
    show foldStmts (35 + 1) _ _ = _
    simp only [foldStmts, Option.pure_def, Option.bind_eq_bind]
    (try dsimp only)
    rw [ta]
    simp only [Option.some_bind]
    (try dsimp only)
    rw [tb]
    rfl
  have tblk : foldStmt 37 ({ phase := Phase.inlining, isFirstRun := true, changed := false, frames := [{ kind := ScopeKind.module, vars := [(("y", 0), { kind := (VarType.var VarDeclKind.varKind), value := none, readCnt := 0, writeCnt := 3, isUndefined := true, inlinePrevented := false, thisSensitive := false })] }], constants := [], varDeclKind := VarDeclKind.varKind, patMode := PatMode.varDeclMode, rewrites := 0 } : St)
      (Stmt.block [(Stmt.exprStmt (Expr.assign AssignOp.eq (AssignLeft.pid ("y", 0)) (Expr.ident ("x", 0))))])
      = some (popFrame ({ phase := Phase.inlining, isFirstRun := true, changed := false, frames := [{ kind := ScopeKind.block, vars := [] }, { kind := ScopeKind.module, vars := [(("y", 0), { kind := (VarType.var VarDeclKind.varKind), value := (some (Expr.ident ("x", 0))), readCnt := 0, writeCnt := 7, isUndefined := true, inlinePrevented := false, thisSensitive := false })] }], constants := [], varDeclKind := VarDeclKind.varKind, patMode := PatMode.assignMode, rewrites := 0 } : St), Stmt.block [(Stmt.exprStmt (Expr.assign AssignOp.eq (AssignLeft.pid ("y", 0)) (Expr.ident ("x", 0))))]) := by
    show foldStmt (36 + 1) _ _ = _
    simp only [foldStmt, Option.pure_def, Option.bind_eq_bind]
    rw [show pushFrame ScopeKind.block ({ phase := Phase.inlining, isFirstRun := true, changed := false, frames := [{ kind := ScopeKind.module, vars := [(("y", 0), { kind := (VarType.var VarDeclKind.varKind), value := none, readCnt := 0, writeCnt := 3, isUndefined := true, inlinePrevented := false, thisSensitive := false })] }], constants := [], varDeclKind := VarDeclKind.varKind, patMode := PatMode.varDeclMode, rewrites := 0 } : St) = ({ phase := Phase.inlining, isFirstRun := true, changed := false, frames := [{ kind := ScopeKind.block, vars := [] }, { kind := ScopeKind.module, vars := [(("y", 0), { kind := (VarType.var VarDeclKind.varKind), value := none, readCnt := 0, writeCnt := 3, isUndefined := true, inlinePrevented := false, thisSensitive := false })] }], constants := [], varDeclKind := VarDeclKind.varKind, patMode := PatMode.varDeclMode, rewrites := 0 } : St) from rfl]
    rw [ts]
    (try simp only [Option.some_bind])
    (try rfl)
  have t2 : foldStmtList 39 ({ phase := Phase.inlining, isFirstRun := true, changed := false, frames := [{ kind := ScopeKind.module, vars := [(("y", 0), { kind := (VarType.var VarDeclKind.varKind), value := (some (Expr.ident ("x", 0))), readCnt := 0, writeCnt := 2, isUndefined := true, inlinePrevented := false, thisSensitive := false })] }], constants := [], varDeclKind := VarDeclKind.varKind, patMode := PatMode.assignMode, rewrites := 0 } : St)
      [(Stmt.varDecl VarDeclKind.varKind [⟨(Pat.pid ("y", 0)), none⟩]), (Stmt.block [(Stmt.exprStmt (Expr.assign AssignOp.eq (AssignLeft.pid ("y", 0)) (Expr.ident ("x", 0))))])]
      = some (({ phase := Phase.inlining, isFirstRun := true, changed := false, frames := [{ kind := ScopeKind.module, vars := [(("y", 0), { kind := (VarType.var VarDeclKind.varKind), value := (some (Expr.ident ("x", 0))), readCnt := 0, writeCnt := 7, isUndefined := true, inlinePrevented := false, thisSensitive := false })] }], constants := [], varDeclKind := VarDeclKind.varKind, patMode := PatMode.assignMode, rewrites := 0 } : St),
        [(Stmt.varDecl VarDeclKind.varKind [⟨(Pat.pid ("y", 0)), none⟩]), (Stmt.block [(Stmt.exprStmt (Expr.assign AssignOp.eq (AssignLeft.pid ("y", 0)) (Expr.ident ("x", 0))))])]) := by
    show foldStmtList (38 + 1) _ _ = _
    simp only [foldStmtList, Option.pure_def, Option.bind_eq_bind]
    rw [td]
    simp only [Option.some_bind]
    (try dsimp only)
    rw [tblk]
    (try simp only [Option.some_bind])
    (try rfl)
  have tmod : runModule initState
      [(Stmt.varDecl VarDeclKind.varKind [⟨(Pat.pid ("y", 0)), none⟩]), (Stmt.block [(Stmt.exprStmt (Expr.assign AssignOp.eq (AssignLeft.pid ("y", 0)) (Expr.ident ("x", 0))))])]
      = some (({ phase := Phase.analysis, isFirstRun := true, changed := false, frames := [{ kind := ScopeKind.module, vars := [(("y", 0), { kind := (VarType.var VarDeclKind.varKind), value := (some (Expr.ident ("x", 0))), readCnt := 0, writeCnt := 7, isUndefined := true, inlinePrevented := false, thisSensitive := false })] }], constants := [], varDeclKind := VarDeclKind.varKind, patMode := PatMode.assignMode, rewrites := 0 } : St),
        [(Stmt.varDecl VarDeclKind.varKind [⟨(Pat.pid ("y", 0)), none⟩]), (Stmt.block [(Stmt.exprStmt (Expr.assign AssignOp.eq (AssignLeft.pid ("y", 0)) (Expr.ident ("x", 0))))])]) := by
    show foldModule (39 + 1) initState _ = _
    simp only [foldModule, Option.pure_def, Option.bind_eq_bind]
    rw [t1]
    simp only [Option.some_bind]
    (try dsimp only)
    rw [t2]
    rfl
  refine ⟨?_, ?_, ?_⟩
  · intro f st st1 node rhs x v h1 hph hcur hb hu hp hr
    simp only [foldExpr, Option.pure_def, Option.bind_eq_bind]
    rw [h1]
    obtain ⟨p1, f1, c1, fs1, cs1, k1, m1, r1⟩ := st1
    dsimp only at hph hcur
    subst hph
    dsimp only [Option.some_bind]
    rw [hcur]
  · show (runModule initState _).map _ = _
    rw [tmod]
    rfl
  · show (runModule initState _).map _ = _
    rw [tmod]
    rfl

/-- C1 witness: the elision theorem applied to a concrete state with an
undefined current-scope binding. -/
theorem c1_elision_witness :
    foldExpr 5 (mkSt .inlining [(yId, undefInfo)])
        (.assign .eq (.pid yId) .thisE)
      = some (elideAssign ({ mkSt .inlining [(yId, undefInfo)] with
          patMode := PatMode.assignMode }) yId .thisE, .thisE) :=
  (c1_inlining_elides_undefined_assignment.1 4 (mkSt .inlining [(yId, undefInfo)])
    ({ mkSt .inlining [(yId, undefInfo)] with patMode := PatMode.assignMode })
    (.assign .eq (.pid yId) .thisE) .thisE yId undefInfo
    rfl rfl rfl rfl rfl rfl).1

/-- C2 witness: a concrete call fold leaves every visible binding
inline-prevented. -/
theorem c2_barrier_witness :
    allPrevented (storeInlineBarrier (mkSt .inlining [(xId, litInfo 1)]) Phase.inlining)
      = true :=
  c2_call_new_inline_barrier.1 3 (mkSt .inlining [(xId, litInfo 1)]) (Expr.lit 0) []
    (storeInlineBarrier (mkSt .inlining [(xId, litInfo 1)]) Phase.inlining,
      Expr.call (Expr.lit 0) []) rfl

/-- C3 witness: a non-first-run read is untouched although the constants map
stores an inlineable value for it. -/
theorem c3_later_run_witness :
    foldExpr 2 ({ mkSt .inlining [] with constants := [(aId, some (Expr.lit 1))] })
        (Expr.ident aId)
      = some ({ mkSt .inlining [] with constants := [(aId, some (Expr.lit 1))] },
        Expr.ident aId) :=
  c3_constants_eager_only_on_first_run.1 0
    ({ mkSt .inlining [] with constants := [(aId, some (Expr.lit 1))] }) aId
    (Expr.lit 1) rfl rfl rfl rfl

/-- C4 witness: the `&&` fold applied at a concrete input returns the right
operand word for word. -/
theorem c4_left_only_witness :
    ∃ st1 l1, foldExpr 2 (mkSt .inlining []) (Expr.lit 5) = some (st1, l1) ∧
      ((mkSt .inlining [] : St), Expr.bin .land (Expr.lit 5) (Expr.ident xId))
        = (st1, Expr.bin .land l1 (Expr.ident xId)) :=
  c4_logical_ops_fold_left_only.1 2 (mkSt .inlining []) (Expr.lit 5) (Expr.ident xId)
    ((mkSt .inlining [] : St), Expr.bin .land (Expr.lit 5) (Expr.ident xId)) rfl

/-- C5 witness: folding `a++` at a concrete state leaves the binding of `a`
inline-prevented. -/
theorem c5_prevent_witness :
    ({ litInfo 2 with writeCnt := 1, inlinePrevented := true } : VarInfo).inlinePrevented
      = true :=
  c5_update_delete_prevent_inlining.1 1 (mkSt .analysis [(aId, litInfo 2)]) aId
    (identListVisit (mkSt .analysis [(aId, litInfo 2)]) (collectIds (Expr.ident aId)),
      Expr.update (Expr.ident aId)) rfl
    { litInfo 2 with writeCnt := 1, inlinePrevented := true } rfl

/-- C6 witness: a concrete empty-head `for` fold leaves every visible binding
inline-prevented. -/
theorem c6_barrier_witness :
    allPrevented (storeInlineBarrier (mkSt .inlining [(nId, litInfo 1)]) Phase.inlining)
      = true :=
  c6_empty_for_head_barrier.1 5 (mkSt .inlining [(nId, litInfo 1)])
    (Stmt.exprStmt Expr.thisE)
    (storeInlineBarrier (mkSt .inlining [(nId, litInfo 1)]) Phase.inlining,
      Stmt.forStmt none none none (Stmt.exprStmt Expr.thisE)) rfl

/-- C7 witness: the monotonicity theorem applied to a concrete module run. -/
theorem c7_monotone_witness :
    FramesMono initState.frames (({ phase := Phase.analysis, isFirstRun := true, changed := false, frames := [{ kind := ScopeKind.module, vars := [(("y", 0), { kind := (VarType.var VarDeclKind.varKind), value := none, readCnt := 1, writeCnt := 1, isUndefined := true, inlinePrevented := false, thisSensitive := false })] }], constants := [], varDeclKind := VarDeclKind.varKind, patMode := PatMode.varDeclMode, rewrites := 1 } : St)).frames := by
  have m1 : foldStmtList 39 ({ initState with phase := Phase.analysis } : St)
      [(Stmt.varDecl VarDeclKind.varKind [⟨(Pat.pid ("y", 0)), none⟩]), (Stmt.exprStmt (Expr.ident ("y", 0)))]
      = some (({ phase := Phase.analysis, isFirstRun := true, changed := false, frames := [{ kind := ScopeKind.module, vars := [(("y", 0), { kind := (VarType.var VarDeclKind.varKind), value := none, readCnt := 1, writeCnt := 0, isUndefined := true, inlinePrevented := false, thisSensitive := false })] }], constants := [], varDeclKind := VarDeclKind.varKind, patMode := PatMode.varDeclMode, rewrites := 0 } : St),
        [(Stmt.varDecl VarDeclKind.varKind [⟨(Pat.pid ("y", 0)), none⟩]), (Stmt.exprStmt (Expr.ident ("y", 0)))]) := by rfl
  have m2 : foldStmtList 39
      ({ phase := Phase.inlining, isFirstRun := true, changed := false, frames := [{ kind := ScopeKind.module, vars := [(("y", 0), { kind := (VarType.var VarDeclKind.varKind), value := none, readCnt := 1, writeCnt := 0, isUndefined := true, inlinePrevented := false, thisSensitive := false })] }], constants := [], varDeclKind := VarDeclKind.varKind, patMode := PatMode.varDeclMode, rewrites := 0 } : St)
      [(Stmt.varDecl VarDeclKind.varKind [⟨(Pat.pid ("y", 0)), none⟩]), (Stmt.exprStmt (Expr.ident ("y", 0)))]
      = some (({ phase := Phase.inlining, isFirstRun := true, changed := false, frames := [{ kind := ScopeKind.module, vars := [(("y", 0), { kind := (VarType.var VarDeclKind.varKind), value := none, readCnt := 1, writeCnt := 1, isUndefined := true, inlinePrevented := false, thisSensitive := false })] }], constants := [], varDeclKind := VarDeclKind.varKind, patMode := PatMode.varDeclMode, rewrites := 1 } : St),
        [(Stmt.varDecl VarDeclKind.varKind [⟨(Pat.pid ("y", 0)), none⟩]), (Stmt.exprStmt (Expr.unary UnaryOp.uvoid (Expr.lit 0)))]) := by rfl
  have mmod : runModule initState
      [(Stmt.varDecl VarDeclKind.varKind [⟨(Pat.pid ("y", 0)), none⟩]), (Stmt.exprStmt (Expr.ident ("y", 0)))]
      = some (({ phase := Phase.analysis, isFirstRun := true, changed := false, frames := [{ kind := ScopeKind.module, vars := [(("y", 0), { kind := (VarType.var VarDeclKind.varKind), value := none, readCnt := 1, writeCnt := 1, isUndefined := true, inlinePrevented := false, thisSensitive := false })] }], constants := [], varDeclKind := VarDeclKind.varKind, patMode := PatMode.varDeclMode, rewrites := 1 } : St),
        [(Stmt.varDecl VarDeclKind.varKind [⟨(Pat.pid ("y", 0)), none⟩]), (Stmt.exprStmt (Expr.unary UnaryOp.uvoid (Expr.lit 0)))]) := by
    show foldModule (39 + 1) initState _ = _
    simp only [foldModule, Option.pure_def, Option.bind_eq_bind]
    rw [m1]
    simp only [Option.some_bind]
    (try dsimp only)
    rw [m2]
    rfl
  exact c7_inline_prevented_monotone.1 fuelDef initState
    [(Stmt.varDecl VarDeclKind.varKind [⟨(Pat.pid ("y", 0)), none⟩]), (Stmt.exprStmt (Expr.ident ("y", 0)))]
    (({ phase := Phase.analysis, isFirstRun := true, changed := false, frames := [{ kind := ScopeKind.module, vars := [(("y", 0), { kind := (VarType.var VarDeclKind.varKind), value := none, readCnt := 1, writeCnt := 1, isUndefined := true, inlinePrevented := false, thisSensitive := false })] }], constants := [], varDeclKind := VarDeclKind.varKind, patMode := PatMode.varDeclMode, rewrites := 1 } : St),
      [(Stmt.varDecl VarDeclKind.varKind [⟨(Pat.pid ("y", 0)), none⟩]), (Stmt.exprStmt (Expr.unary UnaryOp.uvoid (Expr.lit 0)))]) mmod

/-- C8 witness: the undefined-substitution theorem applied at a concrete
state. -/
theorem c8_undefined_witness :
    foldExpr 2 (mkSt .inlining [(yId, undefInfo)]) (Expr.ident yId)
      = some (bumpRewrites (mkSt .inlining [(yId, undefInfo)]), undefinedExpr) :=
  c8_undefined_var_read_substituted.1 0 (mkSt .inlining [(yId, undefInfo)]) yId
    undefInfo rfl rfl rfl rfl rfl rfl

/-- C9 witness: the no-op round-trip applied to a concrete one-statement
program. -/
theorem c9_roundtrip_witness :
    changedFlag initState = false ∧
      [Stmt.exprStmt (Expr.ident zId)] = [Stmt.exprStmt (Expr.ident zId)] :=
  c9_noop_run_roundtrip.1 [Stmt.exprStmt (Expr.ident zId)] initState
    [Stmt.exprStmt (Expr.ident zId)] rfl rfl

/-- C10 witness: the innermost-scope restriction applied at a concrete
two-scope state. -/
theorem c10_innermost_witness :
    foldExpr 5 ({ mkSt .inlining [(yId, undefInfo)] with
        frames := [{ kind := ScopeKind.block, vars := [] },
          { kind := ScopeKind.module, vars := [(yId, undefInfo)] }] })
      (Expr.assign .eq (.pid yId) Expr.thisE)
      = some (addWrite ({ mkSt .inlining [(yId, undefInfo)] with
          frames := [{ kind := ScopeKind.block, vars := [] },
            { kind := ScopeKind.module, vars := [(yId, undefInfo)] }],
          patMode := PatMode.assignMode }) yId false,
        Expr.assign .eq (.pid yId) Expr.thisE) :=
  c10_elision_restricted_to_current_scope.1 4
    ({ mkSt .inlining [(yId, undefInfo)] with
        frames := [{ kind := ScopeKind.block, vars := [] },
          { kind := ScopeKind.module, vars := [(yId, undefInfo)] }] })
    (addWrite ({ mkSt .inlining [(yId, undefInfo)] with
        frames := [{ kind := ScopeKind.block, vars := [] },
          { kind := ScopeKind.module, vars := [(yId, undefInfo)] }],
        patMode := PatMode.assignMode }) yId false)
    (Expr.assign .eq (.pid yId) Expr.thisE) Expr.thisE yId
    { undefInfo with writeCnt := 1 }
    rfl rfl rfl rfl rfl rfl rfl

end SwcInlining
